import Mathlib

/-!
# Protocol bridge: pending-command tracker, translation engine, packet builders and frame assemblers

A shallow embedding of `User_Src/command_tracking.cpp`,
`User_Src/command_handler.cpp`, `User_Src/packet_builder.cpp`,
`User_Src/generic_translator.cpp` and the two byte-wise frame assemblers of
`User_Src/uart_handler.cpp`.

Conventions of the embedding
* machine integers are `Nat`; wrap-around is written out (`% 4294967296`,
  `% 65536`, `% 256`) at the places where the C arithmetic can wrap;
* a byte buffer reached through a pointer is a `List Nat`, read with
  `List.getD _ i 0`; its length argument is passed separately, as in the source;
* the tracker object, reached through `ring_buf_ptr` in the source, is passed
  and returned explicitly; input pointers that the source tests against null
  are `Option`s, `none` being the null pointer;
* the mapping reference stored in a pending entry is the index of the entry in
  `command_map` (the address `&command_map[i]`), `none` being the null pointer;
* `HAL_GetTick()` is an external clock: the value it returns is the `tick`
  (or `now`) argument of every function that reads it;
* a call of a packet handler made by a frame assembler is returned next to the
  new state, as the buffer and the length passed in the call.
-/

namespace StaCam

/-! ## command_tracking.h -/

/-- Maximum length of a stored command packet (`CMD_MAX_LENGTH`). -/
def CMD_MAX_LENGTH : Nat := 32

/-- Number of commands the tracker can hold (`CMD_BUFFER_SIZE`). -/
def CMD_BUFFER_SIZE : Nat := 16

/-- Query tag of a pending command. -/
inductive queryBitEnum where
  | QUERY_NONE
  | QUERY_IMG_PAL
  | QUERY_BR_CT
  | QUERY_AUTO_NUC
  | QUERY_MAX
deriving DecidableEq, Repr

/-- One pending command: `original_request` is the 32-byte array of the source. -/
structure cmdBlock_t where
  original_request : List Nat
  request_lenth : Nat
  nmbr : queryBitEnum
  timestamp : Nat
  mapping : Option Nat
deriving DecidableEq, Repr

/-- The ring buffer: `buffer` is the array of `CMD_MAX_LENGTH` (32) blocks the
header declares, of which the indices `0 .. 15` are used by `head`. -/
structure cmdRingBuffer_t where
  buffer : List cmdBlock_t
  head : Nat
  tail : Nat
  count : Nat
deriving DecidableEq, Repr

/-- A block after `memset(block_ptr, 0, sizeof(cmdBlock_t))`. -/
def zeroBlock : cmdBlock_t :=
  { original_request := List.replicate CMD_MAX_LENGTH 0
    request_lenth := 0
    nmbr := queryBitEnum.QUERY_NONE
    timestamp := 0
    mapping := none }

/-- The 32-byte request array after `memset` to zero followed by
`memcpy(block_ptr->original_request, orig_req_ptr, req_len)`. -/
def copyRequest (req : List Nat) (req_len : Nat) : List Nat :=
  (List.range CMD_MAX_LENGTH).map (fun i => if i < req_len then req.getD i 0 else 0)

/-! ## command_tracking.cpp -/

/-- `CmdRingBuffer_Init`: the whole structure is zeroed. -/
def CmdRingBuffer_Init (_rb : cmdRingBuffer_t) : cmdRingBuffer_t :=
  { buffer := List.replicate CMD_MAX_LENGTH zeroBlock, head := 0, tail := 0, count := 0 }

/-- `CmdRingBuffer_PushComplete` as defined in `command_tracking.cpp`, with
the `resp_len` parameter and its guard that the definition has. The result
is the returned flag and the tracker after the call. -/
def CmdRingBuffer_PushComplete (rb : cmdRingBuffer_t) (resp_len : Nat)
    (orig_req_ptr : Option (List Nat)) (req_len : Nat) (query_type : queryBitEnum)
    (mapping_ptr : Option Nat) (tick : Nat) : Bool × cmdRingBuffer_t :=
  match orig_req_ptr, mapping_ptr with
  | some req, some m =>
    if rb.count < CMD_BUFFER_SIZE then
      if req_len ≤ CMD_MAX_LENGTH ∧ resp_len ≤ CMD_MAX_LENGTH then
        let block : cmdBlock_t :=
          { original_request := copyRequest req req_len
            request_lenth := req_len
            nmbr := query_type
            timestamp := tick
            mapping := some m }
        (true,
          { buffer := rb.buffer.set rb.head block
            head := ((rb.head + 1) % 4294967296) % CMD_BUFFER_SIZE
            tail := rb.tail
            count := rb.count + 1 })
      else (false, rb)
    else (false, rb)
  | _, _ => (false, rb)

/-- `CmdRingBuffer_Pop`: the copied block (`none` when the call returns false
and writes nothing) and the tracker after the call. The tail is advanced with
the bitwise AND the source has. -/
def CmdRingBuffer_Pop (rb : cmdRingBuffer_t) : Option cmdBlock_t × cmdRingBuffer_t :=
  if rb.count > 0 then
    (some (rb.buffer.getD rb.tail zeroBlock),
      { buffer := rb.buffer
        head := rb.head
        tail := ((rb.tail + 1) % 4294967296) &&& CMD_BUFFER_SIZE
        count := rb.count - 1 })
  else (none, rb)

/-- `CmdRingBuffer_Peek`: the copied block and the tracker, which the source
reaches through a pointer to const and does not write. -/
def CmdRingBuffer_Peek (rb : cmdRingBuffer_t) : Option cmdBlock_t × cmdRingBuffer_t :=
  if rb.count > 0 then (some (rb.buffer.getD rb.tail zeroBlock), rb) else (none, rb)

/-- `CmdRingBuffer_IsEmpty`. -/
def CmdRingBuffer_IsEmpty (rb : cmdRingBuffer_t) : Bool := rb.count == 0

/-- `CmdRingBuffer_IsFull`. -/
def CmdRingBuffer_IsFull (rb : cmdRingBuffer_t) : Bool := rb.count == CMD_BUFFER_SIZE

/-- `CmdRingBuffer_Size`. -/
def CmdRingBuffer_Size (rb : cmdRingBuffer_t) : Nat := rb.count

/-- `CmdRingBuffer_Clear`. -/
def CmdRingBuffer_Clear (_rb : cmdRingBuffer_t) : cmdRingBuffer_t :=
  { buffer := List.replicate CMD_MAX_LENGTH zeroBlock, head := 0, tail := 0, count := 0 }

/-- The `uint32_t` difference `current_time - oldest_timestamp`. -/
def elapsedTime (current_time oldest_timestamp : Nat) : Nat :=
  (current_time % 4294967296 + 4294967296 - oldest_timestamp % 4294967296) % 4294967296

/-- `CmdRingBuffer_RemoveIfTimeout`. -/
def CmdRingBuffer_RemoveIfTimeout (rb : cmdRingBuffer_t) (timeout_ms current_time : Nat) :
    Bool × cmdRingBuffer_t :=
  if rb.count > 0 then
    let oldest_timestamp := (rb.buffer.getD rb.tail zeroBlock).timestamp
    let elapsed_time := elapsedTime current_time oldest_timestamp
    if elapsed_time ≥ timeout_ms then
      (true,
        { buffer := rb.buffer
          head := rb.head
          tail := ((rb.tail + 1) % 4294967296) % CMD_BUFFER_SIZE
          count := rb.count - 1 })
    else (false, rb)
  else (false, rb)

/-- The calls a client can make on the tracker, with their arguments. -/
inductive TrackerCall where
  | push (resp_len : Nat) (orig_req_ptr : Option (List Nat)) (req_len : Nat)
      (query_type : queryBitEnum) (mapping_ptr : Option Nat) (tick : Nat)
  | pop
  | peek
  | removeIfTimeout (timeout_ms current_time : Nat)
  | clear

/-- The tracker after one call. -/
def trackerStep (rb : cmdRingBuffer_t) : TrackerCall → cmdRingBuffer_t
  | TrackerCall.push resp_len req req_len q m tick =>
      (CmdRingBuffer_PushComplete rb resp_len req req_len q m tick).2
  | TrackerCall.pop => (CmdRingBuffer_Pop rb).2
  | TrackerCall.peek => (CmdRingBuffer_Peek rb).2
  | TrackerCall.removeIfTimeout timeout_ms current_time =>
      (CmdRingBuffer_RemoveIfTimeout rb timeout_ms current_time).2
  | TrackerCall.clear => CmdRingBuffer_Clear rb

/-- The tracker after a sequence of calls on a tracker initialised by
`CmdRingBuffer_Init`. -/
def trackerRun (calls : List TrackerCall) : cmdRingBuffer_t :=
  calls.foldl trackerStep (CmdRingBuffer_Init ⟨[], 0, 0, 0⟩)

/-! ## command_handler.h -/

/-- `MAKE_CTRL_KEY(kb0,kb1)`: both operands are cast to `uint16_t`, and so is
the result. -/
def MAKE_CTRL_KEY (kb0 kb1 : Nat) : Nat :=
  (((kb0 % 65536) <<< 8) ||| (kb1 % 65536)) % 65536

/-- Command timeout in milliseconds (`COMMAND_TIMEOUT_MS`). -/
def COMMAND_TIMEOUT_MS : Nat := 1000

def CTRL_PKT_START_AA : Nat := 0xAA
def CTRL_PKT_START_55 : Nat := 0x55
def CTRL_PKT_END_EB : Nat := 0xEB
def CTRL_PKT_END_AA : Nat := 0xAA
def CTRL_PKT_RESP_RESERVE : Nat := 0x33
def CTRL_PKT_RESP_ACK_BYTE : Nat := 0x01
def CAM_PKT_START1 : Nat := 0x55
def CAM_PKT_START2 : Nat := 0xAA
def CAM_PKT_END : Nat := 0xF0

/-- Command type. -/
inductive CommandType_t where
  | CMD_TYPE_SET
  | CMD_TYPE_READ
deriving DecidableEq, Repr

/-- Translation result codes. -/
inductive TranslationResult_t where
  | TRANSLATION_OK
  | TRANSLATION_UNKNOWN_CMD
  | TRANSLATION_INVALID_PACKET
  | TRANSLATION_QUEUE_FULL
  | TRANSLATION_CHECKSUM_ERROR
  | TRANSLATION_TIMEOUT
  | TRANSLATION_ERROR
deriving DecidableEq, Repr

/-- A translator (`CtrlToCamTranslator_t`): from the control packet and its
length to the bytes written to the camera buffer, whose number is the value
stored through `cam_len_ptr`; `none` when the translator returns false. -/
abbrev CtrlToCamTranslator_t := List Nat → Nat → Option (List Nat)

/-- A response generator (`CamToCtrlResponse_t`): from the camera response, its
length, the original control request and its length to the bytes written to the
control response buffer; `none` when the generator returns false. -/
abbrev CamToCtrlResponse_t := List Nat → Nat → List Nat → Nat → Option (List Nat)

/-- An optional matcher (`CtrlMatchFunc_t`). -/
abbrev CtrlMatchFunc_t := List Nat → Nat → Bool

/-- One row of the mapping table. -/
structure CommandMapping_t where
  ctrl_key : Nat
  query_id : queryBitEnum
  type : CommandType_t
  cam_cmd : List Nat
  translator : CtrlToCamTranslator_t
  response_gen : CamToCtrlResponse_t
  matcher : Option CtrlMatchFunc_t
  desc : String

/-! ## command_handler.cpp -/

/-- `CalculateCtrlChecksum` of `command_handler.cpp`: the loop runs over the
indices `0 .. len-4`, the sum is a `uint32_t`. -/
def CalculateCtrlChecksum (packet_ptr : List Nat) (len : Nat) : Nat :=
  if len < 4 then 0
  else
    ((((List.range (len - 3)).map (fun i => packet_ptr.getD i 0)).sum) % 4294967296) % 256

/-- `CalculateCamChecksum`: XOR of the bytes at the indices `2 .. len-3`. -/
def CalculateCamChecksum (packet_ptr : List Nat) (len : Nat) : Nat :=
  if len < 4 then 0
  else
    (List.range (len - 2 - 2)).foldl (fun xorv k => (xorv ^^^ packet_ptr.getD (2 + k) 0) % 256) 0

/-- `VerifyCtrlPacket`. -/
def VerifyCtrlPacket (packet_ptr : List Nat) (len : Nat) : Bool :=
  if len < 8 then false
  else if !(packet_ptr.getD 0 0 == 0xAA || packet_ptr.getD 0 0 == 0x55) then false
  else if !(packet_ptr.getD (len - 2) 0 == CTRL_PKT_END_EB
      && packet_ptr.getD (len - 1) 0 == CTRL_PKT_END_AA) then false
  else if CalculateCtrlChecksum packet_ptr len != packet_ptr.getD (len - 3) 0 then false
  else true

/-- `VerifyCamPacket`. -/
def VerifyCamPacket (packet_ptr : List Nat) (len : Nat) : Bool :=
  if len < 6 then false
  else if packet_ptr.getD 0 0 != CAM_PKT_START1 || packet_ptr.getD 1 0 != CAM_PKT_START2 then false
  else if packet_ptr.getD (len - 1) 0 != CAM_PKT_END then false
  else if CalculateCamChecksum packet_ptr len != packet_ptr.getD (len - 2) 0 then false
  else true

/-- The loop `for (i = 2U; i < idx; i++) xorv ^= cam_packet_ptr[i]` of the
translators, over the `idx` bytes written so far. -/
def xorFromIndex2 (written : List Nat) : Nat :=
  (List.range (written.length - 2)).foldl (fun xorv k => (xorv ^^^ written.getD (2 + k) 0) % 256) 0

/-- `Translator_SimpleSet`. -/
def Translator_SimpleSet : CtrlToCamTranslator_t := fun _ctrl_packet_ptr ctrl_len =>
  if ctrl_len < 8 then none
  else
    let payload : List Nat := [0x00, 0x01]
    let written : List Nat :=
      [CAM_PKT_START1, CAM_PKT_START2, 0x07, 0x02, 0x01, 0x08, 0x00, 0x00,
        payload.getD 0 0, payload.getD 1 0]
    let xorv := xorFromIndex2 written
    some (written ++ [xorv, CAM_PKT_END])

/-- `BuildCtrlResponseHeader`: the five header bytes appended to the bytes
written so far (`*pos` is their number). -/
def BuildCtrlResponseHeader (buf : List Nat) (cmd payload_len : Nat) : List Nat :=
  buf ++ [0x55, (5 + payload_len) % 256, 0x00, cmd, CTRL_PKT_RESP_RESERVE]

/-- `CONSTANT_PL_FOR_CALC_CS`. -/
def CONSTANT_PL_FOR_CALC_CS : Nat := 9

/-- `ResponseGen_SimpleACK`. -/
def ResponseGen_SimpleACK : CamToCtrlResponse_t :=
  fun _cam_resp_ptr _cam_len orig_ctrl_ptr orig_ctrl_len =>
    if orig_ctrl_len < 4 then none
    else
      let cmd := orig_ctrl_ptr.getD 3 0
      let hdr := BuildCtrlResponseHeader [] cmd 0
      let withAck := hdr ++ [CTRL_PKT_RESP_ACK_BYTE]
      let cs := CalculateCtrlChecksum withAck CONSTANT_PL_FOR_CALC_CS
      some (withAck ++ [cs, CTRL_PKT_END_EB, CTRL_PKT_END_AA])

/-- `Translator_ZoomSet`: the six header bytes, the ten payload bytes copied
from `ctrl_packet_ptr[5 .. 14]`, the length byte `idx - 2` written into byte 2,
then the XOR and the end marker. -/
def Translator_ZoomSet : CtrlToCamTranslator_t := fun ctrl_packet_ptr ctrl_len =>
  let payload_len : Nat := 10
  if ctrl_len < 5 + payload_len + 3 then none
  else
    let header : List Nat := [CAM_PKT_START1, CAM_PKT_START2, 0x00, 0x02, 0x01, 0x08]
    let copied : List Nat :=
      header ++ (List.range payload_len).map (fun i => ctrl_packet_ptr.getD (5 + i) 0)
    let written : List Nat := copied.set 2 ((copied.length - 2) % 256)
    let xorv := xorFromIndex2 written
    some (written ++ [xorv, CAM_PKT_END])

/-- `Translator_ReadQuery`. -/
def Translator_ReadQuery : CtrlToCamTranslator_t := fun ctrl_packet_ptr ctrl_len =>
  if ctrl_len < 8 then none
  else
    let ctrl_cmd := ctrl_packet_ptr.getD 3 0
    let cam_query : Option Nat :=
      if ctrl_cmd = 0x03 then some 0x10
      else if ctrl_cmd = 0x04 then some 0x20
      else if ctrl_cmd = 0x05 then some 0x30
      else none
    match cam_query with
    | none => none
    | some q =>
      let written : List Nat :=
        [CAM_PKT_START1, CAM_PKT_START2, 0x07, 0x02, 0x02, q, 0x00, 0x00, 0x00, 0x00]
      let xorv := xorFromIndex2 written
      some (written ++ [xorv, CAM_PKT_END])

/-- The loop `for (i = 1U; i < pos; i++) sum += ctrl_resp_ptr[i]` of
`ResponseGen_EchoParam` and `ResponseGen_MultiParam`, over the `pos` bytes
written so far, followed by `sum & 0xFF`; the sum is a `uint32_t`. -/
def sumFromIndex1 (written : List Nat) : Nat :=
  ((((List.range (written.length - 1)).map (fun k => written.getD (1 + k) 0)).sum)
    % 4294967296) % 256

/-- `ResponseGen_EchoParam`. -/
def ResponseGen_EchoParam : CamToCtrlResponse_t :=
  fun _cam_resp_ptr _cam_len orig_ctrl_ptr orig_ctrl_len =>
    if orig_ctrl_len < 6 then none
    else
      let cmd := orig_ctrl_ptr.getD 3 0
      let param := orig_ctrl_ptr.getD 5 0
      let hdr := BuildCtrlResponseHeader [] cmd 1
      let written := hdr ++ [param]
      let cs := sumFromIndex1 written
      some (written ++ [cs, CTRL_PKT_END_EB, CTRL_PKT_END_AA])

/-- `ResponseGen_MultiParam`. -/
def ResponseGen_MultiParam : CamToCtrlResponse_t :=
  fun cam_resp_ptr cam_len orig_ctrl_ptr _orig_ctrl_len =>
    let b0 := if cam_len ≥ 7 then cam_resp_ptr.getD 4 0 else 0
    let b1 := if cam_len ≥ 7 then (if cam_len > 5 then cam_resp_ptr.getD 5 0 else 0) else 0
    let b2 := if cam_len ≥ 7 then (if cam_len > 6 then cam_resp_ptr.getD 6 0 else 0) else 0
    let b3 := if cam_len ≥ 7 then (if cam_len > 7 then cam_resp_ptr.getD 7 0 else 0) else 0
    let cmd := orig_ctrl_ptr.getD 3 0
    let hdr := BuildCtrlResponseHeader [] cmd 4
    let written := hdr ++ [b0, b1, b2, b3]
    let cs := sumFromIndex1 written
    some (written ++ [cs, CTRL_PKT_END_EB, CTRL_PKT_END_AA])

/-- The mapping table `command_map`. -/
def command_map : List CommandMapping_t :=
  [ { ctrl_key := MAKE_CTRL_KEY 0x00 0x16, query_id := queryBitEnum.QUERY_NONE,
      type := CommandType_t.CMD_TYPE_READ, cam_cmd := [0x02, 0x01, 0x08],
      translator := Translator_SimpleSet, response_gen := ResponseGen_SimpleACK,
      matcher := none, desc := "Manuel NUC" },
    { ctrl_key := MAKE_CTRL_KEY 0x00 0x2D, query_id := queryBitEnum.QUERY_NONE,
      type := CommandType_t.CMD_TYPE_SET, cam_cmd := [0x02, 0x00, 0x04],
      translator := Translator_SimpleSet, response_gen := ResponseGen_SimpleACK,
      matcher := none, desc := "Image Palette BLCK" },
    { ctrl_key := MAKE_CTRL_KEY 0x00 0x2D, query_id := queryBitEnum.QUERY_NONE,
      type := CommandType_t.CMD_TYPE_SET, cam_cmd := [0x02, 0x00, 0x04],
      translator := Translator_SimpleSet, response_gen := ResponseGen_SimpleACK,
      matcher := none, desc := "Image Palette WHT" },
    { ctrl_key := MAKE_CTRL_KEY 0x00 0x2D, query_id := queryBitEnum.QUERY_IMG_PAL,
      type := CommandType_t.CMD_TYPE_READ, cam_cmd := [0x02, 0x00, 0x04],
      translator := Translator_SimpleSet, response_gen := ResponseGen_SimpleACK,
      matcher := none, desc := "Image Palette RD" } ]

/-- `CMD_MAP_COUNT`. -/
def CMD_MAP_COUNT : Nat := command_map.length

/-- The `while (low <= high)` loop of `FindMappingByCtrlKey` over a table of
keys, `low` and `high` being the signed indices of the source. Each round
shrinks `high - low`, so `fuel` rounds with `fuel` above the table length are
never used up. The result is the index of the entry found. -/
def findMappingLoop (keys : List Nat) (key : Nat) : Nat → Int → Int → Option Nat
  | 0, _, _ => none
  | fuel + 1, low, high =>
    if low ≤ high then
      let mid : Int := (low + high) >>> (1 : Nat)
      let mid_key := keys.getD mid.toNat 0
      if mid_key = key then some mid.toNat
      else if mid_key < key then findMappingLoop keys key fuel (mid + 1) high
      else findMappingLoop keys key fuel low (mid - 1)
    else none

/-- The binary search of `FindMappingByCtrlKey` over an arbitrary table. -/
def findMappingIn (table : List CommandMapping_t) (key : Nat) : Option Nat :=
  findMappingLoop (table.map (fun e => e.ctrl_key)) key (table.length + 1) 0
    ((table.length : Int) - 1)

/-- The loop of `findMappingLoop` with its two ways of ending told apart:
`some r` when the loop ends within `fuel` rounds and the function returns `r`
(`none` being the null pointer), `none` when `fuel` rounds have not ended it. -/
def findMappingLoopWithin (keys : List Nat) (key : Nat) : Nat → Int → Int → Option (Option Nat)
  | 0, _, _ => none
  | fuel + 1, low, high =>
    if low ≤ high then
      let mid : Int := (low + high) >>> (1 : Nat)
      let mid_key := keys.getD mid.toNat 0
      if mid_key = key then some (some mid.toNat)
      else if mid_key < key then findMappingLoopWithin keys key fuel (mid + 1) high
      else findMappingLoopWithin keys key fuel low (mid - 1)
    else some none

/-- `FindMappingByCtrlKey`: the index in `command_map` of the entry whose
address the source returns, `none` for the null pointer. -/
def FindMappingByCtrlKey (key : Nat) : Option Nat :=
  findMappingIn command_map key

/-- `CommandHandler_BuildLookup`: the 256 slots of `g_cmd_lookup_table` after
the call; the first entry of a key keeps the slot. -/
def CommandHandler_BuildLookup : List (Option Nat) :=
  (List.range CMD_MAP_COUNT).foldl
    (fun tbl i =>
      match command_map.get? i with
      | none => tbl
      | some e =>
        if tbl.getD e.ctrl_key none = none then tbl.set e.ctrl_key (some i) else tbl)
    (List.replicate 256 none)

/-- The module-level state of `command_handler.cpp`. -/
structure HandlerState where
  g_pending_commands : cmdRingBuffer_t
  g_cmd_lookup_table : List (Option Nat)
deriving DecidableEq

/-- `CommandHandler_Init`. -/
def CommandHandler_Init (st : HandlerState) : HandlerState :=
  { g_pending_commands := CmdRingBuffer_Init st.g_pending_commands
    g_cmd_lookup_table := CommandHandler_BuildLookup }

/-- The handler state before `CommandHandler_Init`: zero-initialised statics. -/
def bootState : HandlerState :=
  { g_pending_commands := ⟨List.replicate CMD_MAX_LENGTH zeroBlock, 0, 0, 0⟩
    g_cmd_lookup_table := List.replicate 256 none }

/-- `CommandHandler_TranslateCtrlToCam`, for non-null buffers. The result is the
returned code, the bytes written to the camera buffer (`none` when nothing is
written) and the state after the call. The call of `CmdRingBuffer_PushComplete`
passes no response length (the prototype in `command_tracking.h` has none); the
`resp_len` of the definition is given the value 0 here, which passes its guard
like every other value up to 32 (`pushComplete_resp_len_irrelevant`). The
search returns indices of `command_map` only (`FindMappingByCtrlKey_lt`), so
the branch for an index outside the table is never taken. -/
def CommandHandler_TranslateCtrlToCam (st : HandlerState) (ctrl_packet_ptr : List Nat)
    (ctrl_len : Nat) (tick : Nat) :
    TranslationResult_t × Option (List Nat) × HandlerState :=
  if ctrl_len < 8 then (TranslationResult_t.TRANSLATION_INVALID_PACKET, none, st)
  else if !VerifyCtrlPacket ctrl_packet_ptr ctrl_len then
    (TranslationResult_t.TRANSLATION_CHECKSUM_ERROR, none, st)
  else if ctrl_len < 5 then (TranslationResult_t.TRANSLATION_INVALID_PACKET, none, st)
  else
    let kb0 := ctrl_packet_ptr.getD 2 0
    let kb1 := ctrl_packet_ptr.getD 3 0
    let key := MAKE_CTRL_KEY kb0 kb1
    match FindMappingByCtrlKey key with
    | none => (TranslationResult_t.TRANSLATION_UNKNOWN_CMD, none, st)
    | some mi =>
      match command_map.get? mi with
      | none => (TranslationResult_t.TRANSLATION_UNKNOWN_CMD, none, st)
      | some mapping =>
        match mapping.translator ctrl_packet_ptr ctrl_len with
        | none => (TranslationResult_t.TRANSLATION_ERROR, none, st)
        | some cam =>
          let pushed := CmdRingBuffer_PushComplete st.g_pending_commands 0
            (some ctrl_packet_ptr) ctrl_len mapping.query_id (some mi) tick
          if !pushed.1 then
            (TranslationResult_t.TRANSLATION_QUEUE_FULL, some cam,
              { st with g_pending_commands := pushed.2 })
          else
            (TranslationResult_t.TRANSLATION_OK, some cam,
              { st with g_pending_commands := pushed.2 })

/-- `CommandHandler_ProcessCamResponse`, for non-null buffers. The result is the
returned code, the bytes written to the control response buffer (their number
is the value stored through `ctrl_len_ptr`; `none` when nothing is written) and
the state after the call. A mapping reference that is not an address of a
`command_map` entry cannot be followed; the embedding answers
`TRANSLATION_ERROR` for it. -/
def CommandHandler_ProcessCamResponse (st : HandlerState) (cam_response_ptr : List Nat)
    (cam_len : Nat) : TranslationResult_t × Option (List Nat) × HandlerState :=
  if !VerifyCamPacket cam_response_ptr cam_len then
    (TranslationResult_t.TRANSLATION_CHECKSUM_ERROR, none, st)
  else
    let popped := CmdRingBuffer_Pop st.g_pending_commands
    let st1 : HandlerState := { st with g_pending_commands := popped.2 }
    match popped.1 with
    | none => (TranslationResult_t.TRANSLATION_INVALID_PACKET, none, st1)
    | some pending =>
      match pending.mapping with
      | none => (TranslationResult_t.TRANSLATION_ERROR, none, st1)
      | some mi =>
        match command_map.get? mi with
        | none => (TranslationResult_t.TRANSLATION_ERROR, none, st1)
        | some mapping =>
          match mapping.response_gen cam_response_ptr cam_len pending.original_request
              (pending.request_lenth % 256) with
          | none => (TranslationResult_t.TRANSLATION_ERROR, none, st1)
          | some resp => (TranslationResult_t.TRANSLATION_OK, some resp, st1)

/-- `CommandHandler_GetPendingCount`. -/
def CommandHandler_GetPendingCount (st : HandlerState) : Nat :=
  CmdRingBuffer_Size st.g_pending_commands

/-- The results of a run of `CommandHandler_TranslateCtrlToCam` calls, one per
request `(packet, length, clock value at the call)`, and the state after it. -/
def translateAll (st : HandlerState) :
    List (List Nat × Nat × Nat) → List TranslationResult_t × HandlerState
  | [] => ([], st)
  | (pkt, len, tick) :: rest =>
    let r := CommandHandler_TranslateCtrlToCam st pkt len tick
    let rs := translateAll r.2.2 rest
    (r.1 :: rs.1, rs.2)

/-- The `do ... while (again)` loop of `CommandHandler_CheckTimeouts`: every
round is one call of `CmdRingBuffer_RemoveIfTimeout`, `removed` is the
`uint8_t` counter. The result is the counter and the tracker when the loop
ends, `none` when `fuel` rounds have not ended it. -/
def checkTimeoutsLoop (now : Nat) : Nat → cmdRingBuffer_t → Nat → Option (Nat × cmdRingBuffer_t)
  | 0, _, _ => none
  | fuel + 1, rb, removed =>
    let again := CmdRingBuffer_RemoveIfTimeout rb COMMAND_TIMEOUT_MS now
    if again.1 then checkTimeoutsLoop now fuel again.2 ((removed + 1) % 256)
    else some (removed, again.2)

/-- `CommandHandler_CheckTimeouts`: `now` is the value `HAL_GetTick()` returns.
The loop is given `count + 1` rounds; the result is the returned counter and
the state after the call, `none` if these rounds did not end the loop. -/
def CommandHandler_CheckTimeouts (st : HandlerState) (now : Nat) : Option (Nat × HandlerState) :=
  match checkTimeoutsLoop now (st.g_pending_commands.count + 1) st.g_pending_commands 0 with
  | none => none
  | some (removed, rb) => some (removed, { st with g_pending_commands := rb })

/-- The tail index after `n` removals by `CmdRingBuffer_RemoveIfTimeout`. -/
def tailAfterRemovals : Nat → Nat → Nat
  | 0, tail => tail
  | n + 1, tail => tailAfterRemovals n (((tail + 1) % 4294967296) % CMD_BUFFER_SIZE)

/-! ## packet_builder.h, packet_builder.cpp -/

/-- `PACKET_BUILDER_MAX_SIZE`. -/
def PACKET_BUILDER_MAX_SIZE : Nat := 32

/-- Direction of an old format packet; the enumerators are the start bytes. -/
inductive OldPacketType_t where
  | OLD_PACKET_TX
  | OLD_PACKET_RX
deriving DecidableEq, Repr

/-- The value `(uint8_t)packet_type`. -/
def OldPacketType_t.toByte : OldPacketType_t → Nat
  | OldPacketType_t.OLD_PACKET_TX => 0xAA
  | OldPacketType_t.OLD_PACKET_RX => 0x55

/-- The old format builder: `buffer` is the array of 32 bytes, `length` and
`data_length` are `uint8_t`. -/
structure OldPacket_t where
  buffer : List Nat
  length : Nat
  data_length : Nat
deriving DecidableEq, Repr

/-- The new format builder. -/
structure NewPacket_t where
  buffer : List Nat
  length : Nat
deriving DecidableEq, Repr

/-- `CalculateOldChecksum`: the `uint16_t` sum of the first `data_len` bytes. -/
def CalculateOldChecksum (data_ptr : List Nat) (data_len : Nat) : Nat :=
  ((List.range data_len).map (fun i => data_ptr.getD i 0)).sum % 65536

/-- `OldPacket_Init`. -/
def OldPacket_Init (_packet : OldPacket_t) (packet_type : OldPacketType_t) (cmd_id : Nat) :
    OldPacket_t :=
  { buffer := ((((List.replicate PACKET_BUILDER_MAX_SIZE 0).set 0 packet_type.toByte).set 1 0).set
      2 0x00).set 3 cmd_id
    length := 4
    data_length := 0 }

/-- `OldPacket_AddByte`: the returned flag and the builder after the call. -/
def OldPacket_AddByte (packet : OldPacket_t) (data_byte : Nat) : Bool × OldPacket_t :=
  if packet.length < PACKET_BUILDER_MAX_SIZE - 3 then
    (true,
      { buffer := packet.buffer.set packet.length data_byte
        length := (packet.length + 1) % 256
        data_length := (packet.data_length + 1) % 256 })
  else (false, packet)

/-- `OldPacket_AddUint16`. -/
def OldPacket_AddUint16 (packet : OldPacket_t) (data_u16 : Nat) : Bool × OldPacket_t :=
  let byte1 := OldPacket_AddByte packet ((data_u16 &&& 0xFF) % 256)
  if byte1.1 then
    let byte2 := OldPacket_AddByte byte1.2 (((data_u16 >>> 8) &&& 0xFF) % 256)
    if byte2.1 then (true, byte2.2) else (false, byte2.2)
  else (false, byte1.2)

/-- `OldPacket_AddUint32`. -/
def OldPacket_AddUint32 (packet : OldPacket_t) (data_u32 : Nat) : Bool × OldPacket_t :=
  let byte1 := OldPacket_AddByte packet ((data_u32 &&& 0xFF) % 256)
  if byte1.1 then
    let byte2 := OldPacket_AddByte byte1.2 (((data_u32 >>> 8) &&& 0xFF) % 256)
    if byte2.1 then
      let byte3 := OldPacket_AddByte byte2.2 (((data_u32 >>> 16) &&& 0xFF) % 256)
      if byte3.1 then
        let byte4 := OldPacket_AddByte byte3.2 (((data_u32 >>> 24) &&& 0xFF) % 256)
        if byte4.1 then (true, byte4.2) else (false, byte4.2)
      else (false, byte3.2)
    else (false, byte2.2)
  else (false, byte1.2)

/-- The loop of `OldPacket_AddBytes` from the index `i` on, with `remaining`
rounds to go; it stops at the first byte that `OldPacket_AddByte` refuses. -/
def OldPacket_AddBytesFrom (data_ptr : List Nat) : Nat → Nat → OldPacket_t → Bool × OldPacket_t
  | _, 0, packet => (true, packet)
  | i, remaining + 1, packet =>
    let added := OldPacket_AddByte packet (data_ptr.getD i 0)
    if added.1 then OldPacket_AddBytesFrom data_ptr (i + 1) remaining added.2
    else (false, added.2)

/-- `OldPacket_AddBytes`, for a non-null `data_ptr`. -/
def OldPacket_AddBytes (packet : OldPacket_t) (data_ptr : List Nat) (data_len : Nat) :
    Bool × OldPacket_t :=
  OldPacket_AddBytesFrom data_ptr 0 data_len packet

/-- `OldPacket_Finalize`: the length byte, the two checksum bytes (high byte
first) and the end byte 0xAA. -/
def OldPacket_Finalize (packet : OldPacket_t) : Bool × OldPacket_t :=
  if packet.length ≥ 4 then
    let buffer1 := packet.buffer.set 1 packet.data_length
    let checksum := CalculateOldChecksum buffer1 packet.length
    if packet.length < PACKET_BUILDER_MAX_SIZE - 2 then
      let buffer2 := buffer1.set packet.length (((checksum >>> 8) &&& 0xFF) % 256)
      let length1 := (packet.length + 1) % 256
      let buffer3 := buffer2.set length1 ((checksum &&& 0xFF) % 256)
      let length2 := (length1 + 1) % 256
      if length2 < PACKET_BUILDER_MAX_SIZE then
        (true,
          { buffer := buffer3.set length2 0xAA
            length := (length2 + 1) % 256
            data_length := packet.data_length })
      else (false, { buffer := buffer3, length := length2, data_length := packet.data_length })
    else (false, { buffer := buffer1, length := packet.length, data_length := packet.data_length })
  else (false, packet)

/-- `OldPacket_GetBuffer`. -/
def OldPacket_GetBuffer (packet : OldPacket_t) : List Nat := packet.buffer

/-- `OldPacket_GetLength`. -/
def OldPacket_GetLength (packet : OldPacket_t) : Nat := packet.length

/-- `NewPacket_Init`. -/
def NewPacket_Init (_packet : NewPacket_t) (packet_type : Nat) : NewPacket_t :=
  { buffer := ((((List.replicate PACKET_BUILDER_MAX_SIZE 0).set 0 0x55).set 1 0xAA).set 2 0).set
      3 packet_type
    length := 4 }

/-- `NewPacket_AddByte`. -/
def NewPacket_AddByte (packet : NewPacket_t) (data_byte : Nat) : Bool × NewPacket_t :=
  if packet.length < PACKET_BUILDER_MAX_SIZE - 1 then
    (true,
      { buffer := packet.buffer.set packet.length data_byte
        length := (packet.length + 1) % 256 })
  else (false, packet)

/-- `NewPacket_AddUint16`. -/
def NewPacket_AddUint16 (packet : NewPacket_t) (data_u16 : Nat) : Bool × NewPacket_t :=
  let byte1 := NewPacket_AddByte packet ((data_u16 &&& 0xFF) % 256)
  if byte1.1 then
    let byte2 := NewPacket_AddByte byte1.2 (((data_u16 >>> 8) &&& 0xFF) % 256)
    if byte2.1 then (true, byte2.2) else (false, byte2.2)
  else (false, byte1.2)

/-- The loop of `NewPacket_AddBytes` from the index `i` on. -/
def NewPacket_AddBytesFrom (data_ptr : List Nat) : Nat → Nat → NewPacket_t → Bool × NewPacket_t
  | _, 0, packet => (true, packet)
  | i, remaining + 1, packet =>
    let added := NewPacket_AddByte packet (data_ptr.getD i 0)
    if added.1 then NewPacket_AddBytesFrom data_ptr (i + 1) remaining added.2
    else (false, added.2)

/-- `NewPacket_AddBytes`, for a non-null `data_ptr`. -/
def NewPacket_AddBytes (packet : NewPacket_t) (data_ptr : List Nat) (data_len : Nat) :
    Bool × NewPacket_t :=
  NewPacket_AddBytesFrom data_ptr 0 data_len packet

/-- `NewPacket_Finalize`: the end byte 0xF0, then the total length into byte 2. -/
def NewPacket_Finalize (packet : NewPacket_t) : Bool × NewPacket_t :=
  if packet.length ≥ 4 then
    if packet.length < PACKET_BUILDER_MAX_SIZE then
      let buffer1 := packet.buffer.set packet.length 0xF0
      let length1 := (packet.length + 1) % 256
      (true, { buffer := buffer1.set 2 length1, length := length1 })
    else (false, packet)
  else (false, packet)

/-- `NewPacket_GetBuffer`. -/
def NewPacket_GetBuffer (packet : NewPacket_t) : List Nat := packet.buffer

/-- `NewPacket_GetLength`. -/
def NewPacket_GetLength (packet : NewPacket_t) : Nat := packet.length

/-- `OldPacket_GetCommandId`, for a non-null packet. -/
def OldPacket_GetCommandId (packet_ptr : List Nat) : Nat := packet_ptr.getD 3 0

/-- `OldPacket_GetByte`, for non-null pointers: the returned flag and the value
stored through `value_ptr`. -/
def OldPacket_GetByte (packet_ptr : List Nat) (offset : Nat) : Bool × Nat :=
  (true, packet_ptr.getD (4 + offset) 0)

/-- `OldPacket_GetUint16`, for non-null pointers. -/
def OldPacket_GetUint16 (packet_ptr : List Nat) (offset : Nat) : Bool × Nat :=
  let low_byte := packet_ptr.getD (4 + offset) 0
  let high_byte := packet_ptr.getD (4 + offset + 1) 0
  (true, (low_byte ||| (high_byte <<< 8)) % 65536)

/-- `NewPacket_GetByte`, for non-null pointers. -/
def NewPacket_GetByte (packet_ptr : List Nat) (offset : Nat) : Bool × Nat :=
  (true, packet_ptr.getD (4 + offset) 0)

/-- `NewPacket_GetUint16`, for non-null pointers. -/
def NewPacket_GetUint16 (packet_ptr : List Nat) (offset : Nat) : Bool × Nat :=
  let low_byte := packet_ptr.getD (4 + offset) 0
  let high_byte := packet_ptr.getD (4 + offset + 1) 0
  (true, (low_byte ||| (high_byte <<< 8)) % 65536)

/-! ## uart_handler.h, uart_handler.cpp -/

/-- `CONTROL_RX_BUFFER_SIZE`. -/
def CONTROL_RX_BUFFER_SIZE : Nat := 32

/-- `CAMERA_RX_BUFFER_SIZE`. -/
def CAMERA_RX_BUFFER_SIZE : Nat := 48

/-- The receive state of the control link: `control_rx_buf`, `control_rx_len`
and the two function-local statics of `control_rx_put_byte`. -/
structure ControlRx where
  control_rx_buf : List Nat
  control_rx_len : Nat
  last_time : Nat
  index : Nat
deriving DecidableEq, Repr

/-- The receive state of the camera link. -/
structure CameraRx where
  camera_rx_buf : List Nat
  camera_rx_len : Nat
deriving DecidableEq, Repr

/-- A call of `UART_HandleControlPacket` or `UART_HandleCameraPacket`: the
buffer passed and the length passed. -/
structure HandOff where
  pkt : List Nat
  len : Nat
deriving DecidableEq, Repr

/-- `reset_control_buffer`. -/
def reset_control_buffer (st : ControlRx) : ControlRx :=
  { st with control_rx_buf := List.replicate CONTROL_RX_BUFFER_SIZE 0, control_rx_len := 0 }

/-- `reset_camera_buffer`. -/
def reset_camera_buffer (_st : CameraRx) : CameraRx :=
  { camera_rx_buf := List.replicate CAMERA_RX_BUFFER_SIZE 0, camera_rx_len := 0 }

/-- The control link state at start-up: zero-initialised statics. -/
def controlIdle : ControlRx :=
  { control_rx_buf := List.replicate CONTROL_RX_BUFFER_SIZE 0, control_rx_len := 0,
    last_time := 0, index := 0 }

/-- The camera link state at start-up. -/
def cameraIdle : CameraRx :=
  { camera_rx_buf := List.replicate CAMERA_RX_BUFFER_SIZE 0, camera_rx_len := 0 }

/-- `control_rx_put_byte`: `now` is the value `HAL_GetTick()` returns in the
call. The result is the state after the call and the call of
`UART_HandleControlPacket` made in it, if any. -/
def control_rx_put_byte (st : ControlRx) (b : Nat) (now : Nat) : ControlRx × Option HandOff :=
  let st1 : ControlRx :=
    if elapsedTime now st.last_time > 50 ∧ st.control_rx_len > 0 then
      { reset_control_buffer st with index := 0 }
    else st
  let st2 : ControlRx := { st1 with last_time := now }
  if st2.control_rx_len = 0 ∧ (b ≠ 0xAA ∧ b ≠ 0x55) then (st2, none)
  else if st2.control_rx_len < CONTROL_RX_BUFFER_SIZE then
    let st3 : ControlRx :=
      { st2 with control_rx_buf := st2.control_rx_buf.set st2.control_rx_len b
                 control_rx_len := st2.control_rx_len + 1 }
    if st3.control_rx_len ≥ 2
        ∧ st3.control_rx_buf.getD (st3.control_rx_len - 2) 0 = 0xEB
        ∧ st3.control_rx_buf.getD (st3.control_rx_len - 1) 0 = 0xAA then
      (reset_control_buffer st3, some ⟨st3.control_rx_buf, st3.control_rx_len⟩)
    else (st3, none)
  else (reset_control_buffer st2, none)

/-- `camera_rx_put_byte`: the state after the call and the call of
`UART_HandleCameraPacket` made in it, if any. -/
def camera_rx_put_byte (st : CameraRx) (b : Nat) : CameraRx × Option HandOff :=
  if st.camera_rx_len = 0 ∧ b ≠ 0x55 then (st, none)
  else if st.camera_rx_len = 1 ∧ b ≠ 0xAA then (reset_camera_buffer st, none)
  else if st.camera_rx_len < CAMERA_RX_BUFFER_SIZE then
    let st1 : CameraRx :=
      { camera_rx_buf := st.camera_rx_buf.set st.camera_rx_len b
        camera_rx_len := st.camera_rx_len + 1 }
    if st1.camera_rx_buf.getD (st1.camera_rx_len - 1) 0 = 0xF0 then
      (reset_camera_buffer st1, some ⟨st1.camera_rx_buf, st1.camera_rx_len⟩)
    else (st1, none)
  else (reset_camera_buffer st, none)

/-- Feeding bytes, each with the clock value of its arrival, to
`control_rx_put_byte` in order: the final state and the hand-offs, in order. -/
def controlFeed (st : ControlRx) : List (Nat × Nat) → ControlRx × List HandOff
  | [] => (st, [])
  | (b, now) :: rest =>
    let r := control_rx_put_byte st b now
    let rs := controlFeed r.1 rest
    (rs.1, r.2.toList ++ rs.2)

/-- Feeding bytes to `camera_rx_put_byte` in order. -/
def cameraFeed (st : CameraRx) : List Nat → CameraRx × List HandOff
  | [] => (st, [])
  | b :: rest =>
    let r := camera_rx_put_byte st b
    let rs := cameraFeed r.1 rest
    (rs.1, r.2.toList ++ rs.2)

/-- An old format builder holding 24 payload bytes: one payload byte is free. -/
def oneByteFreeBuilder : OldPacket_t :=
  (OldPacket_AddBytes (OldPacket_Init ⟨[], 0, 0⟩ OldPacketType_t.OLD_PACKET_TX 0x10)
    (List.replicate 24 0) 24).2

/-- An old format builder after `OldPacket_Init` and `OldPacket_Finalize`. -/
def finalizedBuilder : OldPacket_t :=
  (OldPacket_Finalize (OldPacket_Init ⟨[], 0, 0⟩ OldPacketType_t.OLD_PACKET_TX 0x10)).2

/-- No byte of the list completes the end marker `EB AA` with the byte before
it; `prev` is the byte before the first one. -/
def noEndPairFrom (prev : Nat) : List Nat → Bool
  | [] => true
  | b :: rest => !(prev == 0xEB && b == 0xAA) && noEndPairFrom b rest

/-- Every clock value of the list is at most 50 ms after the one before it
(difference of the 32-bit clock); `prev` is the clock value before the first. -/
def gapsWithin (prev : Nat) : List Nat → Bool
  | [] => true
  | t :: rest => decide (elapsedTime t prev ≤ 50) && gapsWithin t rest

/-! ## generic_translator.cpp -/

/-- Modelled from the spec: the action of a payload step. The enumeration is
declared in `commands_metadata.h`, which is not among the sources, and the
specification does not describe it; the enumerators are the five that the
switch of `GenericTranslator_FromMetadata` names, and `PAYACT_other` stands for
every other value, which the switch sends to its `default` label. -/
inductive PayloadAction_t where
  | PAYACT_NOP
  | PAYACT_CONST
  | PAYACT_COPY
  | PAYACT_SCALE8
  | PAYACT_LOOKUP
  | PAYACT_other
deriving DecidableEq, Repr

/-- Modelled from the spec: `payload_step_t` of the missing header
`commands_metadata.h`, with the fields that `GenericTranslator_FromMetadata`
reads; `lookup` is the table the pointer of that name refers to. -/
structure payload_step_t where
  action : PayloadAction_t
  src_offset : Nat
  length : Nat
  const_value : Nat
  scale_mul : Nat
  scale_div : Nat
  lookup : List Nat
  lookup_len : Nat
deriving DecidableEq, Repr

/-- Modelled from the spec: `CommandMetadata_t` of the missing header
`commands_metadata.h`, with the fields that `GenericTranslator_FromMetadata`
reads. -/
structure CommandMetadata_t where
  cam_b1 : Nat
  cam_b2 : Nat
  cam_b3 : Nat
  step_count : Nat
  steps : List payload_step_t
deriving DecidableEq, Repr

/-- `write_cam_header`: the buffer after the six writes and the returned index. -/
def write_cam_header (buf : List Nat) (b1 b2 b3 : Nat) : List Nat × Nat :=
  ((((((buf.set 0 CAM_PKT_START1).set 1 CAM_PKT_START2).set 2 0x00).set 3 b1).set 4 b2).set 5 b3,
    6)

/-- The loop `for (k = 0U; k < length; k++) { cam_packet[idx++] = v; }` with the
`uint8_t` index `idx`: the buffer and the index after `length` rounds. -/
def writeRepeated (v : Nat) : Nat → List Nat → Nat → List Nat × Nat
  | 0, buf, idx => (buf, idx)
  | n + 1, buf, idx => writeRepeated v n (buf.set idx v) ((idx + 1) % 256)

/-- The call `memcpy(&cam_packet[idx], &ctrl_packet[src_offset], length)`. -/
def memcpyInto (buf : List Nat) (idx : Nat) (src : List Nat) (src_offset : Nat) :
    Nat → List Nat
  | 0 => buf
  | n + 1 => (memcpyInto buf idx src src_offset n).set (idx + n) (src.getD (src_offset + n) 0)

/-- One round of the loop over the steps: the buffer and the index after the
step, `none` when the step makes the function return false. The body of
`scale8` is commented out in the source, so the source does not determine the
value it returns: that value is the parameter `scale8`. -/
def applyStep (scale8 : Nat → Nat → Nat → Nat) (ctrl_packet : List Nat) (ctrl_len : Nat)
    (step : payload_step_t) (buf : List Nat) (idx : Nat) : Option (List Nat × Nat) :=
  match step.action with
  | PayloadAction_t.PAYACT_NOP => some (buf, idx)
  | PayloadAction_t.PAYACT_CONST => some (writeRepeated step.const_value step.length buf idx)
  | PayloadAction_t.PAYACT_COPY =>
    if step.src_offset + step.length > ctrl_len then none
    else
      some (memcpyInto buf idx ctrl_packet step.src_offset step.length,
        (idx + step.length) % 256)
  | PayloadAction_t.PAYACT_SCALE8 =>
    if step.src_offset ≥ ctrl_len then none
    else
      let v := ctrl_packet.getD step.src_offset 0
      let out := scale8 v step.scale_mul step.scale_div
      some (writeRepeated out step.length buf idx)
  | PayloadAction_t.PAYACT_LOOKUP =>
    if step.src_offset ≥ ctrl_len then none
    else
      let idx_in := ctrl_packet.getD step.src_offset 0
      if idx_in ≥ step.lookup_len then none
      else
        let outv := step.lookup.getD idx_in 0
        some (writeRepeated outv step.length buf idx)
  | PayloadAction_t.PAYACT_other => none

/-- The loop over the steps, in order. -/
def applySteps (scale8 : Nat → Nat → Nat → Nat) (ctrl_packet : List Nat) (ctrl_len : Nat) :
    List payload_step_t → List Nat → Nat → Option (List Nat × Nat)
  | [], buf, idx => some (buf, idx)
  | step :: rest, buf, idx =>
    match applyStep scale8 ctrl_packet ctrl_len step buf idx with
    | none => none
    | some r => applySteps scale8 ctrl_packet ctrl_len rest r.1 r.2

/-- `GenericTranslator_FromMetadata`, for non-null pointers: `cam_packet` is the
buffer of the caller, the result is the buffer after the call and the value
stored through `cam_len`, `none` when the function returns false. The loop
visits the first `step_count` entries of `steps`. A write past the end of
`cam_packet` has no counterpart here: it leaves the list as it is. -/
def GenericTranslator_FromMetadata (scale8 : Nat → Nat → Nat → Nat) (md : CommandMetadata_t)
    (ctrl_packet : List Nat) (ctrl_len : Nat) (cam_packet : List Nat) :
    Option (List Nat × Nat) :=
  let hdr := write_cam_header cam_packet md.cam_b1 md.cam_b2 md.cam_b3
  match applySteps scale8 ctrl_packet ctrl_len (md.steps.take md.step_count) hdr.1 hdr.2 with
  | none => none
  | some (buf, idx) =>
    if idx < 3 then none
    else
      let buf1 := buf.set 2 ((idx - 2) % 256)
      let xorv := (List.range (idx - 2)).foldl (fun xorv k => (xorv ^^^ buf1.getD (2 + k) 0) % 256) 0
      let buf2 := buf1.set idx xorv
      let idx1 := (idx + 1) % 256
      let buf3 := buf2.set idx1 CAM_PKT_END
      let idx2 := (idx1 + 1) % 256
      some (buf3, idx2)

/-- The payload bytes one step emits: nothing for a NOP, `length` copies of the
constant, the `length` control bytes from `src_offset` on, `length` copies of
the scaled byte, `length` copies of the table entry. -/
def stepPayload (scale8 : Nat → Nat → Nat → Nat) (ctrl_packet : List Nat)
    (step : payload_step_t) : List Nat :=
  match step.action with
  | PayloadAction_t.PAYACT_NOP => []
  | PayloadAction_t.PAYACT_CONST => List.replicate step.length step.const_value
  | PayloadAction_t.PAYACT_COPY =>
    (List.range step.length).map (fun i => ctrl_packet.getD (step.src_offset + i) 0)
  | PayloadAction_t.PAYACT_SCALE8 =>
    List.replicate step.length
      (scale8 (ctrl_packet.getD step.src_offset 0) step.scale_mul step.scale_div)
  | PayloadAction_t.PAYACT_LOOKUP =>
    List.replicate step.length (step.lookup.getD (ctrl_packet.getD step.src_offset 0) 0)
  | PayloadAction_t.PAYACT_other => []

/-- The payload the steps emit, in order. -/
def emittedPayload (scale8 : Nat → Nat → Nat → Nat) (ctrl_packet : List Nat) :
    List payload_step_t → List Nat
  | [] => []
  | step :: rest => stepPayload scale8 ctrl_packet step ++ emittedPayload scale8 ctrl_packet rest

/-! ## Sequences of calls on the old format builder -/

/-- The appending calls a client can make on an old format builder. -/
inductive BuilderCall where
  | addByte (data_byte : Nat)
  | addUint16 (data_u16 : Nat)
  | addUint32 (data_u32 : Nat)
  | addBytes (data_ptr : List Nat) (data_len : Nat)

/-- The builder after one appending call, whatever the call returns. -/
def builderStep (packet : OldPacket_t) : BuilderCall → OldPacket_t
  | BuilderCall.addByte b => (OldPacket_AddByte packet b).2
  | BuilderCall.addUint16 v => (OldPacket_AddUint16 packet v).2
  | BuilderCall.addUint32 v => (OldPacket_AddUint32 packet v).2
  | BuilderCall.addBytes data n => (OldPacket_AddBytes packet data n).2

/-- The builder after `OldPacket_Init` and a sequence of appending calls. -/
def builderRun (packet_type : OldPacketType_t) (cmd_id : Nat) (calls : List BuilderCall) :
    OldPacket_t :=
  calls.foldl builderStep (OldPacket_Init ⟨[], 0, 0⟩ packet_type cmd_id)

/-! ## Example inputs -/

/-- The control request of scenario A: `AA 05 00 16 01 00 C6 EB AA`. -/
def scenarioA_request : List Nat := [0xAA, 0x05, 0x00, 0x16, 0x01, 0x00, 0xC6, 0xEB, 0xAA]

/-- A control request with the key 0x0017, which is not in `command_map`. -/
def unknownKey_request : List Nat := [0xAA, 0x05, 0x00, 0x17, 0x01, 0x00, 0xC7, 0xEB, 0xAA]

/-- Scenario A's request with a wrong checksum byte. -/
def badChecksum_request : List Nat := [0xAA, 0x05, 0x00, 0x16, 0x01, 0x00, 0xC5, 0xEB, 0xAA]

/-- A control request of 33 bytes with the key 0x0016 and a matching checksum. -/
def long_request : List Nat :=
  [0xAA, 0x1D, 0x00, 0x16] ++ List.replicate 26 0 ++ [0xDD, 0xEB, 0xAA]

/-- A device frame that `VerifyCamPacket` accepts: `55 AA 01 00 01 F0`. -/
def ack_frame : List Nat := [0x55, 0xAA, 0x01, 0x00, 0x01, 0xF0]

/-- A tracker holding one request, pushed at the clock value 4294967000. -/
def oneEntryTracker : cmdRingBuffer_t :=
  (CmdRingBuffer_PushComplete (CmdRingBuffer_Init ⟨[], 0, 0, 0⟩) 0 (some scenarioA_request) 9
    queryBitEnum.QUERY_NONE (some 0) 4294967000).2

/-- The handler after sixteen accepted copies of scenario A's request. -/
def fullHandler : HandlerState :=
  (translateAll (CommandHandler_Init bootState)
    (List.replicate 16 (scenarioA_request, 9, 0))).2

/-- A control request with the key 0x002D: `AA 05 00 2D 01 00 DD EB AA`. -/
def palette_request : List Nat := [0xAA, 0x05, 0x00, 0x2D, 0x01, 0x00, 0xDD, 0xEB, 0xAA]

/-- The handler after scenario A's request and then `palette_request` have
been accepted, in that order. -/
def twoPendingHandler : HandlerState :=
  (translateAll (CommandHandler_Init bootState)
    [(scenarioA_request, 9, 0), (palette_request, 9, 1)]).2

/-- The control link after `AA` and 31 zero bytes, all at the clock value 0:
its buffer of 32 bytes is full. -/
def fullControlRx : ControlRx :=
  (controlFeed controlIdle ((0xAA :: List.replicate 31 0).map (fun b => (b, 0)))).1

/-- A control-link frame of 42 bytes, each arriving at the clock value 0: `AA`,
32 zero bytes, then the bytes of scenario A's request. It starts with AA, ends
with `EB AA` and has no earlier `EB AA`. -/
def oversizedControlFrame : List (Nat × Nat) :=
  ((0xAA :: List.replicate 32 0) ++ scenarioA_request).map (fun b => (b, 0))

/-- A device-link frame of 55 bytes: `55 AA`, 47 zero bytes, then
`55 AA 01 00 01 F0`. It starts with `55 AA`, ends with F0 and has no earlier F0. -/
def oversizedCameraFrame : List Nat :=
  (0x55 :: 0xAA :: List.replicate 47 0) ++ ack_frame

/-- A device frame that `VerifyCamPacket` accepts and whose fourth byte is F0:
`55 AA 02 F0 F2 F0`. -/
def earlyEndFrame : List Nat := [0x55, 0xAA, 0x02, 0xF0, 0xF2, 0xF0]

/-- The device frame `COMMON_NACK` of `commands_vpc_ext.h`: `55 AA 01 01 00 F0`. -/
def nack_frame : List Nat := [0x55, 0xAA, 0x01, 0x01, 0x00, 0xF0]

/-- A metadata record with a constant step (`00 00`) and a step that copies two
bytes from the offset 4 of the control packet. -/
def exampleMetadata : CommandMetadata_t :=
  { cam_b1 := 0x02, cam_b2 := 0x01, cam_b3 := 0x08, step_count := 2
    steps :=
      [ { action := PayloadAction_t.PAYACT_CONST, src_offset := 0, length := 2,
          const_value := 0x00, scale_mul := 0, scale_div := 0, lookup := [], lookup_len := 0 },
        { action := PayloadAction_t.PAYACT_COPY, src_offset := 4, length := 2,
          const_value := 0, scale_mul := 0, scale_div := 0, lookup := [], lookup_len := 0 } ] }

/-- The tracker after two requests pushed at the clock values 100 and 2000 and
one `CmdRingBuffer_Pop`: the pop returned the request stamped 100, the request
stamped 2000 is the only one still pending. -/
def poppedOnceTracker : cmdRingBuffer_t :=
  trackerRun
    [ TrackerCall.push 0 (some [0x11]) 1 queryBitEnum.QUERY_NONE (some 0) 100,
      TrackerCall.push 0 (some [0x22]) 1 queryBitEnum.QUERY_NONE (some 1) 2000,
      TrackerCall.pop ]

/-- The handler after scenario A's request accepted at the clock value 0 and
answered by the device frame `55 AA 01 00 01 F0`, then fifteen requests
accepted at the clock value 10 and one accepted at the clock value 5000:
sixteen requests are pending, the oldest of them stamped 10. -/
def staleTailHandler : HandlerState :=
  (translateAll
    (CommandHandler_ProcessCamResponse
      (CommandHandler_TranslateCtrlToCam (CommandHandler_Init bootState) scenarioA_request 9
        0).2.2 ack_frame 6).2.2
    (List.replicate 15 (scenarioA_request, 9, 10) ++ [(scenarioA_request, 9, 5000)])).2

/-! ## The checksums in the words of the specification -/

/-- The bytes of a sequence from the index `first` through the index `last`. -/
def bytesFromThrough (bytes : List Nat) (first last : Nat) : List Nat :=
  (bytes.take (last + 1)).drop first

/-- The running XOR of a list of bytes. -/
def xorOfBytes (bytes : List Nat) : Nat :=
  bytes.foldl (fun acc b => acc ^^^ b) 0

/-- The 8-bit additive sum of a list of bytes. -/
def sumOfBytesMod256 (bytes : List Nat) : Nat :=
  bytes.sum % 256

/-- A frame with one bit of the byte at `index` flipped. -/
def flipBit (frame : List Nat) (index bit : Nat) : List Nat :=
  frame.set index (frame.getD index 0 ^^^ 2 ^ bit)

/-! ## Pending tracker: basic facts -/

/-- Every response length up to `CMD_MAX_LENGTH` passes the guard on
`resp_len`, which is the only use the definition makes of it. -/
theorem pushComplete_resp_len_irrelevant (rb : cmdRingBuffer_t) (resp_len : Nat)
    (req : Option (List Nat)) (req_len : Nat) (q : queryBitEnum) (m : Option Nat) (tick : Nat)
    (h : resp_len ≤ CMD_MAX_LENGTH) :
    CmdRingBuffer_PushComplete rb resp_len req req_len q m tick
      = CmdRingBuffer_PushComplete rb 0 req req_len q m tick := by
  unfold CmdRingBuffer_PushComplete
  cases req <;> cases m <;> simp [h]

/-- When `CmdRingBuffer_PushComplete` fails and what a successful call does. -/
theorem pushComplete_spec (rb : cmdRingBuffer_t) (resp_len : Nat) (req : List Nat)
    (req_len : Nat) (q : queryBitEnum) (m tick : Nat) :
    ((CmdRingBuffer_PushComplete rb resp_len (some req) req_len q (some m) tick).1 = false
        ↔ (16 ≤ rb.count ∨ 32 < req_len ∨ 32 < resp_len))
    ∧ ((CmdRingBuffer_PushComplete rb resp_len (some req) req_len q (some m) tick).1 = false →
        (CmdRingBuffer_PushComplete rb resp_len (some req) req_len q (some m) tick).2 = rb)
    ∧ ((CmdRingBuffer_PushComplete rb resp_len (some req) req_len q (some m) tick).1 = true →
        (CmdRingBuffer_PushComplete rb resp_len (some req) req_len q (some m) tick).2
          = { buffer := rb.buffer.set rb.head
                { original_request := copyRequest req req_len, request_lenth := req_len,
                  nmbr := q, timestamp := tick, mapping := some m }
              head := (rb.head + 1) % 16
              tail := rb.tail
              count := rb.count + 1 }) := by
  unfold CmdRingBuffer_PushComplete
  simp only [CMD_BUFFER_SIZE, CMD_MAX_LENGTH]
  by_cases hc : rb.count < 16
  · by_cases hl : req_len ≤ 32 ∧ resp_len ≤ 32
    · have hh : (rb.head + 1) % 4294967296 % 16 = (rb.head + 1) % 16 := by omega
      simp only [hc, hl, if_true, and_self, hh]
      refine ⟨?_, ?_, ?_⟩
      · constructor
        · intro h; cases h
        · intro h; omega
      · intro h; cases h
      · intro _; trivial
    · simp only [hc, hl, if_true, if_false]
      refine ⟨?_, ?_, ?_⟩
      · constructor
        · intro _; omega
        · intro _; trivial
      · intro _; trivial
      · intro h; cases h
  · simp only [hc, if_false]
    refine ⟨?_, ?_, ?_⟩
    · constructor
      · intro _; omega
      · intro _; trivial
    · intro _; trivial
    · intro h; cases h

/-- In every tracker state reached from `CmdRingBuffer_Init`, the count is at
most 16, the head is below 16 and the tail is at most 16. -/
theorem trackerRun_bounds (calls : List TrackerCall) :
    (trackerRun calls).count ≤ 16 ∧ (trackerRun calls).head < 16
      ∧ (trackerRun calls).tail ≤ 16 := by
  unfold trackerRun
  have key : ∀ (cs : List TrackerCall) (rb : cmdRingBuffer_t),
      (rb.count ≤ 16 ∧ rb.head < 16 ∧ rb.tail ≤ 16) →
      ((cs.foldl trackerStep rb).count ≤ 16 ∧ (cs.foldl trackerStep rb).head < 16
        ∧ (cs.foldl trackerStep rb).tail ≤ 16) := by
    intro cs
    induction cs with
    | nil => intro rb h; simpa using h
    | cons c cs ih =>
      intro rb h
      rw [List.foldl_cons]
      apply ih
      obtain ⟨h1, h2, h3⟩ := h
      cases c with
      | push resp_len req req_len q m tick =>
        simp only [trackerStep, CmdRingBuffer_PushComplete, CMD_BUFFER_SIZE, CMD_MAX_LENGTH]
        cases req <;> cases m <;> simp only [] <;> try exact ⟨h1, h2, h3⟩
        split_ifs <;> simp only [] <;> refine ⟨?_, ?_, ?_⟩ <;> omega
      | pop =>
        simp only [trackerStep, CmdRingBuffer_Pop, CMD_BUFFER_SIZE]
        split_ifs
        · refine ⟨?_, h2, Nat.and_le_right⟩
          simp only []
          omega
        · exact ⟨h1, h2, h3⟩
      | peek =>
        simp only [trackerStep, CmdRingBuffer_Peek]
        split_ifs <;> exact ⟨h1, h2, h3⟩
      | removeIfTimeout timeout_ms current_time =>
        simp only [trackerStep, CmdRingBuffer_RemoveIfTimeout, CMD_BUFFER_SIZE]
        split_ifs <;> simp only [] <;> refine ⟨?_, ?_, ?_⟩ <;> omega
      | clear =>
        simp [trackerStep, CmdRingBuffer_Clear]
  apply key
  simp [CmdRingBuffer_Init]

/-! ## Pending tracker: the claims -/

/-- C1 (code defect): two requests pushed into a freshly initialised tracker are
not returned in the order pushed. `CmdRingBuffer_Pop` advances the tail with
`& CMD_BUFFER_SIZE`, so the tail stays 0: the first pop returns the first
request and the second pop returns the first request again, never the second. -/
theorem C1_second_pop_repeats_first_request :
    (CmdRingBuffer_Pop
        (CmdRingBuffer_PushComplete
          (CmdRingBuffer_PushComplete (CmdRingBuffer_Init ⟨[], 0, 0, 0⟩) 0
            (some [0x11]) 1 queryBitEnum.QUERY_NONE (some 0) 100).2
          0 (some [0x22]) 1 queryBitEnum.QUERY_IMG_PAL (some 1) 200).2).1
      = some { original_request := copyRequest [0x11] 1, request_lenth := 1,
               nmbr := queryBitEnum.QUERY_NONE, timestamp := 100, mapping := some 0 }
    ∧ (CmdRingBuffer_Pop
        (CmdRingBuffer_Pop
          (CmdRingBuffer_PushComplete
            (CmdRingBuffer_PushComplete (CmdRingBuffer_Init ⟨[], 0, 0, 0⟩) 0
              (some [0x11]) 1 queryBitEnum.QUERY_NONE (some 0) 100).2
            0 (some [0x22]) 1 queryBitEnum.QUERY_IMG_PAL (some 1) 200).2).2).1
      = some { original_request := copyRequest [0x11] 1, request_lenth := 1,
               nmbr := queryBitEnum.QUERY_NONE, timestamp := 100, mapping := some 0 }
    ∧ (CmdRingBuffer_Pop
        (CmdRingBuffer_Pop
          (CmdRingBuffer_PushComplete
            (CmdRingBuffer_PushComplete (CmdRingBuffer_Init ⟨[], 0, 0, 0⟩) 0
              (some [0x11]) 1 queryBitEnum.QUERY_NONE (some 0) 100).2
            0 (some [0x22]) 1 queryBitEnum.QUERY_IMG_PAL (some 1) 200).2).2).1
      ≠ some { original_request := copyRequest [0x22] 1, request_lenth := 1,
               nmbr := queryBitEnum.QUERY_IMG_PAL, timestamp := 200, mapping := some 1 } := by
  decide

/-- C2 (code defect): after one push and one pop on a freshly initialised
tracker the head is 1 while the tail and the count are 0, so
`(tail + count) mod 16 = head` fails in a reachable state. The count stays
within `0 .. 16` there. -/
theorem C2_index_invariant_broken_after_push_pop :
    (trackerRun [TrackerCall.push 0 (some [0x11]) 1 queryBitEnum.QUERY_NONE (some 0) 100,
        TrackerCall.pop]).head = 1
    ∧ (trackerRun [TrackerCall.push 0 (some [0x11]) 1 queryBitEnum.QUERY_NONE (some 0) 100,
        TrackerCall.pop]).tail = 0
    ∧ (trackerRun [TrackerCall.push 0 (some [0x11]) 1 queryBitEnum.QUERY_NONE (some 0) 100,
        TrackerCall.pop]).count = 0
    ∧ ¬ (((trackerRun [TrackerCall.push 0 (some [0x11]) 1 queryBitEnum.QUERY_NONE (some 0) 100,
            TrackerCall.pop]).tail
          + (trackerRun [TrackerCall.push 0 (some [0x11]) 1 queryBitEnum.QUERY_NONE (some 0) 100,
            TrackerCall.pop]).count) % 16
        = (trackerRun [TrackerCall.push 0 (some [0x11]) 1 queryBitEnum.QUERY_NONE (some 0) 100,
            TrackerCall.pop]).head) := by
  decide

/-- C3 (code defect): the definition of `CmdRingBuffer_PushComplete` keeps a
`resp_len` parameter and rejects the call when it exceeds 32, although the
tracker is empty and the request is one byte long; the rejected call leaves the
tracker unchanged. -/
theorem C3_push_rejected_on_resp_len :
    CmdRingBuffer_PushComplete (CmdRingBuffer_Init ⟨[], 0, 0, 0⟩) 33 (some [0x11]) 1
        queryBitEnum.QUERY_NONE (some 0) 100
      = (false, CmdRingBuffer_Init ⟨[], 0, 0, 0⟩) := by
  decide

/-- What `CmdRingBuffer_RemoveIfTimeout` does with the slot that the tail names:
on a non-empty tracker whose slot at the tail has the 32-bit timestamp `t`, the
call with a 32-bit `now` returns true exactly when
`(now - t) mod 2^32 ≥ timeout_ms`; it then advances the tail by one modulo 16
and decrements the count, keeping the head and the entries. It returns false at
an elapsed time of `timeout_ms - 1` and true at `timeout_ms`, also when `now`
has wrapped around below `t`. When it returns false, and on an empty tracker,
the tracker is unchanged. Whether the slot at the tail holds the oldest pending
request is a matter of the calls made before. -/
theorem removeIfTimeout_at_tail (rb : cmdRingBuffer_t) (timeout_ms now t : Nat)
    (ht : (rb.buffer.getD rb.tail zeroBlock).timestamp = t)
    (ht32 : t < 4294967296) (hnow : now < 4294967296) :
    (0 < rb.count →
      ((CmdRingBuffer_RemoveIfTimeout rb timeout_ms now).1 = true
          ↔ timeout_ms ≤ (now + 4294967296 - t) % 4294967296)
      ∧ ((CmdRingBuffer_RemoveIfTimeout rb timeout_ms now).1 = true →
          (CmdRingBuffer_RemoveIfTimeout rb timeout_ms now).2
            = { buffer := rb.buffer, head := rb.head, tail := (rb.tail + 1) % 16,
                count := rb.count - 1 })
      ∧ ((CmdRingBuffer_RemoveIfTimeout rb timeout_ms now).1 = false →
          (CmdRingBuffer_RemoveIfTimeout rb timeout_ms now).2 = rb)
      ∧ (0 < timeout_ms → timeout_ms < 4294967296 →
          (CmdRingBuffer_RemoveIfTimeout rb timeout_ms
              ((t + (timeout_ms - 1)) % 4294967296)).1 = false
          ∧ (CmdRingBuffer_RemoveIfTimeout rb timeout_ms
              ((t + timeout_ms) % 4294967296)).1 = true))
    ∧ (rb.count = 0 → CmdRingBuffer_RemoveIfTimeout rb timeout_ms now = (false, rb)) := by
  constructor
  · intro hc
    have hel : ∀ n, n < 4294967296 →
        elapsedTime n t = (n + 4294967296 - t) % 4294967296 := by
      intro n hn
      unfold elapsedTime
      rw [Nat.mod_eq_of_lt hn, Nat.mod_eq_of_lt ht32]
    have hh : (rb.tail + 1) % 4294967296 % 16 = (rb.tail + 1) % 16 := by omega
    refine ⟨?_, ?_, ?_, ?_⟩
    · unfold CmdRingBuffer_RemoveIfTimeout
      simp only [hc, gt_iff_lt, if_true, ht, hel now hnow, ge_iff_le]
      split_ifs with h
      · simp [h]
      · simp [h]
    · unfold CmdRingBuffer_RemoveIfTimeout
      simp only [hc, gt_iff_lt, if_true, ht, ge_iff_le, CMD_BUFFER_SIZE, hh]
      split_ifs with h
      · intro _; trivial
      · intro h'; cases h'
    · unfold CmdRingBuffer_RemoveIfTimeout
      simp only [hc, gt_iff_lt, if_true, ht, ge_iff_le]
      split_ifs with h
      · intro h'; cases h'
      · intro _; trivial
    · intro hpos hlt
      have hn1 : (t + (timeout_ms - 1)) % 4294967296 < 4294967296 :=
        Nat.mod_lt _ (by norm_num)
      have hn2 : (t + timeout_ms) % 4294967296 < 4294967296 :=
        Nat.mod_lt _ (by norm_num)
      unfold CmdRingBuffer_RemoveIfTimeout
      simp only [hc, gt_iff_lt, if_true, ht, hel _ hn1, hel _ hn2, ge_iff_le]
      have e1 : ((t + (timeout_ms - 1)) % 4294967296 + 4294967296 - t) % 4294967296
          = timeout_ms - 1 := by omega
      have e2 : ((t + timeout_ms) % 4294967296 + 4294967296 - t) % 4294967296
          = timeout_ms := by omega
      rw [e1, e2]
      constructor
      · rw [if_neg (by omega)]
      · rw [if_pos (le_refl _)]
  · intro hc
    unfold CmdRingBuffer_RemoveIfTimeout
    simp [hc]

/-- The slot at the tail of a tracker holding one entry stamped 4294967000,
with a timeout of 1000 ms: at `now = 703` the clock has wrapped and 999 ms have
elapsed, the call returns false; at `now = 704`, after 1000 ms, it returns true
and the entry is removed. -/
theorem removeIfTimeout_at_tail_example :
    (CmdRingBuffer_RemoveIfTimeout oneEntryTracker 1000 703).1 = false
    ∧ (CmdRingBuffer_RemoveIfTimeout oneEntryTracker 1000 704).1 = true
    ∧ (CmdRingBuffer_RemoveIfTimeout oneEntryTracker 1000 704).2
        = { buffer := oneEntryTracker.buffer, head := 1, tail := 1, count := 0 } :=
  ⟨(((removeIfTimeout_at_tail oneEntryTracker 1000 704 4294967000
        (by decide) (by decide) (by decide)).1 (by decide)).2.2.2 (by decide) (by decide)).1,
   (((removeIfTimeout_at_tail oneEntryTracker 1000 704 4294967000
        (by decide) (by decide) (by decide)).1 (by decide)).2.2.2 (by decide) (by decide)).2,
   ((removeIfTimeout_at_tail oneEntryTracker 1000 704 4294967000
        (by decide) (by decide) (by decide)).1 (by decide)).2.1
      ((((removeIfTimeout_at_tail oneEntryTracker 1000 704 4294967000
        (by decide) (by decide) (by decide)).1 (by decide)).2.2.2
          (by decide) (by decide)).2)⟩

/-- C5: on a non-empty tracker `CmdRingBuffer_Peek` succeeds, returns the entry
that `CmdRingBuffer_Pop` returns from the same state and leaves the tracker
(head, tail, count, entries) as it was; on an empty tracker both calls fail and
leave the tracker as it was. -/
theorem C5_peek_is_nondestructive_pop (rb : cmdRingBuffer_t) :
    (0 < rb.count →
      ∃ b : cmdBlock_t, CmdRingBuffer_Peek rb = (some b, rb)
        ∧ (CmdRingBuffer_Pop rb).1 = some b
        ∧ b = rb.buffer.getD rb.tail zeroBlock)
    ∧ (rb.count = 0 →
      CmdRingBuffer_Peek rb = (none, rb) ∧ CmdRingBuffer_Pop rb = (none, rb)) := by
  constructor
  · intro hc
    refine ⟨rb.buffer.getD rb.tail zeroBlock, ?_, ?_, rfl⟩
    · unfold CmdRingBuffer_Peek
      simp [hc]
    · unfold CmdRingBuffer_Pop
      simp [hc]
  · intro hc
    unfold CmdRingBuffer_Peek CmdRingBuffer_Pop
    simp [hc]

/-- C5 at a tracker holding one entry, and at a freshly initialised one. -/
theorem C5_peek_is_nondestructive_pop_witness :
    (∃ b : cmdBlock_t, CmdRingBuffer_Peek oneEntryTracker = (some b, oneEntryTracker)
        ∧ (CmdRingBuffer_Pop oneEntryTracker).1 = some b
        ∧ b = oneEntryTracker.buffer.getD oneEntryTracker.tail zeroBlock)
    ∧ (CmdRingBuffer_Peek (CmdRingBuffer_Init ⟨[], 0, 0, 0⟩)
          = (none, CmdRingBuffer_Init ⟨[], 0, 0, 0⟩)
        ∧ CmdRingBuffer_Pop (CmdRingBuffer_Init ⟨[], 0, 0, 0⟩)
          = (none, CmdRingBuffer_Init ⟨[], 0, 0, 0⟩)) :=
  ⟨(C5_peek_is_nondestructive_pop oneEntryTracker).1 (by decide),
   (C5_peek_is_nondestructive_pop (CmdRingBuffer_Init ⟨[], 0, 0, 0⟩)).2 rfl⟩

/-! ## Translation engine: basic facts -/

/-- For two bytes the key is the first as high byte and the second as low byte. -/
theorem MAKE_CTRL_KEY_bytes (kb0 kb1 : Nat) (h0 : kb0 < 256) (h1 : kb1 < 256) :
    MAKE_CTRL_KEY kb0 kb1 = 256 * kb0 + kb1 := by
  unfold MAKE_CTRL_KEY
  have e0 : kb0 % 65536 = kb0 := Nat.mod_eq_of_lt (by omega)
  have e1 : kb1 % 65536 = kb1 := Nat.mod_eq_of_lt (by omega)
  have hb : kb1 < 2 ^ 8 := by norm_num; exact h1
  have hor : 2 ^ 8 * kb0 + kb1 = 2 ^ 8 * kb0 ||| kb1 := Nat.mul_add_lt_is_or hb kb0
  rw [e0, e1, Nat.shiftLeft_eq, Nat.mul_comm kb0 (2 ^ 8), ← hor]
  norm_num
  omega

/-- The keys of `command_map`, in table order. -/
theorem command_map_keys :
    command_map.map (fun e => e.ctrl_key) = [0x16, 0x2D, 0x2D, 0x2D] := by
  decide

/-- The shift `>> 1` of the binary search is the division by two. -/
theorem shiftRight_one_eq_div (m : Int) : m >>> (1 : Nat) = m / 2 := by
  rw [Int.shiftRight_eq_div_pow]
  norm_num

/-- What the binary search returns on `command_map`. -/
theorem FindMappingByCtrlKey_eq (key : Nat) :
    FindMappingByCtrlKey key
      = if key = 0x2D then some 1 else if key = 0x16 then some 0 else none := by
  unfold FindMappingByCtrlKey findMappingIn
  rw [command_map_keys]
  have hlen : command_map.length = 4 := by decide
  rw [hlen]
  by_cases h1 : key = 0x2D
  · subst h1
    norm_num [findMappingLoop, shiftRight_one_eq_div]
  · by_cases h2 : key = 0x16
    · subst h2
      norm_num [findMappingLoop, shiftRight_one_eq_div]
    · simp only [h1, h2, if_false]
      by_cases h3 : key < 0x2D
      · have n1 : ¬ (0x2D < key) := by omega
        by_cases h4 : 0x16 < key
        · norm_num [findMappingLoop, shiftRight_one_eq_div, Ne.symm h1, Ne.symm h2, n1, h4]
        · norm_num [findMappingLoop, shiftRight_one_eq_div, Ne.symm h1, Ne.symm h2, n1, h4]
      · have n1 : 0x2D < key := by omega
        have t2 : Int.toNat 2 = 2 := rfl
        have t3 : Int.toNat 3 = 3 := rfl
        norm_num [findMappingLoop, shiftRight_one_eq_div, Ne.symm h1, n1, t2, t3]

/-- The binary search returns indices of `command_map` only. -/
theorem FindMappingByCtrlKey_lt (key mi : Nat) (h : FindMappingByCtrlKey key = some mi) :
    mi < command_map.length := by
  rw [FindMappingByCtrlKey_eq] at h
  have hlen : command_map.length = 4 := by decide
  rw [hlen]
  split_ifs at h <;> simp at h <;> omega

/-- A packet accepted by `VerifyCtrlPacket` is at least 8 bytes long. -/
theorem verifyCtrl_len (pkt : List Nat) (len : Nat) (hv : VerifyCtrlPacket pkt len = true) :
    8 ≤ len := by
  by_contra h
  have hlt : len < 8 := by omega
  simp [VerifyCtrlPacket, hlt] at hv

/-- A key is in `command_map` exactly when it is 0x0016 or 0x002D. -/
theorem mem_command_map_keys (key : Nat) :
    key ∈ command_map.map (fun e => e.ctrl_key) ↔ (key = 0x16 ∨ key = 0x2D) := by
  rw [command_map_keys]
  simp

/-- The translation of a control packet that `VerifyCtrlPacket` accepts and
whose key is in `command_map`: the camera frame of `Translator_SimpleSet` is
written, and the result is decided by the push into the pending tracker. -/
theorem translate_of_valid (st : HandlerState) (pkt : List Nat) (len tick : Nat)
    (hv : VerifyCtrlPacket pkt len = true)
    (hk : MAKE_CTRL_KEY (pkt.getD 2 0) (pkt.getD 3 0) ∈ command_map.map (fun e => e.ctrl_key)) :
    ∃ mi : Nat, FindMappingByCtrlKey (MAKE_CTRL_KEY (pkt.getD 2 0) (pkt.getD 3 0)) = some mi ∧
      CommandHandler_TranslateCtrlToCam st pkt len tick
        = (if (CmdRingBuffer_PushComplete st.g_pending_commands 0 (some pkt) len
                queryBitEnum.QUERY_NONE (some mi) tick).1
            then TranslationResult_t.TRANSLATION_OK
            else TranslationResult_t.TRANSLATION_QUEUE_FULL,
           some [0x55, 0xAA, 0x07, 0x02, 0x01, 0x08, 0x00, 0x00, 0x00, 0x01, 0x0D, 0xF0],
           { st with g_pending_commands :=
              (CmdRingBuffer_PushComplete st.g_pending_commands 0 (some pkt) len
                queryBitEnum.QUERY_NONE (some mi) tick).2 }) := by
  have hlen := verifyCtrl_len pkt len hv
  have h8 : ¬ len < 8 := by omega
  have h5 : ¬ len < 5 := by omega
  have hframe : Translator_SimpleSet pkt len
      = some [0x55, 0xAA, 0x07, 0x02, 0x01, 0x08, 0x00, 0x00, 0x00, 0x01, 0x0D, 0xF0] := by
    unfold Translator_SimpleSet
    rw [if_neg h8]
    decide
  rcases (mem_command_map_keys _).1 hk with h | h
  · refine ⟨0, by rw [FindMappingByCtrlKey_eq, h]; decide, ?_⟩
    unfold CommandHandler_TranslateCtrlToCam
    simp only [h8, h5, hv, if_false, Bool.not_true, FindMappingByCtrlKey_eq, h]
    simp only [command_map, List.get?, hframe]
    split_ifs <;> simp_all
  · refine ⟨1, by rw [FindMappingByCtrlKey_eq, h]; decide, ?_⟩
    unfold CommandHandler_TranslateCtrlToCam
    simp only [h8, h5, hv, if_false, Bool.not_true, FindMappingByCtrlKey_eq, h]
    simp only [command_map, List.get?, hframe]
    split_ifs <;> simp_all

/-- One call with a request that `VerifyCtrlPacket` accepts, whose key is in
`command_map` and which is at most 32 bytes long: Ok and one entry more while
the tracker holds fewer than 16 entries, QueueFull and no change otherwise. -/
theorem translate_good_step (st : HandlerState) (pkt : List Nat) (len tick : Nat)
    (hv : VerifyCtrlPacket pkt len = true)
    (hk : MAKE_CTRL_KEY (pkt.getD 2 0) (pkt.getD 3 0) ∈ command_map.map (fun e => e.ctrl_key))
    (hl : len ≤ 32) :
    (st.g_pending_commands.count < 16 →
      (CommandHandler_TranslateCtrlToCam st pkt len tick).1 = TranslationResult_t.TRANSLATION_OK
      ∧ (CommandHandler_TranslateCtrlToCam st pkt len tick).2.2.g_pending_commands.count
          = st.g_pending_commands.count + 1)
    ∧ (16 ≤ st.g_pending_commands.count →
      (CommandHandler_TranslateCtrlToCam st pkt len tick).1
          = TranslationResult_t.TRANSLATION_QUEUE_FULL
      ∧ (CommandHandler_TranslateCtrlToCam st pkt len tick).2.2 = st) := by
  obtain ⟨mi, _, heq⟩ := translate_of_valid st pkt len tick hv hk
  obtain ⟨hiff, hfail, hok⟩ := pushComplete_spec st.g_pending_commands 0 pkt len
    queryBitEnum.QUERY_NONE mi tick
  rw [heq]
  constructor
  · intro hc
    have ht : (CmdRingBuffer_PushComplete st.g_pending_commands 0 (some pkt) len
        queryBitEnum.QUERY_NONE (some mi) tick).1 = true := by
      by_contra hne
      have hf : (CmdRingBuffer_PushComplete st.g_pending_commands 0 (some pkt) len
          queryBitEnum.QUERY_NONE (some mi) tick).1 = false := by simpa using hne
      have := hiff.1 hf
      omega
    constructor
    · simp only [ht, if_true]
    · simp only [hok ht]
  · intro hc
    have hf : (CmdRingBuffer_PushComplete st.g_pending_commands 0 (some pkt) len
        queryBitEnum.QUERY_NONE (some mi) tick).1 = false := hiff.2 (Or.inl hc)
    constructor
    · simp [hf]
    · simp only [hfail hf]

/-- A run of good requests that starts with `k ≤ 16` pending entries and has
`17 - k` requests: all but the last are answered Ok, the last QueueFull, and 16
entries are pending afterwards. -/
theorem translateAll_fill (reqs : List (List Nat × Nat × Nat)) :
    ∀ (st : HandlerState),
      st.g_pending_commands.count ≤ 16 →
      st.g_pending_commands.count + reqs.length = 17 →
      (∀ r ∈ reqs, VerifyCtrlPacket r.1 r.2.1 = true
        ∧ MAKE_CTRL_KEY (r.1.getD 2 0) (r.1.getD 3 0) ∈ command_map.map (fun e => e.ctrl_key)
        ∧ r.2.1 ≤ 32) →
      (translateAll st reqs).1
          = List.replicate (16 - st.g_pending_commands.count) TranslationResult_t.TRANSLATION_OK
            ++ [TranslationResult_t.TRANSLATION_QUEUE_FULL]
      ∧ (translateAll st reqs).2.g_pending_commands.count = 16 := by
  induction reqs with
  | nil =>
    intro st hle hlen _
    simp only [List.length_nil] at hlen
    omega
  | cons r rest ih =>
    intro st hle hlen hgood
    obtain ⟨pkt, len, tick⟩ := r
    obtain ⟨hv, hk, hl⟩ := hgood (pkt, len, tick) (List.mem_cons_self _ _)
    have hrest : ∀ r ∈ rest, VerifyCtrlPacket r.1 r.2.1 = true
        ∧ MAKE_CTRL_KEY (r.1.getD 2 0) (r.1.getD 3 0) ∈ command_map.map (fun e => e.ctrl_key)
        ∧ r.2.1 ≤ 32 := fun r hr => hgood r (List.mem_cons_of_mem _ hr)
    obtain ⟨hstepOk, hstepFull⟩ := translate_good_step st pkt len tick hv hk hl
    simp only [List.length_cons] at hlen
    simp only [translateAll]
    by_cases hc : st.g_pending_commands.count < 16
    · obtain ⟨hres, hcnt⟩ := hstepOk hc
      obtain ⟨ih1, ih2⟩ := ih (CommandHandler_TranslateCtrlToCam st pkt len tick).2.2
        (by omega) (by omega) hrest
      refine ⟨?_, ih2⟩
      rw [ih1, hres, hcnt]
      have hsplit : 16 - st.g_pending_commands.count
          = (16 - (st.g_pending_commands.count + 1)) + 1 := by omega
      rw [hsplit, List.replicate_succ, List.cons_append]
    · have hfull : 16 ≤ st.g_pending_commands.count := by omega
      obtain ⟨hres, hst⟩ := hstepFull hfull
      have hnil : rest = [] := List.eq_nil_of_length_eq_zero (by omega)
      subst hnil
      have hz : 16 - st.g_pending_commands.count = 0 := by omega
      rw [hres, hst, hz]
      simp only [translateAll, List.replicate_zero, List.nil_append]
      exact ⟨trivial, by omega⟩

/-! ## Translation engine: the claims -/

/-- C6: whatever the tracker state, `CommandHandler_TranslateCtrlToCam` returns
InvalidPacket for every input of length below 8, ChecksumError for every input
of length at least 8 that `VerifyCtrlPacket` rejects, and UnknownCommand for
every input that `VerifyCtrlPacket` accepts and whose key (byte 2 high, byte 3
low) is the key of no `command_map` entry. -/
theorem C6_translate_rejections (st : HandlerState) (pkt : List Nat) (len tick : Nat) :
    (len < 8 →
      (CommandHandler_TranslateCtrlToCam st pkt len tick).1
        = TranslationResult_t.TRANSLATION_INVALID_PACKET)
    ∧ (8 ≤ len → VerifyCtrlPacket pkt len = false →
      (CommandHandler_TranslateCtrlToCam st pkt len tick).1
        = TranslationResult_t.TRANSLATION_CHECKSUM_ERROR)
    ∧ (VerifyCtrlPacket pkt len = true →
      MAKE_CTRL_KEY (pkt.getD 2 0) (pkt.getD 3 0) ∉ command_map.map (fun e => e.ctrl_key) →
      (CommandHandler_TranslateCtrlToCam st pkt len tick).1
        = TranslationResult_t.TRANSLATION_UNKNOWN_CMD) := by
  refine ⟨?_, ?_, ?_⟩
  · intro h
    unfold CommandHandler_TranslateCtrlToCam
    simp [h]
  · intro h hv
    have h8 : ¬ len < 8 := by omega
    unfold CommandHandler_TranslateCtrlToCam
    simp [h8, hv]
  · intro hv hk
    have hlen := verifyCtrl_len pkt len hv
    have h8 : ¬ len < 8 := by omega
    have h5 : ¬ len < 5 := by omega
    rw [mem_command_map_keys] at hk
    have hnone : FindMappingByCtrlKey (MAKE_CTRL_KEY (pkt.getD 2 0) (pkt.getD 3 0)) = none := by
      rw [FindMappingByCtrlKey_eq]
      have a1 : ¬ MAKE_CTRL_KEY (pkt.getD 2 0) (pkt.getD 3 0) = 0x2D := fun h => hk (Or.inr h)
      have a2 : ¬ MAKE_CTRL_KEY (pkt.getD 2 0) (pkt.getD 3 0) = 0x16 := fun h => hk (Or.inl h)
      rw [if_neg a1, if_neg a2]
    unfold CommandHandler_TranslateCtrlToCam
    simp only [h8, h5, hv, if_false, Bool.not_true, hnone]
    rfl

/-- C6 at three concrete inputs: an empty input, scenario A's request with a
wrong checksum byte, and a valid request with the key 0x0017. -/
theorem C6_translate_rejections_witness :
    (CommandHandler_TranslateCtrlToCam (CommandHandler_Init bootState) [] 0 0).1
        = TranslationResult_t.TRANSLATION_INVALID_PACKET
    ∧ (CommandHandler_TranslateCtrlToCam (CommandHandler_Init bootState)
          badChecksum_request 9 0).1
        = TranslationResult_t.TRANSLATION_CHECKSUM_ERROR
    ∧ (CommandHandler_TranslateCtrlToCam (CommandHandler_Init bootState)
          unknownKey_request 9 0).1
        = TranslationResult_t.TRANSLATION_UNKNOWN_CMD :=
  ⟨(C6_translate_rejections (CommandHandler_Init bootState) [] 0 0).1 (by decide),
   (C6_translate_rejections (CommandHandler_Init bootState) badChecksum_request 9 0).2.1
      (by decide) (by decide),
   (C6_translate_rejections (CommandHandler_Init bootState) unknownKey_request 9 0).2.2
      (by decide) (by decide)⟩

/-- C7 (scenario A): on a freshly initialised handler, at any clock value, the
request `AA 05 00 16 01 00 C6 EB AA` is translated with result Ok; the entry
selected for its key is entry 0 of `command_map`, "Manuel NUC"; the device
frame written is `55 AA 07 02 01 08 00 00 00 01 0D F0`, which begins
`55 AA 07 02 01 08`; and the pending tracker then holds exactly one entry, the
request with a reference to that mapping entry. -/
theorem C7_scenario_A (tick : Nat) :
    (CommandHandler_TranslateCtrlToCam (CommandHandler_Init bootState)
        scenarioA_request 9 tick).1 = TranslationResult_t.TRANSLATION_OK
    ∧ FindMappingByCtrlKey (MAKE_CTRL_KEY (scenarioA_request.getD 2 0)
        (scenarioA_request.getD 3 0)) = some 0
    ∧ (command_map.get? 0).map (fun e => e.desc) = some "Manuel NUC"
    ∧ (CommandHandler_TranslateCtrlToCam (CommandHandler_Init bootState)
        scenarioA_request 9 tick).2.1
        = some [0x55, 0xAA, 0x07, 0x02, 0x01, 0x08, 0x00, 0x00, 0x00, 0x01, 0x0D, 0xF0]
    ∧ (((CommandHandler_TranslateCtrlToCam (CommandHandler_Init bootState)
        scenarioA_request 9 tick).2.1).getD []).take 6 = [0x55, 0xAA, 0x07, 0x02, 0x01, 0x08]
    ∧ CommandHandler_GetPendingCount
        (CommandHandler_TranslateCtrlToCam (CommandHandler_Init bootState)
          scenarioA_request 9 tick).2.2 = 1
    ∧ (CmdRingBuffer_Peek
        (CommandHandler_TranslateCtrlToCam (CommandHandler_Init bootState)
          scenarioA_request 9 tick).2.2.g_pending_commands).1
        = some { original_request := copyRequest scenarioA_request 9, request_lenth := 9,
                 nmbr := queryBitEnum.QUERY_NONE, timestamp := tick, mapping := some 0 } := by
  have hfind : FindMappingByCtrlKey (MAKE_CTRL_KEY (scenarioA_request.getD 2 0)
      (scenarioA_request.getD 3 0)) = some 0 := by decide
  obtain ⟨mi, hmi, heq⟩ := translate_of_valid (CommandHandler_Init bootState)
    scenarioA_request 9 tick (by decide) (by decide)
  rw [hfind] at hmi
  have hmi0 : mi = 0 := (Option.some.inj hmi).symm
  subst hmi0
  have hpush : CmdRingBuffer_PushComplete (CommandHandler_Init bootState).g_pending_commands 0
      (some scenarioA_request) 9 queryBitEnum.QUERY_NONE (some 0) tick
      = (true,
          { buffer := (List.replicate 32 zeroBlock).set 0
              { original_request := copyRequest scenarioA_request 9, request_lenth := 9,
                nmbr := queryBitEnum.QUERY_NONE, timestamp := tick, mapping := some 0 }
            head := 1, tail := 0, count := 1 }) := by
    simp [CmdRingBuffer_PushComplete, CommandHandler_Init, CmdRingBuffer_Init, CMD_BUFFER_SIZE,
      CMD_MAX_LENGTH]
  rw [heq, hpush]
  refine ⟨rfl, hfind, by decide, rfl, rfl, rfl, ?_⟩
  simp [CmdRingBuffer_Peek, List.replicate]

/-- C8 (scenario B): for every device frame accepted by `VerifyCamPacket`,
`CommandHandler_ProcessCamResponse` called while the pending tracker is empty
returns InvalidPacket, writes no control response, and leaves the state, hence
the empty tracker, as it was. -/
theorem C8_unsolicited_response (st : HandlerState) (cam : List Nat) (cam_len : Nat)
    (hv : VerifyCamPacket cam cam_len = true) (he : st.g_pending_commands.count = 0) :
    CommandHandler_ProcessCamResponse st cam cam_len
      = (TranslationResult_t.TRANSLATION_INVALID_PACKET, none, st) := by
  unfold CommandHandler_ProcessCamResponse
  have hpop : CmdRingBuffer_Pop st.g_pending_commands = (none, st.g_pending_commands) := by
    unfold CmdRingBuffer_Pop
    simp [he]
  simp [hv, hpop]

/-- C8 on a freshly initialised handler, with the device frame `55 AA 01 00 01 F0`. -/
theorem C8_unsolicited_response_witness :
    VerifyCamPacket ack_frame 6 = true
    ∧ CommandHandler_GetPendingCount (CommandHandler_Init bootState) = 0
    ∧ CommandHandler_ProcessCamResponse (CommandHandler_Init bootState) ack_frame 6
      = (TranslationResult_t.TRANSLATION_INVALID_PACKET, none, CommandHandler_Init bootState) :=
  ⟨by decide, by decide,
    C8_unsolicited_response (CommandHandler_Init bootState) ack_frame 6 (by decide) (by decide)⟩

/-- C9 (scenario C): seventeen control requests that `VerifyCtrlPacket`
accepts, whose keys are in `command_map` and which are at most 32 bytes long,
submitted to a freshly initialised handler one after the other (each at its own
clock value): the first sixteen calls return Ok, the seventeenth returns
QueueFull, and `CommandHandler_GetPendingCount` is 16 afterwards. -/
theorem C9_scenario_C (reqs : List (List Nat × Nat × Nat))
    (hlen : reqs.length = 17)
    (hgood : ∀ r ∈ reqs, VerifyCtrlPacket r.1 r.2.1 = true
      ∧ MAKE_CTRL_KEY (r.1.getD 2 0) (r.1.getD 3 0) ∈ command_map.map (fun e => e.ctrl_key)
      ∧ r.2.1 ≤ 32) :
    (translateAll (CommandHandler_Init bootState) reqs).1
        = List.replicate 16 TranslationResult_t.TRANSLATION_OK
          ++ [TranslationResult_t.TRANSLATION_QUEUE_FULL]
    ∧ CommandHandler_GetPendingCount (translateAll (CommandHandler_Init bootState) reqs).2
        = 16 := by
  have h0 : (CommandHandler_Init bootState).g_pending_commands.count = 0 := rfl
  have h := translateAll_fill reqs (CommandHandler_Init bootState) (by omega) (by omega) hgood
  rw [h0] at h
  exact h

/-- C9 with seventeen copies of scenario A's request, at the clock values 0 .. 16. -/
theorem C9_scenario_C_witness :
    (translateAll (CommandHandler_Init bootState)
        ((List.range 17).map (fun t => (scenarioA_request, 9, t)))).1
        = List.replicate 16 TranslationResult_t.TRANSLATION_OK
          ++ [TranslationResult_t.TRANSLATION_QUEUE_FULL]
    ∧ CommandHandler_GetPendingCount
        (translateAll (CommandHandler_Init bootState)
          ((List.range 17).map (fun t => (scenarioA_request, 9, t)))).2 = 16 :=
  C9_scenario_C ((List.range 17).map (fun t => (scenarioA_request, 9, t))) (by decide)
    (by decide)

/-- C10 as stated fails: on a freshly initialised handler, whose tracker is
empty, the 33-byte request `long_request` (valid checksum, key 0x0016) is
answered QueueFull. -/
theorem C10_queue_full_on_empty_tracker :
    (CommandHandler_TranslateCtrlToCam (CommandHandler_Init bootState) long_request 33 0).1
        = TranslationResult_t.TRANSLATION_QUEUE_FULL
    ∧ CommandHandler_GetPendingCount (CommandHandler_Init bootState) = 0 := by
  decide

/-- C10 (amended): a QueueFull result of `CommandHandler_TranslateCtrlToCam`
implies that the pending tracker held 16 entries (its count had reached
`CMD_BUFFER_SIZE`) at the time of the call, or that the request is longer than
the 32 bytes an entry can store. -/
theorem C10_queue_full_cause (st : HandlerState) (pkt : List Nat) (len tick : Nat)
    (h : (CommandHandler_TranslateCtrlToCam st pkt len tick).1
      = TranslationResult_t.TRANSLATION_QUEUE_FULL) :
    16 ≤ st.g_pending_commands.count ∨ 32 < len := by
  unfold CommandHandler_TranslateCtrlToCam at h
  split_ifs at h with h1 h2 h3
  all_goals try (simp at h)
  split at h
  · simp at h
  · rename_i mi hfind
    split at h
    · simp at h
    · rename_i mapping hmap
      split at h
      · simp at h
      · rename_i cam hcam
        split_ifs at h with hp
        · have hf : (CmdRingBuffer_PushComplete st.g_pending_commands 0 (some pkt) len
              mapping.query_id (some mi) tick).1 = false := by simpa using hp
          have := (pushComplete_spec st.g_pending_commands 0 pkt len mapping.query_id mi tick).1.1 hf
          omega

set_option maxRecDepth 100000 in
/-- C10 (amended) on the full tracker left by sixteen accepted requests. -/
theorem C10_queue_full_cause_witness :
    (CommandHandler_TranslateCtrlToCam fullHandler scenarioA_request 9 16).1
        = TranslationResult_t.TRANSLATION_QUEUE_FULL
    ∧ (16 ≤ fullHandler.g_pending_commands.count ∨ 32 < 9) :=
  ⟨by decide, C10_queue_full_cause fullHandler scenarioA_request 9 16 (by decide)⟩

/-! ## Checksums and verifiers: basic facts -/

/-- Reading `n` consecutive bytes from the index `lo` on yields the slice of
the buffer, when the buffer holds that many bytes. -/
theorem map_range_getD (l : List Nat) (lo n : Nat) (h : lo + n ≤ l.length) :
    (List.range n).map (fun k => l.getD (lo + k) 0) = (l.take (lo + n)).drop lo := by
  apply List.ext_getElem?
  intro k
  by_cases hk : k < n
  · rw [List.getElem?_map, List.getElem?_range hk, List.getElem?_drop,
      List.getElem?_take_of_lt (by omega)]
    have hlt : lo + k < l.length := by omega
    simp [List.getD_eq_getElem?_getD, List.getElem?_eq_getElem hlt]
  · have h1 : ((List.range n).map (fun k => l.getD (lo + k) 0))[k]? = none := by
      apply List.getElem?_eq_none
      simp
      omega
    have h2 : ((l.take (lo + n)).drop lo)[k]? = none := by
      apply List.getElem?_eq_none
      simp
      omega
    rw [h1, h2]

/-- On bytes the reduction `% 256` after each XOR changes nothing. -/
theorem foldl_xor_mod (m : List Nat) (hm : ∀ b ∈ m, b < 256) :
    ∀ a : Nat, a < 256 →
      m.foldl (fun x b => (x ^^^ b) % 256) a = m.foldl (fun acc b => acc ^^^ b) a := by
  induction m with
  | nil => intro a _; rfl
  | cons b m ih =>
    intro a ha
    have hb : b < 256 := hm b (List.mem_cons_self _ _)
    have hx : a ^^^ b < 256 := by
      have := @Nat.xor_lt_two_pow a b 8 (by simpa using ha) (by simpa using hb)
      simpa using this
    simp only [List.foldl_cons]
    rw [Nat.mod_eq_of_lt hx]
    exact ih (fun c hc => hm c (List.mem_cons_of_mem _ hc)) _ hx

/-- The loop of `CalculateCamChecksum` as a fold over the slice it reads. -/
theorem CalculateCamChecksum_slice (pkt : List Nat) (len : Nat) (h4 : 4 ≤ len)
    (hlen : len - 2 ≤ pkt.length) :
    CalculateCamChecksum pkt len
      = ((pkt.take (len - 2)).drop 2).foldl (fun x b => (x ^^^ b) % 256) 0 := by
  unfold CalculateCamChecksum
  rw [if_neg (by omega)]
  have hmap := map_range_getD pkt 2 (len - 2 - 2) (by omega)
  have e : 2 + (len - 2 - 2) = len - 2 := by omega
  rw [e] at hmap
  rw [← hmap, List.foldl_map]

/-- The loop of the translators as a fold over the bytes written from index 2 on. -/
theorem xorFromIndex2_slice (w : List Nat) (h2 : 2 ≤ w.length) :
    xorFromIndex2 w = (w.drop 2).foldl (fun x b => (x ^^^ b) % 256) 0 := by
  unfold xorFromIndex2
  have hmap := map_range_getD w 2 (w.length - 2) (by omega)
  have e : 2 + (w.length - 2) = w.length := by omega
  rw [e, List.take_length] at hmap
  rw [← hmap, List.foldl_map]

/-- `VerifyCtrlPacket` as a conjunction of its four tests. -/
theorem verifyCtrl_iff (pkt : List Nat) (len : Nat) :
    VerifyCtrlPacket pkt len = true ↔
      (8 ≤ len ∧ (pkt.getD 0 0 = 0xAA ∨ pkt.getD 0 0 = 0x55)
        ∧ pkt.getD (len - 2) 0 = 0xEB ∧ pkt.getD (len - 1) 0 = 0xAA
        ∧ CalculateCtrlChecksum pkt len = pkt.getD (len - 3) 0) := by
  unfold VerifyCtrlPacket
  simp only [CTRL_PKT_END_EB, CTRL_PKT_END_AA]
  by_cases h8 : len < 8
  · simp [h8]
  · have h8' : 8 ≤ len := by omega
    simp [h8, h8', and_assoc]

/-- `VerifyCamPacket` as a conjunction of its four tests. -/
theorem verifyCam_iff (pkt : List Nat) (len : Nat) :
    VerifyCamPacket pkt len = true ↔
      (6 ≤ len ∧ pkt.getD 0 0 = 0x55 ∧ pkt.getD 1 0 = 0xAA
        ∧ pkt.getD (len - 1) 0 = 0xF0
        ∧ CalculateCamChecksum pkt len = pkt.getD (len - 2) 0) := by
  unfold VerifyCamPacket
  simp only [CAM_PKT_START1, CAM_PKT_START2, CAM_PKT_END]
  by_cases h6 : len < 6
  · simp [h6]
  · have h6' : 6 ≤ len := by omega
    simp [h6, h6', and_assoc]

/-- A device frame built the way the translators build it (the written bytes,
their XOR from index 2 on, the end marker) is accepted by `VerifyCamPacket`. -/
theorem verifyCam_of_built (w : List Nat) (h4 : 4 ≤ w.length)
    (h0 : w.getD 0 0 = 0x55) (h1 : w.getD 1 0 = 0xAA) :
    VerifyCamPacket (w ++ [xorFromIndex2 w, CAM_PKT_END]) (w ++ [xorFromIndex2 w, CAM_PKT_END]).length
      = true := by
  have hl : (w ++ [xorFromIndex2 w, CAM_PKT_END]).length = w.length + 2 := by simp
  rw [hl, verifyCam_iff]
  have g0 : (w ++ [xorFromIndex2 w, CAM_PKT_END]).getD 0 0 = w.getD 0 0 :=
    List.getD_append _ _ _ _ (by omega)
  have g1 : (w ++ [xorFromIndex2 w, CAM_PKT_END]).getD 1 0 = w.getD 1 0 :=
    List.getD_append _ _ _ _ (by omega)
  have gx : (w ++ [xorFromIndex2 w, CAM_PKT_END]).getD (w.length + 2 - 2) 0 = xorFromIndex2 w := by
    have e : w.length + 2 - 2 = w.length := by omega
    rw [e, List.getD_eq_getElem?_getD, List.getElem?_append_right (le_refl _)]
    simp
  have ge : (w ++ [xorFromIndex2 w, CAM_PKT_END]).getD (w.length + 2 - 1) 0 = 0xF0 := by
    have e : w.length + 2 - 1 = w.length + 1 := by omega
    rw [e, List.getD_eq_getElem?_getD, List.getElem?_append_right (by omega)]
    simp [CAM_PKT_END]
  have hc : CalculateCamChecksum (w ++ [xorFromIndex2 w, CAM_PKT_END]) (w.length + 2)
      = xorFromIndex2 w := by
    rw [CalculateCamChecksum_slice _ _ (by omega) (by simp), xorFromIndex2_slice w (by omega)]
    have e : w.length + 2 - 2 = w.length := by omega
    rw [e, List.take_left]
  refine ⟨by omega, ?_, ?_, ge, ?_⟩
  · rw [g0, h0]
  · rw [g1, h1]
  · rw [hc, gx]

/-- Every frame written by `Translator_SimpleSet` is accepted by `VerifyCamPacket`. -/
theorem Translator_SimpleSet_verified (ctrl : List Nat) (len : Nat) (cam : List Nat)
    (h : Translator_SimpleSet ctrl len = some cam) : VerifyCamPacket cam cam.length = true := by
  unfold Translator_SimpleSet at h
  split_ifs at h
  simp only [Option.some.injEq] at h
  rw [← h]
  exact verifyCam_of_built _ (by simp) (by rfl) (by rfl)

/-- Every frame written by `Translator_ZoomSet` is accepted by `VerifyCamPacket`. -/
theorem Translator_ZoomSet_verified (ctrl : List Nat) (len : Nat) (cam : List Nat)
    (h : Translator_ZoomSet ctrl len = some cam) : VerifyCamPacket cam cam.length = true := by
  unfold Translator_ZoomSet at h
  simp only [] at h
  split_ifs at h
  simp only [Option.some.injEq] at h
  rw [← h]
  apply verifyCam_of_built
  · simp
  · simp [CAM_PKT_START1]
  · simp [CAM_PKT_START2]

/-- Every frame written by `Translator_ReadQuery` is accepted by `VerifyCamPacket`. -/
theorem Translator_ReadQuery_verified (ctrl : List Nat) (len : Nat) (cam : List Nat)
    (h : Translator_ReadQuery ctrl len = some cam) : VerifyCamPacket cam cam.length = true := by
  unfold Translator_ReadQuery at h
  simp only [] at h
  split_ifs at h
  all_goals
    simp only [Option.some.injEq] at h
    rw [← h]
    exact verifyCam_of_built _ (by simp) (by rfl) (by rfl)

/-- Every entry of `command_map` has `Translator_SimpleSet` as translator and
`ResponseGen_SimpleACK` as response generator. -/
theorem command_map_entries (mi : Nat) (mapping : CommandMapping_t)
    (h : command_map.get? mi = some mapping) :
    mapping.translator = Translator_SimpleSet ∧ mapping.response_gen = ResponseGen_SimpleACK := by
  unfold command_map at h
  match mi, h with
  | 0, h => simp only [List.get?, Option.some.injEq] at h; subst h; exact ⟨rfl, rfl⟩
  | 1, h => simp only [List.get?, Option.some.injEq] at h; subst h; exact ⟨rfl, rfl⟩
  | 2, h => simp only [List.get?, Option.some.injEq] at h; subst h; exact ⟨rfl, rfl⟩
  | 3, h => simp only [List.get?, Option.some.injEq] at h; subst h; exact ⟨rfl, rfl⟩
  | n + 4, h => simp [List.get?] at h

/-- What an Ok result of `CommandHandler_TranslateCtrlToCam` tells: the packet
was accepted by `VerifyCtrlPacket`, the search returned an entry of
`command_map` for its key, and the frame written is the one of that entry's
translator, `Translator_SimpleSet`. -/
theorem translate_ok_inv (st : HandlerState) (pkt : List Nat) (len tick : Nat)
    (h : (CommandHandler_TranslateCtrlToCam st pkt len tick).1
      = TranslationResult_t.TRANSLATION_OK) :
    VerifyCtrlPacket pkt len = true
    ∧ (∃ mi mapping,
        FindMappingByCtrlKey (MAKE_CTRL_KEY (pkt.getD 2 0) (pkt.getD 3 0)) = some mi
        ∧ command_map.get? mi = some mapping)
    ∧ (CommandHandler_TranslateCtrlToCam st pkt len tick).2.1
        = some [0x55, 0xAA, 0x07, 0x02, 0x01, 0x08, 0x00, 0x00, 0x00, 0x01, 0x0D, 0xF0] := by
  by_cases hv : VerifyCtrlPacket pkt len = true
  · by_cases hk : MAKE_CTRL_KEY (pkt.getD 2 0) (pkt.getD 3 0)
        ∈ command_map.map (fun e => e.ctrl_key)
    · obtain ⟨mi, hmi, heq⟩ := translate_of_valid st pkt len tick hv hk
      have hlt := FindMappingByCtrlKey_lt _ _ hmi
      refine ⟨hv, ⟨mi, command_map.get ⟨mi, hlt⟩, hmi, List.get?_eq_get hlt⟩, ?_⟩
      rw [heq]
    · exfalso
      have hlen := verifyCtrl_len pkt len hv
      rw [mem_command_map_keys] at hk
      have hnone : FindMappingByCtrlKey (MAKE_CTRL_KEY (pkt.getD 2 0) (pkt.getD 3 0)) = none := by
        rw [FindMappingByCtrlKey_eq]
        rw [if_neg (fun h => hk (Or.inr h)), if_neg (fun h => hk (Or.inl h))]
      unfold CommandHandler_TranslateCtrlToCam at h
      simp only [show ¬ len < 8 by omega, show ¬ len < 5 by omega, hv, if_false, Bool.not_true,
        hnone] at h
      exact absurd h (by simp)
  · exfalso
    have hf : VerifyCtrlPacket pkt len = false := by simpa using hv
    unfold CommandHandler_TranslateCtrlToCam at h
    by_cases h8 : len < 8
    · simp [h8] at h
    · simp [h8, hf] at h

/-- The nine bytes `ResponseGen_SimpleACK` writes. -/
theorem ResponseGen_SimpleACK_eq (cam : List Nat) (cam_len : Nat) (orig : List Nat)
    (orig_len : Nat) (resp : List Nat)
    (h : ResponseGen_SimpleACK cam cam_len orig orig_len = some resp) :
    resp = [0x55, 0x05, 0x00, orig.getD 3 0, 0x33, 0x01,
      (0x55 + 0x05 + 0x00 + orig.getD 3 0 + 0x33 + 0x01) % 256, 0xEB, 0xAA] := by
  unfold ResponseGen_SimpleACK at h
  split_ifs at h
  simp only [Option.some.injEq] at h
  rw [← h]
  simp [BuildCtrlResponseHeader, CalculateCtrlChecksum, CONSTANT_PL_FOR_CALC_CS,
    CTRL_PKT_RESP_RESERVE, CTRL_PKT_RESP_ACK_BYTE, CTRL_PKT_END_EB, CTRL_PKT_END_AA,
    List.range_succ]
  omega

/-- The response of `ResponseGen_SimpleACK` is accepted by `VerifyCtrlPacket`,
and its byte 6 is its `CalculateCtrlChecksum`. -/
theorem simpleACK_frame_verified (cmd : Nat) :
    VerifyCtrlPacket [0x55, 0x05, 0x00, cmd, 0x33, 0x01,
        (0x55 + 0x05 + 0x00 + cmd + 0x33 + 0x01) % 256, 0xEB, 0xAA] 9 = true
    ∧ CalculateCtrlChecksum [0x55, 0x05, 0x00, cmd, 0x33, 0x01,
        (0x55 + 0x05 + 0x00 + cmd + 0x33 + 0x01) % 256, 0xEB, 0xAA] 9
      = (0x55 + 0x05 + 0x00 + cmd + 0x33 + 0x01) % 256 := by
  have hc : CalculateCtrlChecksum [0x55, 0x05, 0x00, cmd, 0x33, 0x01,
        (0x55 + 0x05 + 0x00 + cmd + 0x33 + 0x01) % 256, 0xEB, 0xAA] 9
      = (0x55 + 0x05 + 0x00 + cmd + 0x33 + 0x01) % 256 := by
    simp [CalculateCtrlChecksum, List.range_succ]
    omega
  refine ⟨?_, hc⟩
  rw [verifyCtrl_iff]
  refine ⟨by omega, Or.inr rfl, rfl, rfl, ?_⟩
  rw [hc]
  rfl

/-- The XOR that `CalculateCamChecksum` computes over a buffer of bytes is the
running XOR of the bytes from index 2 through index `len - 3`. -/
theorem CalculateCamChecksum_eq_xorOfBytes (pkt : List Nat) (len : Nat)
    (hbytes : ∀ b ∈ pkt, b < 256) (hlen : len ≤ pkt.length) (h4 : 4 ≤ len) :
    CalculateCamChecksum pkt len = xorOfBytes (bytesFromThrough pkt 2 (len - 3)) := by
  rw [CalculateCamChecksum_slice pkt len h4 (by omega)]
  unfold xorOfBytes bytesFromThrough
  have e : len - 3 + 1 = len - 2 := by omega
  rw [e]
  apply foldl_xor_mod
  · intro b hb
    exact hbytes b (List.mem_of_mem_take (List.mem_of_mem_drop hb))
  · norm_num

/-- Writing the byte at `index` does not change `CalculateCtrlChecksum` when
the index is `len - 3` or above. -/
theorem CalculateCtrlChecksum_set (pkt : List Nat) (len index v : Nat) (hi : len - 3 ≤ index) :
    CalculateCtrlChecksum (pkt.set index v) len = CalculateCtrlChecksum pkt len := by
  unfold CalculateCtrlChecksum
  have hmap : (List.range (len - 3)).map (fun i => (pkt.set index v).getD i 0)
      = (List.range (len - 3)).map (fun i => pkt.getD i 0) := by
    apply List.map_congr_left
    intro i hi'
    have hlt : i < len - 3 := List.mem_range.1 hi'
    have hne : index ≠ i := by omega
    simp only [List.getD_eq_getElem?_getD, List.getElem?_set_ne hne]
  rw [hmap]

/-- Writing the byte at `index` does not change `CalculateCamChecksum` when the
index is `len - 2` or above. -/
theorem CalculateCamChecksum_set (pkt : List Nat) (len index v : Nat) (hi : len - 2 ≤ index) :
    CalculateCamChecksum (pkt.set index v) len = CalculateCamChecksum pkt len := by
  unfold CalculateCamChecksum
  split_ifs with h4
  · rfl
  · apply List.foldl_ext
    intro a k hk
    have hlt : k < len - 2 - 2 := List.mem_range.1 hk
    have hne : index ≠ 2 + k := by omega
    simp only [List.getD_eq_getElem?_getD, List.getElem?_set_ne hne]

/-- Flipping a bit changes a number. -/
theorem xor_two_pow_ne (b j : Nat) : b ^^^ 2 ^ j ≠ b := by
  intro h
  have h1 : b ^^^ (b ^^^ 2 ^ j) = 2 ^ j := Nat.xor_cancel_left b (2 ^ j)
  rw [h, Nat.xor_self] at h1
  have h2 : 0 < 2 ^ j := Nat.two_pow_pos j
  omega

/-- The byte read back at the index of `flipBit` is the flipped byte. -/
theorem flipBit_getD (frame : List Nat) (index bit : Nat) (h : index < frame.length) :
    (flipBit frame index bit).getD index 0 = frame.getD index 0 ^^^ 2 ^ bit := by
  unfold flipBit
  simp only [List.getD_eq_getElem?_getD, List.getElem?_set_self h, Option.getD_some]

/-- The sum `CalculateCtrlChecksum` computes is the 8-bit sum of the bytes from
index 0 through index `len - 4`. -/
theorem CalculateCtrlChecksum_eq_sum (pkt : List Nat) (len : Nat) (hlen : len ≤ pkt.length)
    (h4 : 4 ≤ len) :
    CalculateCtrlChecksum pkt len = sumOfBytesMod256 (bytesFromThrough pkt 0 (len - 4)) := by
  unfold CalculateCtrlChecksum sumOfBytesMod256 bytesFromThrough
  rw [if_neg (by omega)]
  have hmap := map_range_getD pkt 0 (len - 3) (by omega)
  simp only [Nat.zero_add] at hmap
  have e : len - 4 + 1 = len - 3 := by omega
  rw [e, hmap]
  exact Nat.mod_mod_of_dvd _ (by norm_num)

/-- Every device input shorter than 6 bytes is answered ChecksumError by
`CommandHandler_ProcessCamResponse`, with nothing written and the state kept. -/
theorem processCamResponse_short (st : HandlerState) (cam : List Nat) (cam_len : Nat)
    (h : cam_len < 6) :
    CommandHandler_ProcessCamResponse st cam cam_len
      = (TranslationResult_t.TRANSLATION_CHECKSUM_ERROR, none, st) := by
  have hf : VerifyCamPacket cam cam_len = false := by
    unfold VerifyCamPacket
    rw [if_pos h]
  simp only [CommandHandler_ProcessCamResponse, hf, Bool.not_false, if_true]

/-- A 9-byte response whose checksum byte is the sum from index 1 on is
rejected by `VerifyCtrlPacket`, whose sum starts at index 0 with the byte 0x55. -/
theorem echo_frame_rejected (cmd param : Nat) :
    VerifyCtrlPacket [0x55, 0x06, 0x00, cmd, 0x33, param,
      (0x06 + 0x00 + cmd + 0x33 + param) % 256, 0xEB, 0xAA] 9 = false := by
  apply Bool.eq_false_iff.2
  intro ht
  obtain ⟨_, _, _, _, hc⟩ := (verifyCtrl_iff _ _).1 ht
  have hcalc : CalculateCtrlChecksum [0x55, 0x06, 0x00, cmd, 0x33, param,
      (0x06 + 0x00 + cmd + 0x33 + param) % 256, 0xEB, 0xAA] 9
      = (0x55 + 0x06 + 0x00 + cmd + 0x33 + param) % 256 := by
    simp [CalculateCtrlChecksum, List.range_succ]
    omega
  rw [hcalc] at hc
  simp at hc
  omega

/-- The same for the 12-byte response with four payload bytes. -/
theorem multi_frame_rejected (cmd b0 b1 b2 b3 : Nat) :
    VerifyCtrlPacket [0x55, 0x09, 0x00, cmd, 0x33, b0, b1, b2, b3,
      (0x09 + 0x00 + cmd + 0x33 + b0 + b1 + b2 + b3) % 256, 0xEB, 0xAA] 12 = false := by
  apply Bool.eq_false_iff.2
  intro ht
  obtain ⟨_, _, _, _, hc⟩ := (verifyCtrl_iff _ _).1 ht
  have hcalc : CalculateCtrlChecksum [0x55, 0x09, 0x00, cmd, 0x33, b0, b1, b2, b3,
      (0x09 + 0x00 + cmd + 0x33 + b0 + b1 + b2 + b3) % 256, 0xEB, 0xAA] 12
      = (0x55 + 0x09 + 0x00 + cmd + 0x33 + b0 + b1 + b2 + b3) % 256 := by
    simp [CalculateCtrlChecksum, List.range_succ]
    omega
  rw [hcalc] at hc
  simp at hc
  omega

/-- No response written by `ResponseGen_EchoParam` is accepted by
`VerifyCtrlPacket`. -/
theorem ResponseGen_EchoParam_rejected (cam : List Nat) (cam_len : Nat) (orig : List Nat)
    (orig_len : Nat) (resp : List Nat)
    (h : ResponseGen_EchoParam cam cam_len orig orig_len = some resp) :
    VerifyCtrlPacket resp resp.length = false := by
  unfold ResponseGen_EchoParam at h
  split_ifs at h
  simp only [Option.some.injEq] at h
  have hresp : resp = [0x55, 0x06, 0x00, orig.getD 3 0, 0x33, orig.getD 5 0,
      (0x06 + 0x00 + orig.getD 3 0 + 0x33 + orig.getD 5 0) % 256, 0xEB, 0xAA] := by
    rw [← h]
    simp [BuildCtrlResponseHeader, sumFromIndex1, CTRL_PKT_RESP_RESERVE, CTRL_PKT_END_EB,
      CTRL_PKT_END_AA, List.range_succ]
    omega
  rw [hresp]
  exact echo_frame_rejected _ _

/-- No response written by `ResponseGen_MultiParam` is accepted by
`VerifyCtrlPacket`. -/
theorem ResponseGen_MultiParam_rejected (cam : List Nat) (cam_len : Nat) (orig : List Nat)
    (orig_len : Nat) (resp : List Nat)
    (h : ResponseGen_MultiParam cam cam_len orig orig_len = some resp) :
    VerifyCtrlPacket resp resp.length = false := by
  unfold ResponseGen_MultiParam at h
  simp only [Option.some.injEq] at h
  generalize (if cam_len ≥ 7 then cam.getD 4 0 else 0) = b0 at h
  generalize (if cam_len ≥ 7 then if cam_len > 5 then cam.getD 5 0 else 0 else 0) = b1 at h
  generalize (if cam_len ≥ 7 then if cam_len > 6 then cam.getD 6 0 else 0 else 0) = b2 at h
  generalize (if cam_len ≥ 7 then if cam_len > 7 then cam.getD 7 0 else 0 else 0) = b3 at h
  have hresp : resp = [0x55, 0x09, 0x00, orig.getD 3 0, 0x33, b0, b1, b2, b3,
      (0x09 + 0x00 + orig.getD 3 0 + 0x33 + b0 + b1 + b2 + b3) % 256, 0xEB, 0xAA] := by
    rw [← h]
    simp [BuildCtrlResponseHeader, sumFromIndex1, CTRL_PKT_RESP_RESERVE, CTRL_PKT_END_EB,
      CTRL_PKT_END_AA, List.range_succ]
    omega
  rw [hresp]
  exact multi_frame_rejected _ _ _ _ _

/-! ## Device responses: the claims -/

/-- C11 (code defect): `CommandHandler_ProcessCamResponse` has no length test of
its own, unlike `CommandHandler_TranslateCtrlToCam`; the 3-byte device input
`55 AA 01`, shorter than the minimum device frame of 6 bytes, is answered
ChecksumError and not InvalidPacket; nothing is written and the state is kept. -/
theorem C11_short_device_input_is_checksum_error :
    CommandHandler_ProcessCamResponse (CommandHandler_Init bootState) [0x55, 0xAA, 0x01] 3
      = (TranslationResult_t.TRANSLATION_CHECKSUM_ERROR, none, CommandHandler_Init bootState) := by
  rfl

set_option maxRecDepth 100000 in
/-- C12 (code defect): scenario A's request (command byte 0x16) and then
`palette_request` (command byte 0x2D) are both accepted with Ok on a freshly
initialised handler. Two valid device frames follow. Both calls of
`CommandHandler_ProcessCamResponse` return Ok, and both control responses carry
the command byte 0x16 of the first request: the second response is generated
from the first request again, not from the second. -/
theorem C12_second_response_from_first_request :
    (translateAll (CommandHandler_Init bootState)
        [(scenarioA_request, 9, 0), (palette_request, 9, 1)]).1
      = [TranslationResult_t.TRANSLATION_OK, TranslationResult_t.TRANSLATION_OK]
    ∧ (CommandHandler_ProcessCamResponse twoPendingHandler ack_frame 6).1
      = TranslationResult_t.TRANSLATION_OK
    ∧ (CommandHandler_ProcessCamResponse twoPendingHandler ack_frame 6).2.1
      = some [0x55, 0x05, 0x00, 0x16, 0x33, 0x01, 0xA4, 0xEB, 0xAA]
    ∧ (CommandHandler_ProcessCamResponse
        (CommandHandler_ProcessCamResponse twoPendingHandler ack_frame 6).2.2 ack_frame 6).1
      = TranslationResult_t.TRANSLATION_OK
    ∧ (CommandHandler_ProcessCamResponse
        (CommandHandler_ProcessCamResponse twoPendingHandler ack_frame 6).2.2 ack_frame 6).2.1
      = some [0x55, 0x05, 0x00, 0x16, 0x33, 0x01, 0xA4, 0xEB, 0xAA]
    ∧ palette_request.getD 3 0 = 0x2D := by
  decide

/-- C13: whenever `CommandHandler_ProcessCamResponse` returns Ok, an entry was
popped from the tracker and the control response written is the 9 bytes
`55 05 00 CMD 33 01 CS EB AA`, where CMD is byte 3 of the popped original
request and CS is the control checksum (`CalculateCtrlChecksum`) of the
response, the sum `55 + 05 + 00 + CMD + 33 + 01` modulo 256; this response is
accepted by `VerifyCtrlPacket`. -/
theorem C13_response_is_simple_ack (st : HandlerState) (cam : List Nat) (cam_len : Nat)
    (h : (CommandHandler_ProcessCamResponse st cam cam_len).1
      = TranslationResult_t.TRANSLATION_OK) :
    ∃ (popped : cmdBlock_t) (resp : List Nat),
      (CmdRingBuffer_Pop st.g_pending_commands).1 = some popped
      ∧ (∃ mi, popped.mapping = some mi ∧ mi < command_map.length)
      ∧ (CommandHandler_ProcessCamResponse st cam cam_len).2.1 = some resp
      ∧ resp = [0x55, 0x05, 0x00, popped.original_request.getD 3 0, 0x33, 0x01,
          CalculateCtrlChecksum resp 9, 0xEB, 0xAA]
      ∧ resp.length = 9
      ∧ CalculateCtrlChecksum resp 9
          = (0x55 + 0x05 + 0x00 + popped.original_request.getD 3 0 + 0x33 + 0x01) % 256
      ∧ VerifyCtrlPacket resp 9 = true := by
  by_cases hv : VerifyCamPacket cam cam_len = true
  · cases hp : (CmdRingBuffer_Pop st.g_pending_commands).1 with
    | none =>
      simp only [CommandHandler_ProcessCamResponse, hv, Bool.not_true, Bool.false_eq_true,
        if_false, hp] at h
      exact absurd h (by decide)
    | some popped =>
      cases hm : popped.mapping with
      | none =>
        simp only [CommandHandler_ProcessCamResponse, hv, Bool.not_true, Bool.false_eq_true,
          if_false, hp, hm] at h
        exact absurd h (by decide)
      | some mi =>
        cases hg : command_map.get? mi with
        | none =>
          simp only [CommandHandler_ProcessCamResponse, hv, Bool.not_true, Bool.false_eq_true,
            if_false, hp, hm, hg] at h
          exact absurd h (by decide)
        | some mapping =>
          have hgen := (command_map_entries mi mapping hg).2
          cases hr : ResponseGen_SimpleACK cam cam_len popped.original_request
              (popped.request_lenth % 256) with
          | none =>
            simp only [CommandHandler_ProcessCamResponse, hv, Bool.not_true, Bool.false_eq_true,
              if_false, hp, hm, hg, hgen, hr] at h
            exact absurd h (by decide)
          | some resp =>
            have hout : (CommandHandler_ProcessCamResponse st cam cam_len).2.1 = some resp := by
              simp only [CommandHandler_ProcessCamResponse, hv, Bool.not_true,
                Bool.false_eq_true, if_false, hp, hm, hg, hgen, hr]
            have hresp := ResponseGen_SimpleACK_eq _ _ _ _ _ hr
            obtain ⟨hver, hcs⟩ := simpleACK_frame_verified (popped.original_request.getD 3 0)
            have hlt : mi < command_map.length := by
              by_contra hge
              have hnone : command_map.get? mi = none := List.get?_eq_none.2 (by omega)
              rw [hnone] at hg
              exact absurd hg (by simp)
            refine ⟨popped, resp, rfl, ⟨mi, hm, hlt⟩, hout, ?_, ?_, ?_, ?_⟩
            · rw [hresp, hcs]
            · rw [hresp]; rfl
            · rw [hresp, hcs]
            · rw [hresp]; exact hver
  · have hf : VerifyCamPacket cam cam_len = false := by simpa using hv
    simp only [CommandHandler_ProcessCamResponse, hf, Bool.not_false, if_true] at h
    exact absurd h (by decide)

/-- C13 on the handler holding scenario A's request and `palette_request`, with
the device frame `55 AA 01 00 01 F0`. -/
theorem C13_response_is_simple_ack_witness :
    ∃ (popped : cmdBlock_t) (resp : List Nat),
      (CmdRingBuffer_Pop twoPendingHandler.g_pending_commands).1 = some popped
      ∧ (∃ mi, popped.mapping = some mi ∧ mi < command_map.length)
      ∧ (CommandHandler_ProcessCamResponse twoPendingHandler ack_frame 6).2.1 = some resp
      ∧ resp = [0x55, 0x05, 0x00, popped.original_request.getD 3 0, 0x33, 0x01,
          CalculateCtrlChecksum resp 9, 0xEB, 0xAA]
      ∧ resp.length = 9
      ∧ CalculateCtrlChecksum resp 9
          = (0x55 + 0x05 + 0x00 + popped.original_request.getD 3 0 + 0x33 + 0x01) % 256
      ∧ VerifyCtrlPacket resp 9 = true :=
  C13_response_is_simple_ack twoPendingHandler ack_frame 6 (by decide)

/-- C14 (code defect): for scenario A's request as original request and the
device frame `55 AA 01 00 01 F0`, `ResponseGen_SimpleACK` writes a response
that `VerifyCtrlPacket` accepts, while the responses of `ResponseGen_EchoParam`
(`55 06 00 16 33 00 4F EB AA`) and `ResponseGen_MultiParam`
(`55 09 00 16 33 00 00 00 00 52 EB AA`) are rejected: these two sum the bytes
from index 1 on, whereas `CalculateCtrlChecksum` sums from index 0 on. -/
theorem C14_echo_and_multi_responses_rejected :
    (ResponseGen_SimpleACK ack_frame 6 scenarioA_request 9).map
        (fun r => VerifyCtrlPacket r r.length) = some true
    ∧ ResponseGen_EchoParam ack_frame 6 scenarioA_request 9
        = some [0x55, 0x06, 0x00, 0x16, 0x33, 0x00, 0x4F, 0xEB, 0xAA]
    ∧ VerifyCtrlPacket [0x55, 0x06, 0x00, 0x16, 0x33, 0x00, 0x4F, 0xEB, 0xAA] 9 = false
    ∧ CalculateCtrlChecksum [0x55, 0x06, 0x00, 0x16, 0x33, 0x00, 0x4F, 0xEB, 0xAA] 9 = 0xA4
    ∧ ResponseGen_MultiParam ack_frame 6 scenarioA_request 9
        = some [0x55, 0x09, 0x00, 0x16, 0x33, 0x00, 0x00, 0x00, 0x00, 0x52, 0xEB, 0xAA]
    ∧ VerifyCtrlPacket [0x55, 0x09, 0x00, 0x16, 0x33, 0x00, 0x00, 0x00, 0x00, 0x52, 0xEB, 0xAA] 12
        = false
    ∧ CalculateCtrlChecksum
        [0x55, 0x09, 0x00, 0x16, 0x33, 0x00, 0x00, 0x00, 0x00, 0x52, 0xEB, 0xAA] 12 = 0xA7 := by
  decide

/-- C15: every device frame a translator writes is accepted by
`VerifyCamPacket` at the length the translator reports: for
`Translator_SimpleSet`, `Translator_ZoomSet` and `Translator_ReadQuery` on every
control input on which they return true, and hence for the frame of every Ok
result of `CommandHandler_TranslateCtrlToCam`. -/
theorem C15_translated_frames_verify (ctrl : List Nat) (len : Nat) :
    (∀ cam, Translator_SimpleSet ctrl len = some cam → VerifyCamPacket cam cam.length = true)
    ∧ (∀ cam, Translator_ZoomSet ctrl len = some cam → VerifyCamPacket cam cam.length = true)
    ∧ (∀ cam, Translator_ReadQuery ctrl len = some cam → VerifyCamPacket cam cam.length = true)
    ∧ (∀ st tick, (CommandHandler_TranslateCtrlToCam st ctrl len tick).1
          = TranslationResult_t.TRANSLATION_OK →
        ∃ cam, (CommandHandler_TranslateCtrlToCam st ctrl len tick).2.1 = some cam
          ∧ VerifyCamPacket cam cam.length = true) := by
  refine ⟨fun cam h => Translator_SimpleSet_verified ctrl len cam h,
    fun cam h => Translator_ZoomSet_verified ctrl len cam h,
    fun cam h => Translator_ReadQuery_verified ctrl len cam h, ?_⟩
  intro st tick h
  obtain ⟨_, _, hframe⟩ := translate_ok_inv st ctrl len tick h
  refine ⟨_, hframe, ?_⟩
  decide

/-- C15 at concrete inputs: scenario A's request through `Translator_SimpleSet`
and through the handler, an 18-byte request through `Translator_ZoomSet`, and a
request with the command byte 0x03 through `Translator_ReadQuery`. -/
theorem C15_translated_frames_verify_witness :
    VerifyCamPacket [0x55, 0xAA, 0x07, 0x02, 0x01, 0x08, 0x00, 0x00, 0x00, 0x01, 0x0D, 0xF0] 12
        = true
    ∧ VerifyCamPacket [0x55, 0xAA, 0x0E, 0x02, 0x01, 0x08, 1, 2, 3, 4, 5, 6, 7, 8, 9, 10,
        0x0E, 0xF0] 18 = true
    ∧ VerifyCamPacket [0x55, 0xAA, 0x07, 0x02, 0x02, 0x10, 0x00, 0x00, 0x00, 0x00, 0x17, 0xF0] 12
        = true
    ∧ (∃ cam, (CommandHandler_TranslateCtrlToCam (CommandHandler_Init bootState)
          scenarioA_request 9 0).2.1 = some cam
        ∧ VerifyCamPacket cam cam.length = true) :=
  ⟨(C15_translated_frames_verify scenarioA_request 9).1 _ (by decide),
   (C15_translated_frames_verify
      [0xAA, 0x0D, 0x00, 0x2A, 0x01, 1, 2, 3, 4, 5, 6, 7, 8, 9, 10, 0, 0xEB, 0xAA] 18).2.1
      [0x55, 0xAA, 0x0E, 0x02, 0x01, 0x08, 1, 2, 3, 4, 5, 6, 7, 8, 9, 10, 0x0E, 0xF0]
      (by decide),
   (C15_translated_frames_verify [0xAA, 0x05, 0x00, 0x03, 0x00, 0x00, 0x00, 0xEB, 0xAA] 9).2.2.1
      [0x55, 0xAA, 0x07, 0x02, 0x02, 0x10, 0x00, 0x00, 0x00, 0x00, 0x17, 0xF0] (by decide),
   (C15_translated_frames_verify scenarioA_request 9).2.2.2 (CommandHandler_Init bootState) 0
      (by decide)⟩

/-- C16 as stated fails: for scenario A's request the translation is Ok and
the frame written has 12 bytes, so length minus 4 is 8 (the eight bytes from
the command triplet through the checksum), but its LEN field (byte 2) is 7. -/
theorem C16_len_field_is_not_length_minus_4 :
    (CommandHandler_TranslateCtrlToCam (CommandHandler_Init bootState)
        scenarioA_request 9 0).1 = TranslationResult_t.TRANSLATION_OK
    ∧ (CommandHandler_TranslateCtrlToCam (CommandHandler_Init bootState)
        scenarioA_request 9 0).2.1
        = some [0x55, 0xAA, 0x07, 0x02, 0x01, 0x08, 0x00, 0x00, 0x00, 0x01, 0x0D, 0xF0]
    ∧ ([0x55, 0xAA, 0x07, 0x02, 0x01, 0x08, 0x00, 0x00, 0x00, 0x01, 0x0D, 0xF0] : List Nat).getD 2 0
        = 7
    ∧ ([0x55, 0xAA, 0x07, 0x02, 0x01, 0x08, 0x00, 0x00, 0x00, 0x01, 0x0D, 0xF0] : List Nat).length
        - 4 = 8 := by
  decide

/-- C16 (amended): for every control request that
`CommandHandler_TranslateCtrlToCam` translates with result Ok, the frame
written has 12 bytes and its LEN field (byte 2) is 7: the number of bytes from
the command triplet through the last payload byte, the checksum excluded, which
is the frame length minus 5. -/
theorem C16_len_field_is_length_minus_5 (st : HandlerState) (pkt : List Nat) (len tick : Nat)
    (h : (CommandHandler_TranslateCtrlToCam st pkt len tick).1
      = TranslationResult_t.TRANSLATION_OK) :
    ∃ cam, (CommandHandler_TranslateCtrlToCam st pkt len tick).2.1 = some cam
      ∧ cam.length = 12
      ∧ cam.getD 2 0 = 7
      ∧ cam.getD 2 0 = cam.length - 5
      ∧ cam.getD 2 0 = ((cam.take (cam.length - 2)).drop 3).length := by
  obtain ⟨_, _, hframe⟩ := translate_ok_inv st pkt len tick h
  exact ⟨_, hframe, by decide, by decide, by decide, by decide⟩

/-- C16 (amended) on scenario A's request. -/
theorem C16_len_field_is_length_minus_5_witness :
    ∃ cam, (CommandHandler_TranslateCtrlToCam (CommandHandler_Init bootState)
          scenarioA_request 9 0).2.1 = some cam
      ∧ cam.length = 12
      ∧ cam.getD 2 0 = 7
      ∧ cam.getD 2 0 = cam.length - 5
      ∧ cam.getD 2 0 = ((cam.take (cam.length - 2)).drop 3).length :=
  C16_len_field_is_length_minus_5 (CommandHandler_Init bootState) scenarioA_request 9 0
    (by decide)

/-- C18: for every sequence of bytes and every length within it,
`VerifyCamPacket` returns true exactly when the length is at least 6, bytes 0
and 1 are `55 AA`, byte `len - 1` is `F0` and byte `len - 2` is the XOR of the
bytes from index 2 through index `len - 3`; `CalculateCamChecksum` returns that
XOR for a length of at least 4 and 0 for a length below 4. -/
theorem C18_verifyCam_characterised (pkt : List Nat) (len : Nat)
    (hbytes : ∀ b ∈ pkt, b < 256) (hlen : len ≤ pkt.length) :
    (VerifyCamPacket pkt len = true ↔
      (6 ≤ len ∧ pkt.getD 0 0 = 0x55 ∧ pkt.getD 1 0 = 0xAA ∧ pkt.getD (len - 1) 0 = 0xF0
        ∧ pkt.getD (len - 2) 0 = xorOfBytes (bytesFromThrough pkt 2 (len - 3))))
    ∧ (4 ≤ len → CalculateCamChecksum pkt len = xorOfBytes (bytesFromThrough pkt 2 (len - 3)))
    ∧ (len < 4 → CalculateCamChecksum pkt len = 0) := by
  refine ⟨?_, ?_, ?_⟩
  · rw [verifyCam_iff]
    constructor
    · rintro ⟨h6, h0, h1, he, hc⟩
      rw [CalculateCamChecksum_eq_xorOfBytes pkt len hbytes hlen (by omega)] at hc
      exact ⟨h6, h0, h1, he, hc.symm⟩
    · rintro ⟨h6, h0, h1, he, hc⟩
      rw [CalculateCamChecksum_eq_xorOfBytes pkt len hbytes hlen (by omega)]
      exact ⟨h6, h0, h1, he, hc.symm⟩
  · intro h4
    exact CalculateCamChecksum_eq_xorOfBytes pkt len hbytes hlen h4
  · intro h4
    unfold CalculateCamChecksum
    rw [if_pos h4]

/-- C18 on the device frame `55 AA 07 02 01 08 00 00 00 01 0D F0`. -/
theorem C18_verifyCam_characterised_witness :
    (VerifyCamPacket [0x55, 0xAA, 0x07, 0x02, 0x01, 0x08, 0x00, 0x00, 0x00, 0x01, 0x0D, 0xF0] 12
        = true ↔
      (6 ≤ 12
        ∧ ([0x55, 0xAA, 0x07, 0x02, 0x01, 0x08, 0x00, 0x00, 0x00, 0x01, 0x0D, 0xF0] :
            List Nat).getD 0 0 = 0x55
        ∧ ([0x55, 0xAA, 0x07, 0x02, 0x01, 0x08, 0x00, 0x00, 0x00, 0x01, 0x0D, 0xF0] :
            List Nat).getD 1 0 = 0xAA
        ∧ ([0x55, 0xAA, 0x07, 0x02, 0x01, 0x08, 0x00, 0x00, 0x00, 0x01, 0x0D, 0xF0] :
            List Nat).getD (12 - 1) 0 = 0xF0
        ∧ ([0x55, 0xAA, 0x07, 0x02, 0x01, 0x08, 0x00, 0x00, 0x00, 0x01, 0x0D, 0xF0] :
            List Nat).getD (12 - 2) 0
          = xorOfBytes (bytesFromThrough
              [0x55, 0xAA, 0x07, 0x02, 0x01, 0x08, 0x00, 0x00, 0x00, 0x01, 0x0D, 0xF0] 2 (12 - 3))))
    ∧ CalculateCamChecksum
        [0x55, 0xAA, 0x07, 0x02, 0x01, 0x08, 0x00, 0x00, 0x00, 0x01, 0x0D, 0xF0] 12
      = xorOfBytes (bytesFromThrough
          [0x55, 0xAA, 0x07, 0x02, 0x01, 0x08, 0x00, 0x00, 0x00, 0x01, 0x0D, 0xF0] 2 (12 - 3))
    ∧ CalculateCamChecksum
        [0x55, 0xAA, 0x07, 0x02, 0x01, 0x08, 0x00, 0x00, 0x00, 0x01, 0x0D, 0xF0] 3 = 0 :=
  ⟨(C18_verifyCam_characterised
      [0x55, 0xAA, 0x07, 0x02, 0x01, 0x08, 0x00, 0x00, 0x00, 0x01, 0x0D, 0xF0] 12
      (by decide) (by decide)).1,
   (C18_verifyCam_characterised
      [0x55, 0xAA, 0x07, 0x02, 0x01, 0x08, 0x00, 0x00, 0x00, 0x01, 0x0D, 0xF0] 12
      (by decide) (by decide)).2.1 (by decide),
   (C18_verifyCam_characterised
      [0x55, 0xAA, 0x07, 0x02, 0x01, 0x08, 0x00, 0x00, 0x00, 0x01, 0x0D, 0xF0] 3
      (by decide) (by decide)).2.2 (by decide)⟩

/-- C19: a frame accepted by `VerifyCtrlPacket` is rejected by it after any one
bit of its checksum byte (index `len - 3`) has been flipped, and a frame
accepted by `VerifyCamPacket` is rejected by it after any one bit of its
checksum byte (index `len - 2`) has been flipped; the unmodified frames are the
accepted ones. -/
theorem C19_checksum_bit_flip_rejected (pkt : List Nat) (len bit : Nat)
    (hlen : len ≤ pkt.length) :
    (VerifyCtrlPacket pkt len = true →
      VerifyCtrlPacket (flipBit pkt (len - 3) bit) len = false)
    ∧ (VerifyCamPacket pkt len = true →
      VerifyCamPacket (flipBit pkt (len - 2) bit) len = false) := by
  constructor
  · intro hv
    obtain ⟨h8, _, _, _, hc⟩ := (verifyCtrl_iff pkt len).1 hv
    by_contra hne
    have ht : VerifyCtrlPacket (flipBit pkt (len - 3) bit) len = true := by simpa using hne
    obtain ⟨_, _, _, _, hc'⟩ := (verifyCtrl_iff _ len).1 ht
    rw [flipBit_getD pkt (len - 3) bit (by omega)] at hc'
    unfold flipBit at hc'
    rw [CalculateCtrlChecksum_set pkt len (len - 3) _ (le_refl _), hc] at hc'
    exact xor_two_pow_ne _ _ hc'.symm
  · intro hv
    obtain ⟨h6, _, _, _, hc⟩ := (verifyCam_iff pkt len).1 hv
    by_contra hne
    have ht : VerifyCamPacket (flipBit pkt (len - 2) bit) len = true := by simpa using hne
    obtain ⟨_, _, _, _, hc'⟩ := (verifyCam_iff _ len).1 ht
    rw [flipBit_getD pkt (len - 2) bit (by omega)] at hc'
    unfold flipBit at hc'
    rw [CalculateCamChecksum_set pkt len (len - 2) _ (le_refl _), hc] at hc'
    exact xor_two_pow_ne _ _ hc'.symm

/-- C19 on scenario A's request and on the device frame `55 AA 01 00 01 F0`,
with bit 0 of the checksum byte flipped. -/
theorem C19_checksum_bit_flip_rejected_witness :
    (VerifyCtrlPacket scenarioA_request 9 = true
      ∧ VerifyCtrlPacket (flipBit scenarioA_request (9 - 3) 0) 9 = false)
    ∧ (VerifyCamPacket ack_frame 6 = true
      ∧ VerifyCamPacket (flipBit ack_frame (6 - 2) 0) 6 = false) :=
  ⟨⟨by decide, (C19_checksum_bit_flip_rejected scenarioA_request 9 0 (by decide)).1 (by decide)⟩,
   ⟨by decide, (C19_checksum_bit_flip_rejected ack_frame 6 0 (by decide)).2 (by decide)⟩⟩

/-- C20 as stated fails: for scenario A's request `AA 05 00 16 01 00 C6 EB AA`
`CalculateCtrlChecksum` returns 0xC6, whereas the sum modulo 256 of the bytes
from index 1 through index `len - 4 = 5` is 0x1C. -/
theorem C20_checksum_includes_start_byte :
    CalculateCtrlChecksum scenarioA_request 9 = 0xC6
    ∧ sumOfBytesMod256 (bytesFromThrough scenarioA_request 1 (9 - 4)) = 0x1C := by
  decide

/-- C20 (amended): for every byte sequence and every length `len ≥ 4` within
it, `CalculateCtrlChecksum` returns the sum modulo 256 of the bytes from index
0 (START) through index `len - 4`, the byte preceding the checksum at index
`len - 3`; for `len < 4` it returns 0. -/
theorem C20_checksum_from_index_0 (pkt : List Nat) (len : Nat) (hlen : len ≤ pkt.length) :
    (4 ≤ len →
      CalculateCtrlChecksum pkt len = sumOfBytesMod256 (bytesFromThrough pkt 0 (len - 4)))
    ∧ (len < 4 → CalculateCtrlChecksum pkt len = 0) := by
  constructor
  · intro h4
    exact CalculateCtrlChecksum_eq_sum pkt len hlen h4
  · intro h4
    unfold CalculateCtrlChecksum
    rw [if_pos h4]

/-- C20 (amended) on scenario A's request, at its length 9 and at the length 3. -/
theorem C20_checksum_from_index_0_witness :
    CalculateCtrlChecksum scenarioA_request 9
        = sumOfBytesMod256 (bytesFromThrough scenarioA_request 0 (9 - 4))
    ∧ CalculateCtrlChecksum scenarioA_request 3 = 0 :=
  ⟨(C20_checksum_from_index_0 scenarioA_request 9 (by decide)).1 (by decide),
   (C20_checksum_from_index_0 scenarioA_request 3 (by decide)).2 (by decide)⟩

/-! ## Mapping table: the claims -/

set_option maxRecDepth 100000 in
/-- The direct-index table after `CommandHandler_BuildLookup`: slot 0x16 refers
to entry 0, slot 0x2D to entry 1, every other slot is empty. -/
theorem CommandHandler_BuildLookup_eq :
    CommandHandler_BuildLookup
      = ((List.replicate 256 none).set 0x16 (some 0)).set 0x2D (some 1) := by
  decide

/-- The slot of a key in the direct-index table. -/
theorem CommandHandler_BuildLookup_getD (key : Nat) :
    CommandHandler_BuildLookup.getD key none
      = if key = 0x2D then some 1 else if key = 0x16 then some 0 else none := by
  rw [CommandHandler_BuildLookup_eq]
  by_cases h1 : key = 0x2D
  · subst h1; decide
  · by_cases h2 : key = 0x16
    · subst h2; decide
    · rw [if_neg h1, if_neg h2]
      simp only [List.getD_eq_getElem?_getD, List.getElem?_set_ne (Ne.symm h1),
        List.getElem?_set_ne (Ne.symm h2), List.getElem?_replicate]
      split_ifs <;> rfl

/-- C21 (collision policy): for every key that occurs in `command_map`,
`FindMappingByCtrlKey` and the slot of the key in the table filled by
`CommandHandler_BuildLookup` refer to the same entry, which has that key and is
the first one with it (no entry of lower index has the key); for every key
below 256 that does not occur, the slot is empty and `FindMappingByCtrlKey`
returns null. -/
theorem C21_first_registered_entry_wins (key : Nat) :
    (key ∈ command_map.map (fun e => e.ctrl_key) →
      ∃ i, FindMappingByCtrlKey key = some i
        ∧ (CommandHandler_Init bootState).g_cmd_lookup_table.getD key none = some i
        ∧ (command_map.map (fun e => e.ctrl_key)).get? i = some key
        ∧ ∀ j, j < i → (command_map.map (fun e => e.ctrl_key)).get? j ≠ some key)
    ∧ (key < 256 → key ∉ command_map.map (fun e => e.ctrl_key) →
      (CommandHandler_Init bootState).g_cmd_lookup_table.getD key none = none
        ∧ FindMappingByCtrlKey key = none) := by
  have htab : (CommandHandler_Init bootState).g_cmd_lookup_table = CommandHandler_BuildLookup :=
    rfl
  rw [htab, CommandHandler_BuildLookup_getD, FindMappingByCtrlKey_eq, mem_command_map_keys,
    command_map_keys]
  constructor
  · rintro (h | h)
    · subst h
      refine ⟨0, by decide, by decide, by decide, ?_⟩
      intro j hj
      omega
    · subst h
      refine ⟨1, by decide, by decide, by decide, ?_⟩
      intro j hj
      have : j = 0 := by omega
      subst this
      decide
  · intro _ hk
    have h1 : ¬ key = 0x2D := fun h => hk (Or.inr h)
    have h2 : ¬ key = 0x16 := fun h => hk (Or.inl h)
    rw [if_neg h1, if_neg h2]
    exact ⟨rfl, rfl⟩

/-- C21 at the duplicated key 0x002D, whose first entry is entry 1, and at the
key 0x0017, which does not occur. -/
theorem C21_first_registered_entry_wins_witness :
    (∃ i, FindMappingByCtrlKey 0x2D = some i
        ∧ (CommandHandler_Init bootState).g_cmd_lookup_table.getD 0x2D none = some i
        ∧ (command_map.map (fun e => e.ctrl_key)).get? i = some 0x2D
        ∧ ∀ j, j < i → (command_map.map (fun e => e.ctrl_key)).get? j ≠ some 0x2D)
    ∧ ((CommandHandler_Init bootState).g_cmd_lookup_table.getD 0x17 none = none
        ∧ FindMappingByCtrlKey 0x17 = none) :=
  ⟨(C21_first_registered_entry_wins 0x2D).1 (by decide),
   (C21_first_registered_entry_wins 0x17).2 (by decide) (by decide)⟩

/-! ## Packet builders: basic facts -/

/-- Writing the byte at index `n` and taking `n + 1` bytes. -/
theorem take_set_succ (l : List Nat) (n b : Nat) (h : n < l.length) :
    (l.set n b).take (n + 1) = l.take n ++ [b] := by
  rw [List.set_eq_take_append_cons_drop, if_pos h]
  have e : l.take n ++ b :: l.drop (n + 1) = (l.take n ++ [b]) ++ l.drop (n + 1) := by simp
  rw [e]
  apply List.take_left'
  simp
  omega

/-- A byte read below the length `k` can be read in the first `k` bytes. -/
theorem getD_take (l : List Nat) (j k : Nat) (h : j < k) :
    l.getD j 0 = (l.take k).getD j 0 := by
  simp only [List.getD_eq_getElem?_getD, List.getElem?_take_of_lt h]

/-- The header `OldPacket_Init` writes. -/
theorem OldPacket_Init_buffer (p : OldPacket_t) (t : OldPacketType_t) (c : Nat) :
    (OldPacket_Init p t c).buffer = t.toByte :: 0 :: 0 :: c :: List.replicate 28 0 := rfl

/-- The header `NewPacket_Init` writes. -/
theorem NewPacket_Init_buffer (p : NewPacket_t) (t : Nat) :
    (NewPacket_Init p t).buffer = 0x55 :: 0xAA :: 0 :: t :: List.replicate 28 0 := rfl

/-- `OldPacket_AddByte` below the payload capacity. -/
theorem OldPacket_AddByte_ok (p : OldPacket_t) (b : Nat) (h : p.length < 29) :
    OldPacket_AddByte p b
      = (true, { buffer := p.buffer.set p.length b, length := p.length + 1,
                 data_length := (p.data_length + 1) % 256 }) := by
  unfold OldPacket_AddByte
  have e : (p.length + 1) % 256 = p.length + 1 := Nat.mod_eq_of_lt (by omega)
  simp only [PACKET_BUILDER_MAX_SIZE]
  rw [if_pos (by omega), e]

/-- `OldPacket_AddByte` at the payload capacity. -/
theorem OldPacket_AddByte_full (p : OldPacket_t) (b : Nat) (h : 29 ≤ p.length) :
    OldPacket_AddByte p b = (false, p) := by
  unfold OldPacket_AddByte
  simp only [PACKET_BUILDER_MAX_SIZE]
  rw [if_neg (by omega)]

/-- `NewPacket_AddByte` below the payload capacity. -/
theorem NewPacket_AddByte_ok (p : NewPacket_t) (b : Nat) (h : p.length < 31) :
    NewPacket_AddByte p b
      = (true, { buffer := p.buffer.set p.length b, length := p.length + 1 }) := by
  unfold NewPacket_AddByte
  have e : (p.length + 1) % 256 = p.length + 1 := Nat.mod_eq_of_lt (by omega)
  simp only [PACKET_BUILDER_MAX_SIZE]
  rw [if_pos (by omega), e]

/-- When the bytes fit, the loop of `OldPacket_AddBytes` appends all of them. -/
theorem OldPacket_AddBytesFrom_ok (data : List Nat) :
    ∀ (n i : Nat) (p : OldPacket_t),
      p.length + n ≤ 29 → p.buffer.length = 32 → i + n ≤ data.length →
      p.data_length ≤ p.length →
      (OldPacket_AddBytesFrom data i n p).1 = true
      ∧ (OldPacket_AddBytesFrom data i n p).2.length = p.length + n
      ∧ (OldPacket_AddBytesFrom data i n p).2.data_length = p.data_length + n
      ∧ (OldPacket_AddBytesFrom data i n p).2.buffer.length = 32
      ∧ (OldPacket_AddBytesFrom data i n p).2.buffer.take (p.length + n)
          = p.buffer.take p.length ++ (data.drop i).take n := by
  intro n
  induction n with
  | zero =>
    intro i p _ hb _ _
    simp [OldPacket_AddBytesFrom, hb]
  | succ n ih =>
    intro i p hcap hb hdata hdl
    have hlt : p.length < 29 := by omega
    have hi : i < data.length := by omega
    simp only [OldPacket_AddBytesFrom, OldPacket_AddByte_ok p _ hlt, if_true]
    have hdl' : (p.data_length + 1) % 256 = p.data_length + 1 := Nat.mod_eq_of_lt (by omega)
    rw [hdl']
    obtain ⟨h1, h2, h3, h4, h5⟩ := ih (i + 1)
      { buffer := p.buffer.set p.length (data.getD i 0), length := p.length + 1,
        data_length := p.data_length + 1 }
      (by simp only []; omega) (by simp [hb]) (by omega) (by simp only []; omega)
    simp only [] at h2 h3 h5
    refine ⟨h1, by rw [h2]; omega, by rw [h3]; omega, h4, ?_⟩
    have e : p.length + (n + 1) = p.length + 1 + n := by omega
    rw [e, h5, take_set_succ _ _ _ (by omega), List.drop_eq_getElem_cons hi,
      List.take_succ_cons, List.getD_eq_getElem _ _ hi]
    simp

/-- When the bytes fit, the loop of `NewPacket_AddBytes` appends all of them. -/
theorem NewPacket_AddBytesFrom_ok (data : List Nat) :
    ∀ (n i : Nat) (p : NewPacket_t),
      p.length + n ≤ 31 → p.buffer.length = 32 → i + n ≤ data.length →
      (NewPacket_AddBytesFrom data i n p).1 = true
      ∧ (NewPacket_AddBytesFrom data i n p).2.length = p.length + n
      ∧ (NewPacket_AddBytesFrom data i n p).2.buffer.length = 32
      ∧ (NewPacket_AddBytesFrom data i n p).2.buffer.take (p.length + n)
          = p.buffer.take p.length ++ (data.drop i).take n := by
  intro n
  induction n with
  | zero =>
    intro i p _ hb _
    simp [NewPacket_AddBytesFrom, hb]
  | succ n ih =>
    intro i p hcap hb hdata
    have hlt : p.length < 31 := by omega
    have hi : i < data.length := by omega
    simp only [NewPacket_AddBytesFrom, NewPacket_AddByte_ok p _ hlt, if_true]
    obtain ⟨h1, h2, h4, h5⟩ := ih (i + 1)
      { buffer := p.buffer.set p.length (data.getD i 0), length := p.length + 1 }
      (by simp only []; omega) (by simp [hb]) (by omega)
    simp only [] at h2 h5
    refine ⟨h1, by rw [h2]; omega, h4, ?_⟩
    have e : p.length + (n + 1) = p.length + 1 + n := by omega
    rw [e, h5, take_set_succ _ _ _ (by omega), List.drop_eq_getElem_cons hi,
      List.take_succ_cons, List.getD_eq_getElem _ _ hi]
    simp

/-- The mask `& 0xFF` is the remainder modulo 256. -/
theorem and_0xFF (x : Nat) : x &&& 0xFF = x % 256 := by
  have h := Nat.and_pow_two_sub_one_eq_mod x 8
  norm_num at h
  exact h

/-- The shift `>> 8` is the division by 256. -/
theorem shiftRight_8 (x : Nat) : x >>> 8 = x / 256 := by
  rw [Nat.shiftRight_eq_div_pow]

/-- `CalculateOldChecksum` is the sum of the first `n` bytes modulo 65536. -/
theorem CalculateOldChecksum_eq (l : List Nat) (n : Nat) (h : n ≤ l.length) :
    CalculateOldChecksum l n = (l.take n).sum % 65536 := by
  unfold CalculateOldChecksum
  have hmap := map_range_getD l 0 n (by omega)
  simp only [Nat.zero_add, List.drop_zero] at hmap
  rw [hmap]

/-- `OldPacket_Finalize` on a builder holding between 4 and 29 bytes: it
succeeds and appends the two checksum bytes, high byte first, and 0xAA, after
writing `data_length` into byte 1. -/
theorem OldPacket_Finalize_ok (p : OldPacket_t) (h4 : 4 ≤ p.length) (h29 : p.length ≤ 29)
    (hb : p.buffer.length = 32) :
    (OldPacket_Finalize p).1 = true
    ∧ (OldPacket_Finalize p).2.length = p.length + 3
    ∧ (OldPacket_Finalize p).2.data_length = p.data_length
    ∧ (OldPacket_Finalize p).2.buffer.length = 32
    ∧ (OldPacket_Finalize p).2.buffer.take (p.length + 3)
        = (p.buffer.take p.length).set 1 p.data_length
          ++ [(((p.buffer.take p.length).set 1 p.data_length).sum % 65536) / 256 % 256,
              (((p.buffer.take p.length).set 1 p.data_length).sum % 65536) % 256, 0xAA] := by
  have e1 : (p.length + 1) % 256 = p.length + 1 := Nat.mod_eq_of_lt (by omega)
  have e2 : (p.length + 1 + 1) % 256 = p.length + 2 := Nat.mod_eq_of_lt (by omega)
  have e3 : (p.length + 2 + 1) % 256 = p.length + 3 := Nat.mod_eq_of_lt (by omega)
  have hcs : CalculateOldChecksum (p.buffer.set 1 p.data_length) p.length
      = ((p.buffer.take p.length).set 1 p.data_length).sum % 65536 := by
    rw [CalculateOldChecksum_eq _ _ (by simp [hb]; omega), List.set_take]
  unfold OldPacket_Finalize
  simp only [PACKET_BUILDER_MAX_SIZE, ge_iff_le, h4, if_true, e1, e2, e3, hcs, and_0xFF,
    shiftRight_8, Nat.mod_mod]
  rw [if_pos (by omega), if_pos (by omega)]
  refine ⟨rfl, rfl, rfl, by simp [hb], ?_⟩
  simp only []
  have e : p.length + 3 = p.length + 2 + 1 := by omega
  rw [e, take_set_succ _ _ _ (by simp [hb]; omega)]
  have e' : p.length + 2 = p.length + 1 + 1 := by omega
  rw [e', take_set_succ _ _ _ (by simp [hb]; omega),
    take_set_succ _ _ _ (by simp [hb]; omega), List.set_take]
  simp

/-- `NewPacket_Finalize` on a builder holding between 4 and 31 bytes: it
succeeds, appends 0xF0 and writes the new length into byte 2. -/
theorem NewPacket_Finalize_ok (p : NewPacket_t) (h4 : 4 ≤ p.length) (h31 : p.length ≤ 31)
    (hb : p.buffer.length = 32) :
    (NewPacket_Finalize p).1 = true
    ∧ (NewPacket_Finalize p).2.length = p.length + 1
    ∧ (NewPacket_Finalize p).2.buffer.length = 32
    ∧ (NewPacket_Finalize p).2.buffer.take (p.length + 1)
        = (p.buffer.take p.length).set 2 (p.length + 1) ++ [0xF0] := by
  have e1 : (p.length + 1) % 256 = p.length + 1 := Nat.mod_eq_of_lt (by omega)
  unfold NewPacket_Finalize
  simp only [PACKET_BUILDER_MAX_SIZE, ge_iff_le, h4, if_true, e1]
  rw [if_pos (by omega)]
  refine ⟨rfl, rfl, by simp [hb], ?_⟩
  simp only []
  rw [List.set_take, take_set_succ _ _ _ (by omega), List.set_append_left _ _ (by simp [hb]; omega)]

/-- The builder after `OldPacket_Init` and `OldPacket_AddBytes` with a payload
of at most 25 bytes. -/
theorem OldPacket_built (p0 : OldPacket_t) (t : OldPacketType_t) (c : Nat) (payload : List Nat)
    (h : payload.length ≤ 25) :
    (OldPacket_AddBytes (OldPacket_Init p0 t c) payload payload.length).1 = true
    ∧ (OldPacket_AddBytes (OldPacket_Init p0 t c) payload payload.length).2.length
        = 4 + payload.length
    ∧ (OldPacket_AddBytes (OldPacket_Init p0 t c) payload payload.length).2.data_length
        = payload.length
    ∧ (OldPacket_AddBytes (OldPacket_Init p0 t c) payload payload.length).2.buffer.length = 32
    ∧ (OldPacket_AddBytes (OldPacket_Init p0 t c) payload payload.length).2.buffer.take
          (4 + payload.length)
        = t.toByte :: 0 :: 0 :: c :: payload := by
  have hinit : (OldPacket_Init p0 t c).length = 4 := rfl
  have hdl : (OldPacket_Init p0 t c).data_length = 0 := rfl
  obtain ⟨h1, h2, h3, h4, h5⟩ := OldPacket_AddBytesFrom_ok payload payload.length 0
    (OldPacket_Init p0 t c) (by rw [hinit]; omega) (by rw [OldPacket_Init_buffer]; simp)
    (by omega) (by rw [hinit, hdl]; omega)
  unfold OldPacket_AddBytes
  rw [hinit] at h2 h5
  rw [hdl] at h3
  refine ⟨h1, h2, by rw [h3]; omega, h4, ?_⟩
  rw [h5, OldPacket_Init_buffer]
  simp

/-- The builder after `NewPacket_Init` and `NewPacket_AddBytes` with a payload
of at most 27 bytes. -/
theorem NewPacket_built (p0 : NewPacket_t) (t : Nat) (payload : List Nat)
    (h : payload.length ≤ 27) :
    (NewPacket_AddBytes (NewPacket_Init p0 t) payload payload.length).1 = true
    ∧ (NewPacket_AddBytes (NewPacket_Init p0 t) payload payload.length).2.length
        = 4 + payload.length
    ∧ (NewPacket_AddBytes (NewPacket_Init p0 t) payload payload.length).2.buffer.length = 32
    ∧ (NewPacket_AddBytes (NewPacket_Init p0 t) payload payload.length).2.buffer.take
          (4 + payload.length)
        = 0x55 :: 0xAA :: 0 :: t :: payload := by
  have hinit : (NewPacket_Init p0 t).length = 4 := rfl
  obtain ⟨h1, h2, h4, h5⟩ := NewPacket_AddBytesFrom_ok payload payload.length 0
    (NewPacket_Init p0 t) (by rw [hinit]; omega) (by rw [NewPacket_Init_buffer]; simp)
    (by omega)
  unfold NewPacket_AddBytes
  rw [hinit] at h2 h5
  refine ⟨h1, h2, h4, ?_⟩
  rw [h5, NewPacket_Init_buffer]
  simp

/-- The frame the old format builder produces from a payload of at most 25
bytes: start byte, payload length, 0, command id, payload, the 16-bit sum of
these bytes high byte first, 0xAA. -/
theorem OldPacket_frame (p0 : OldPacket_t) (t : OldPacketType_t) (c : Nat) (payload : List Nat)
    (h : payload.length ≤ 25) :
    (OldPacket_Finalize
        (OldPacket_AddBytes (OldPacket_Init p0 t c) payload payload.length).2).1 = true
    ∧ (OldPacket_Finalize
        (OldPacket_AddBytes (OldPacket_Init p0 t c) payload payload.length).2).2.length
        = payload.length + 7
    ∧ (OldPacket_Finalize
        (OldPacket_AddBytes (OldPacket_Init p0 t c) payload payload.length).2).2.buffer.take
          (payload.length + 7)
        = t.toByte :: payload.length :: 0 :: c :: payload
          ++ [((t.toByte + payload.length + 0 + c + payload.sum) % 65536) / 256 % 256,
              ((t.toByte + payload.length + 0 + c + payload.sum) % 65536) % 256, 0xAA] := by
  obtain ⟨_, h2, h3, h4, h5⟩ := OldPacket_built p0 t c payload h
  obtain ⟨f1, f2, _, _, f5⟩ := OldPacket_Finalize_ok
    (OldPacket_AddBytes (OldPacket_Init p0 t c) payload payload.length).2
    (by rw [h2]; omega) (by rw [h2]; omega) h4
  rw [h2] at f2 f5
  rw [h5, h3] at f5
  have e : 4 + payload.length + 3 = payload.length + 7 := by omega
  rw [e] at f2 f5
  refine ⟨f1, f2, ?_⟩
  rw [f5]
  simp only [List.set_cons_succ, List.set_cons_zero, List.sum_cons]
  have es : t.toByte + (payload.length + (0 + (c + payload.sum)))
      = t.toByte + payload.length + 0 + c + payload.sum := by omega
  rw [es]

/-- The frame the new format builder produces from a payload of at most 27
bytes: `55 AA`, the total length, the type, the payload, `F0`. -/
theorem NewPacket_frame (p0 : NewPacket_t) (t : Nat) (payload : List Nat)
    (h : payload.length ≤ 27) :
    (NewPacket_Finalize
        (NewPacket_AddBytes (NewPacket_Init p0 t) payload payload.length).2).1 = true
    ∧ (NewPacket_Finalize
        (NewPacket_AddBytes (NewPacket_Init p0 t) payload payload.length).2).2.length
        = payload.length + 5
    ∧ (NewPacket_Finalize
        (NewPacket_AddBytes (NewPacket_Init p0 t) payload payload.length).2).2.buffer.take
          (payload.length + 5)
        = 0x55 :: 0xAA :: (payload.length + 5) :: t :: payload ++ [0xF0] := by
  obtain ⟨_, h2, h4, h5⟩ := NewPacket_built p0 t payload h
  obtain ⟨f1, f2, _, f5⟩ := NewPacket_Finalize_ok
    (NewPacket_AddBytes (NewPacket_Init p0 t) payload payload.length).2
    (by rw [h2]; omega) (by rw [h2]; omega) h4
  rw [h2] at f2 f5
  rw [h5] at f5
  have e : 4 + payload.length + 1 = payload.length + 5 := by omega
  rw [e] at f2 f5
  refine ⟨f1, f2, ?_⟩
  rw [f5]
  simp only [List.set_cons_succ, List.set_cons_zero]

/-- Reading a payload byte of a frame `h0 h1 h2 h3 payload ...`. -/
theorem getD_payload (h0 h1 h2 h3 : Nat) (payload tail : List Nat) (i : Nat)
    (hi : i < payload.length) :
    (h0 :: h1 :: h2 :: h3 :: payload ++ tail).getD (4 + i) 0 = payload.getD i 0 := by
  have e : (h0 :: h1 :: h2 :: h3 :: payload ++ tail) = [h0, h1, h2, h3] ++ (payload ++ tail) := by
    simp
  rw [e, List.getD_eq_getElem?_getD, List.getElem?_append_right (by simp)]
  simp only [List.length_cons, List.length_nil]
  have e2 : 4 + i - (0 + 1 + 1 + 1 + 1) = i := by omega
  rw [e2, List.getElem?_append_left hi, List.getD_eq_getElem?_getD]

/-- The byte written by `set` is the byte read back. -/
theorem getD_set_self (l : List Nat) (n b : Nat) (h : n < l.length) :
    (l.set n b).getD n 0 = b := by
  simp only [List.getD_eq_getElem?_getD, List.getElem?_set_self h, Option.getD_some]

/-- Writing one index does not change what is read at another. -/
theorem getD_set_ne (l : List Nat) (n m b : Nat) (h : n ≠ m) :
    (l.set n b).getD m 0 = l.getD m 0 := by
  simp only [List.getD_eq_getElem?_getD, List.getElem?_set_ne h]

/-- A low byte OR-ed with a high byte shifted by 8. -/
theorem or_shift8 (lo hi : Nat) (hlo : lo < 256) : lo ||| (hi <<< 8) = lo + hi * 256 := by
  have h := Nat.mul_add_lt_is_or (show lo < 2 ^ 8 by norm_num; exact hlo) hi
  rw [Nat.shiftLeft_eq, Nat.lor_comm, Nat.mul_comm hi (2 ^ 8), ← h]
  norm_num
  omega

/-- Reading a byte after the payload of a frame `h0 h1 h2 h3 payload tail`. -/
theorem getD_after_payload (h0 h1 h2 h3 : Nat) (payload tail : List Nat) (j : Nat) :
    (h0 :: h1 :: h2 :: h3 :: payload ++ tail).getD (payload.length + 4 + j) 0 = tail.getD j 0 := by
  have e : (h0 :: h1 :: h2 :: h3 :: payload ++ tail) = ([h0, h1, h2, h3] ++ payload) ++ tail := by
    simp
  rw [e, List.getD_eq_getElem?_getD, List.getElem?_append_right (by simp)]
  have e2 : payload.length + 4 + j - ([h0, h1, h2, h3] ++ payload).length = j := by
    simp
  rw [e2, List.getD_eq_getElem?_getD]

/-- A list of bytes sums to at most 255 times its length. -/
theorem sum_bytes_le (l : List Nat) (h : ∀ b ∈ l, b < 256) : l.sum ≤ 255 * l.length := by
  induction l with
  | nil => simp
  | cons b l ih =>
    have hb : b < 256 := h b (List.mem_cons_self _ _)
    have := ih (fun c hc => h c (List.mem_cons_of_mem _ hc))
    simp only [List.sum_cons, List.length_cons]
    omega

/-- A failing loop of `OldPacket_AddBytes` has filled the builder up to its
payload capacity, or found it full and left it unchanged. -/
theorem OldPacket_AddBytesFrom_fail (data : List Nat) :
    ∀ (n i : Nat) (p : OldPacket_t),
      p.data_length + 4 = p.length →
      (OldPacket_AddBytesFrom data i n p).1 = false →
      (29 ≤ p.length → (OldPacket_AddBytesFrom data i n p).2 = p)
      ∧ (p.length < 29 →
          (OldPacket_AddBytesFrom data i n p).2.length = 29
          ∧ (OldPacket_AddBytesFrom data i n p).2.data_length = 25) := by
  intro n
  induction n with
  | zero =>
    intro i p _ hf
    simp [OldPacket_AddBytesFrom] at hf
  | succ n ih =>
    intro i p hinv hf
    by_cases hlt : p.length < 29
    · have hdl : (p.data_length + 1) % 256 = p.data_length + 1 := Nat.mod_eq_of_lt (by omega)
      simp only [OldPacket_AddBytesFrom, OldPacket_AddByte_ok p _ hlt, if_true, hdl] at hf ⊢
      obtain ⟨ihfull, ihfree⟩ := ih (i + 1)
        { buffer := p.buffer.set p.length (data.getD i 0), length := p.length + 1,
          data_length := p.data_length + 1 } (by simp only []; omega) hf
      refine ⟨fun h => absurd h (by omega), fun _ => ?_⟩
      by_cases h28 : p.length + 1 < 29
      · exact ihfree h28
      · rw [ihfull (by simp only []; omega)]
        simp only []
        omega
    · simp only [OldPacket_AddBytesFrom, OldPacket_AddByte_full p _ (by omega)]
      exact ⟨fun _ => rfl, fun h => absurd h hlt⟩

/-! ## Packet builders: the claims -/

/-- C22 (round trip): for every direction, command id and payload of at most 25
bytes, `OldPacket_Init`, `OldPacket_AddBytes` and `OldPacket_Finalize` all
succeed, `OldPacket_GetCommandId` on the buffer returns the command id and
`OldPacket_GetByte` at each offset `i` below the payload length returns byte
`i` of the payload; for every type and payload of at most 27 bytes the same
holds for `NewPacket_Init`, `NewPacket_AddBytes`, `NewPacket_Finalize`, byte 3
of the buffer (the type) and `NewPacket_GetByte`. -/
theorem C22_builder_parser_round_trip (p0 : OldPacket_t) (q0 : NewPacket_t)
    (dir : OldPacketType_t) (cmd ty : Nat) (payload : List Nat) :
    (payload.length ≤ 25 →
      (OldPacket_AddBytes (OldPacket_Init p0 dir cmd) payload payload.length).1 = true
      ∧ (OldPacket_Finalize
          (OldPacket_AddBytes (OldPacket_Init p0 dir cmd) payload payload.length).2).1 = true
      ∧ OldPacket_GetCommandId (OldPacket_GetBuffer (OldPacket_Finalize
          (OldPacket_AddBytes (OldPacket_Init p0 dir cmd) payload payload.length).2).2) = cmd
      ∧ ∀ i, i < payload.length →
          OldPacket_GetByte (OldPacket_GetBuffer (OldPacket_Finalize
            (OldPacket_AddBytes (OldPacket_Init p0 dir cmd) payload payload.length).2).2) i
            = (true, payload.getD i 0))
    ∧ (payload.length ≤ 27 →
      (NewPacket_AddBytes (NewPacket_Init q0 ty) payload payload.length).1 = true
      ∧ (NewPacket_Finalize
          (NewPacket_AddBytes (NewPacket_Init q0 ty) payload payload.length).2).1 = true
      ∧ (NewPacket_GetBuffer (NewPacket_Finalize
          (NewPacket_AddBytes (NewPacket_Init q0 ty) payload payload.length).2).2).getD 3 0 = ty
      ∧ ∀ i, i < payload.length →
          NewPacket_GetByte (NewPacket_GetBuffer (NewPacket_Finalize
            (NewPacket_AddBytes (NewPacket_Init q0 ty) payload payload.length).2).2) i
            = (true, payload.getD i 0)) := by
  constructor
  · intro h
    obtain ⟨hadd, _⟩ := OldPacket_built p0 dir cmd payload h
    obtain ⟨hfin, _, hframe⟩ := OldPacket_frame p0 dir cmd payload h
    refine ⟨hadd, hfin, ?_, ?_⟩
    · unfold OldPacket_GetCommandId OldPacket_GetBuffer
      rw [getD_take _ 3 (payload.length + 7) (by omega), hframe]
      rfl
    · intro i hi
      unfold OldPacket_GetByte OldPacket_GetBuffer
      rw [getD_take _ (4 + i) (payload.length + 7) (by omega), hframe, getD_payload _ _ _ _ _ _ _ hi]
  · intro h
    obtain ⟨hadd, _⟩ := NewPacket_built q0 ty payload h
    obtain ⟨hfin, _, hframe⟩ := NewPacket_frame q0 ty payload h
    refine ⟨hadd, hfin, ?_, ?_⟩
    · unfold NewPacket_GetBuffer
      rw [getD_take _ 3 (payload.length + 5) (by omega), hframe]
      rfl
    · intro i hi
      unfold NewPacket_GetByte NewPacket_GetBuffer
      rw [getD_take _ (4 + i) (payload.length + 5) (by omega), hframe, getD_payload _ _ _ _ _ _ _ hi]

/-- C22 with the payload `01 02 03`, command id 0x10 and type 0x02. -/
theorem C22_builder_parser_round_trip_witness :
    ((OldPacket_AddBytes (OldPacket_Init ⟨[], 0, 0⟩ OldPacketType_t.OLD_PACKET_TX 0x10)
          [1, 2, 3] 3).1 = true
      ∧ (OldPacket_Finalize (OldPacket_AddBytes
          (OldPacket_Init ⟨[], 0, 0⟩ OldPacketType_t.OLD_PACKET_TX 0x10) [1, 2, 3] 3).2).1 = true
      ∧ OldPacket_GetCommandId (OldPacket_GetBuffer (OldPacket_Finalize (OldPacket_AddBytes
          (OldPacket_Init ⟨[], 0, 0⟩ OldPacketType_t.OLD_PACKET_TX 0x10) [1, 2, 3] 3).2).2) = 0x10
      ∧ ∀ i, i < 3 →
          OldPacket_GetByte (OldPacket_GetBuffer (OldPacket_Finalize (OldPacket_AddBytes
            (OldPacket_Init ⟨[], 0, 0⟩ OldPacketType_t.OLD_PACKET_TX 0x10) [1, 2, 3] 3).2).2) i
            = (true, [1, 2, 3].getD i 0))
    ∧ ((NewPacket_AddBytes (NewPacket_Init ⟨[], 0⟩ 0x02) [1, 2, 3] 3).1 = true
      ∧ (NewPacket_Finalize (NewPacket_AddBytes (NewPacket_Init ⟨[], 0⟩ 0x02) [1, 2, 3] 3).2).1
          = true
      ∧ (NewPacket_GetBuffer (NewPacket_Finalize
          (NewPacket_AddBytes (NewPacket_Init ⟨[], 0⟩ 0x02) [1, 2, 3] 3).2).2).getD 3 0 = 0x02
      ∧ ∀ i, i < 3 →
          NewPacket_GetByte (NewPacket_GetBuffer (NewPacket_Finalize
            (NewPacket_AddBytes (NewPacket_Init ⟨[], 0⟩ 0x02) [1, 2, 3] 3).2).2) i
            = (true, [1, 2, 3].getD i 0)) :=
  ⟨(C22_builder_parser_round_trip ⟨[], 0, 0⟩ ⟨[], 0⟩ OldPacketType_t.OLD_PACKET_TX 0x10 0x02
      [1, 2, 3]).1 (by decide),
   (C22_builder_parser_round_trip ⟨[], 0, 0⟩ ⟨[], 0⟩ OldPacketType_t.OLD_PACKET_TX 0x10 0x02
      [1, 2, 3]).2 (by decide)⟩

/-- C23: a 16-bit value `v` appended by `OldPacket_AddUint16` at the payload
offset `k` (the builder holds `4 + k` bytes) when two payload bytes are free is
stored low byte at offset `k`, high byte at offset `k + 1`; the call succeeds
and `OldPacket_GetUint16` at offset `k` on the buffer returns `v`. The same
holds for `NewPacket_AddUint16` and `NewPacket_GetUint16`. `OldPacket_AddUint32`
stores the four bytes of a 32-bit value least significant first. -/
theorem C23_little_endian_round_trip (p : OldPacket_t) (q : NewPacket_t) (k v : Nat) :
    (v < 65536 → p.length = 4 + k → p.length + 2 ≤ 29 → p.buffer.length = 32 →
      (OldPacket_AddUint16 p v).1 = true
      ∧ (OldPacket_AddUint16 p v).2.buffer.getD (4 + k) 0 = v % 256
      ∧ (OldPacket_AddUint16 p v).2.buffer.getD (4 + k + 1) 0 = v / 256
      ∧ OldPacket_GetUint16 (OldPacket_AddUint16 p v).2.buffer k = (true, v))
    ∧ (v < 65536 → q.length = 4 + k → q.length + 2 ≤ 31 → q.buffer.length = 32 →
      (NewPacket_AddUint16 q v).1 = true
      ∧ (NewPacket_AddUint16 q v).2.buffer.getD (4 + k) 0 = v % 256
      ∧ (NewPacket_AddUint16 q v).2.buffer.getD (4 + k + 1) 0 = v / 256
      ∧ NewPacket_GetUint16 (NewPacket_AddUint16 q v).2.buffer k = (true, v))
    ∧ (v < 4294967296 → p.length = 4 + k → p.length + 4 ≤ 29 → p.buffer.length = 32 →
      (OldPacket_AddUint32 p v).1 = true
      ∧ (OldPacket_AddUint32 p v).2.buffer.getD (4 + k) 0 = v % 256
      ∧ (OldPacket_AddUint32 p v).2.buffer.getD (4 + k + 1) 0 = v / 256 % 256
      ∧ (OldPacket_AddUint32 p v).2.buffer.getD (4 + k + 2) 0 = v / 65536 % 256
      ∧ (OldPacket_AddUint32 p v).2.buffer.getD (4 + k + 3) 0 = v / 16777216) := by
  refine ⟨?_, ?_, ?_⟩
  · intro hv hk hfree hb
    have hres : OldPacket_AddUint16 p v
        = (true, { buffer := (p.buffer.set p.length (v % 256)).set (p.length + 1) (v / 256)
                   length := p.length + 1 + 1
                   data_length := ((p.data_length + 1) % 256 + 1) % 256 }) := by
      unfold OldPacket_AddUint16
      have hhi : v / 256 % 256 = v / 256 := Nat.mod_eq_of_lt (by omega)
      simp only [OldPacket_AddByte_ok p _ (show p.length < 29 by omega), if_true, and_0xFF,
        shiftRight_8, Nat.mod_mod, hhi]
      rw [OldPacket_AddByte_ok _ _ (show p.length + 1 < 29 by omega)]
      rfl
    rw [hres]
    have g0 : ((p.buffer.set p.length (v % 256)).set (p.length + 1) (v / 256)).getD (4 + k) 0
        = v % 256 := by
      rw [← hk, getD_set_ne _ _ _ _ (by omega), getD_set_self _ _ _ (by omega)]
    have g1 : ((p.buffer.set p.length (v % 256)).set (p.length + 1) (v / 256)).getD (4 + k + 1) 0
        = v / 256 := by
      rw [← hk, getD_set_self _ _ _ (by simp [hb]; omega)]
    refine ⟨rfl, g0, g1, ?_⟩
    unfold OldPacket_GetUint16
    simp only [g0, g1]
    rw [or_shift8 _ _ (Nat.mod_lt _ (by norm_num))]
    have : (v % 256 + v / 256 * 256) % 65536 = v := by omega
    rw [this]
  · intro hv hk hfree hb
    have hres : NewPacket_AddUint16 q v
        = (true, { buffer := (q.buffer.set q.length (v % 256)).set (q.length + 1) (v / 256)
                   length := q.length + 1 + 1 }) := by
      unfold NewPacket_AddUint16
      have hhi : v / 256 % 256 = v / 256 := Nat.mod_eq_of_lt (by omega)
      simp only [NewPacket_AddByte_ok q _ (show q.length < 31 by omega), if_true, and_0xFF,
        shiftRight_8, Nat.mod_mod, hhi]
      rw [NewPacket_AddByte_ok _ _ (show q.length + 1 < 31 by omega)]
      rfl
    rw [hres]
    have g0 : ((q.buffer.set q.length (v % 256)).set (q.length + 1) (v / 256)).getD (4 + k) 0
        = v % 256 := by
      rw [← hk, getD_set_ne _ _ _ _ (by omega), getD_set_self _ _ _ (by omega)]
    have g1 : ((q.buffer.set q.length (v % 256)).set (q.length + 1) (v / 256)).getD (4 + k + 1) 0
        = v / 256 := by
      rw [← hk, getD_set_self _ _ _ (by simp [hb]; omega)]
    refine ⟨rfl, g0, g1, ?_⟩
    unfold NewPacket_GetUint16
    simp only [g0, g1]
    rw [or_shift8 _ _ (Nat.mod_lt _ (by norm_num))]
    have : (v % 256 + v / 256 * 256) % 65536 = v := by omega
    rw [this]
  · intro hv hk hfree hb
    have s16 : v >>> 16 = v / 65536 := by rw [Nat.shiftRight_eq_div_pow]
    have s24 : v >>> 24 = v / 16777216 := by rw [Nat.shiftRight_eq_div_pow]
    have hres : OldPacket_AddUint32 p v
        = (true, { buffer := (((p.buffer.set p.length (v % 256)).set (p.length + 1)
                      (v / 256 % 256)).set (p.length + 1 + 1) (v / 65536 % 256)).set
                      (p.length + 1 + 1 + 1) (v / 16777216)
                   length := p.length + 1 + 1 + 1 + 1
                   data_length := ((((p.data_length + 1) % 256 + 1) % 256 + 1) % 256 + 1) % 256 }) := by
      unfold OldPacket_AddUint32
      have hhi : v / 16777216 % 256 = v / 16777216 := Nat.mod_eq_of_lt (by omega)
      simp only [OldPacket_AddByte_ok p _ (show p.length < 29 by omega), if_true, and_0xFF,
        shiftRight_8, s16, s24, Nat.mod_mod, hhi]
      rw [OldPacket_AddByte_ok _ _ (show p.length + 1 < 29 by omega)]
      simp only [if_true]
      rw [OldPacket_AddByte_ok _ _ (show p.length + 1 + 1 < 29 by omega)]
      simp only [if_true]
      rw [OldPacket_AddByte_ok _ _ (show p.length + 1 + 1 + 1 < 29 by omega)]
      rfl
    rw [hres]
    refine ⟨rfl, ?_, ?_, ?_, ?_⟩
    · rw [← hk, getD_set_ne _ _ _ _ (by omega), getD_set_ne _ _ _ _ (by omega),
        getD_set_ne _ _ _ _ (by omega), getD_set_self _ _ _ (by omega)]
    · rw [← hk, getD_set_ne _ _ _ _ (by omega), getD_set_ne _ _ _ _ (by omega),
        getD_set_self _ _ _ (by simp [hb]; omega)]
    · rw [← hk, getD_set_ne _ _ _ _ (by omega), getD_set_self _ _ _ (by simp [hb]; omega)]
    · rw [← hk, getD_set_self _ _ _ (by simp [hb]; omega)]

/-- C23 with the value 0x1234 appended to a freshly initialised builder (stored
as `34 12` at the payload offsets 0 and 1) and the value 0x12345678. -/
theorem C23_little_endian_round_trip_witness :
    ((OldPacket_AddUint16 (OldPacket_Init ⟨[], 0, 0⟩ OldPacketType_t.OLD_PACKET_TX 0x10)
          0x1234).1 = true
      ∧ (OldPacket_AddUint16 (OldPacket_Init ⟨[], 0, 0⟩ OldPacketType_t.OLD_PACKET_TX 0x10)
          0x1234).2.buffer.getD (4 + 0) 0 = 0x1234 % 256
      ∧ (OldPacket_AddUint16 (OldPacket_Init ⟨[], 0, 0⟩ OldPacketType_t.OLD_PACKET_TX 0x10)
          0x1234).2.buffer.getD (4 + 0 + 1) 0 = 0x1234 / 256
      ∧ OldPacket_GetUint16 (OldPacket_AddUint16
          (OldPacket_Init ⟨[], 0, 0⟩ OldPacketType_t.OLD_PACKET_TX 0x10) 0x1234).2.buffer 0
          = (true, 0x1234))
    ∧ ((NewPacket_AddUint16 (NewPacket_Init ⟨[], 0⟩ 0x02) 0x1234).1 = true
      ∧ (NewPacket_AddUint16 (NewPacket_Init ⟨[], 0⟩ 0x02) 0x1234).2.buffer.getD (4 + 0) 0
          = 0x1234 % 256
      ∧ (NewPacket_AddUint16 (NewPacket_Init ⟨[], 0⟩ 0x02) 0x1234).2.buffer.getD (4 + 0 + 1) 0
          = 0x1234 / 256
      ∧ NewPacket_GetUint16 (NewPacket_AddUint16 (NewPacket_Init ⟨[], 0⟩ 0x02) 0x1234).2.buffer 0
          = (true, 0x1234))
    ∧ ((OldPacket_AddUint32 (OldPacket_Init ⟨[], 0, 0⟩ OldPacketType_t.OLD_PACKET_TX 0x10)
          0x12345678).1 = true
      ∧ (OldPacket_AddUint32 (OldPacket_Init ⟨[], 0, 0⟩ OldPacketType_t.OLD_PACKET_TX 0x10)
          0x12345678).2.buffer.getD (4 + 0) 0 = 0x12345678 % 256
      ∧ (OldPacket_AddUint32 (OldPacket_Init ⟨[], 0, 0⟩ OldPacketType_t.OLD_PACKET_TX 0x10)
          0x12345678).2.buffer.getD (4 + 0 + 1) 0 = 0x12345678 / 256 % 256
      ∧ (OldPacket_AddUint32 (OldPacket_Init ⟨[], 0, 0⟩ OldPacketType_t.OLD_PACKET_TX 0x10)
          0x12345678).2.buffer.getD (4 + 0 + 2) 0 = 0x12345678 / 65536 % 256
      ∧ (OldPacket_AddUint32 (OldPacket_Init ⟨[], 0, 0⟩ OldPacketType_t.OLD_PACKET_TX 0x10)
          0x12345678).2.buffer.getD (4 + 0 + 3) 0 = 0x12345678 / 16777216) :=
  ⟨(C23_little_endian_round_trip
      (OldPacket_Init ⟨[], 0, 0⟩ OldPacketType_t.OLD_PACKET_TX 0x10)
      (NewPacket_Init ⟨[], 0⟩ 0x02) 0 0x1234).1 (by decide) (by decide) (by decide) (by decide),
   (C23_little_endian_round_trip
      (OldPacket_Init ⟨[], 0, 0⟩ OldPacketType_t.OLD_PACKET_TX 0x10)
      (NewPacket_Init ⟨[], 0⟩ 0x02) 0 0x1234).2.1 (by decide) (by decide) (by decide) (by decide),
   (C23_little_endian_round_trip
      (OldPacket_Init ⟨[], 0, 0⟩ OldPacketType_t.OLD_PACKET_TX 0x10)
      (NewPacket_Init ⟨[], 0⟩ 0x02) 0 0x12345678).2.2 (by decide) (by decide) (by decide)
      (by decide)⟩

/-- C24 as stated fails: with one payload byte free (length 28),
`OldPacket_AddUint16` returns false after appending the low byte: the length is
29 and `data_length` 25 afterwards, not 28 and 24. -/
theorem C24_failed_AddUint16_mutates_length :
    oneByteFreeBuilder.length = 28
    ∧ oneByteFreeBuilder.data_length = 24
    ∧ (OldPacket_AddUint16 oneByteFreeBuilder 0x1234).1 = false
    ∧ (OldPacket_AddUint16 oneByteFreeBuilder 0x1234).2.length = 29
    ∧ (OldPacket_AddUint16 oneByteFreeBuilder 0x1234).2.data_length = 25
    ∧ (OldPacket_AddUint16 oneByteFreeBuilder 0x1234).2.buffer.getD 28 0 = 0x34 := by
  decide

/-- C24 (amended): on a builder whose `data_length` is its length minus 4, a
call of `OldPacket_AddByte` that returns false leaves the builder unchanged. A
call of `OldPacket_AddUint16`, `OldPacket_AddUint32` or `OldPacket_AddBytes`
that returns false leaves the builder unchanged when it was at its payload
capacity already (length 29 or more); otherwise it has appended the bytes that
fitted, and the length is 29 and `data_length` 25 afterwards. -/
theorem C24_failed_append_fills_to_capacity (p : OldPacket_t)
    (hinv : p.data_length + 4 = p.length) :
    (∀ b, (OldPacket_AddByte p b).1 = false → (OldPacket_AddByte p b).2 = p)
    ∧ (∀ v, (OldPacket_AddUint16 p v).1 = false →
        (29 ≤ p.length → (OldPacket_AddUint16 p v).2 = p)
        ∧ (p.length < 29 → (OldPacket_AddUint16 p v).2.length = 29
            ∧ (OldPacket_AddUint16 p v).2.data_length = 25))
    ∧ (∀ v, (OldPacket_AddUint32 p v).1 = false →
        (29 ≤ p.length → (OldPacket_AddUint32 p v).2 = p)
        ∧ (p.length < 29 → (OldPacket_AddUint32 p v).2.length = 29
            ∧ (OldPacket_AddUint32 p v).2.data_length = 25))
    ∧ (∀ data n, (OldPacket_AddBytes p data n).1 = false →
        (29 ≤ p.length → (OldPacket_AddBytes p data n).2 = p)
        ∧ (p.length < 29 → (OldPacket_AddBytes p data n).2.length = 29
            ∧ (OldPacket_AddBytes p data n).2.data_length = 25)) := by
  have step : ∀ (r : OldPacket_t) (b : Nat), r.data_length + 4 = r.length → r.length < 29 →
      OldPacket_AddByte r b
        = (true, { buffer := r.buffer.set r.length b, length := r.length + 1,
                   data_length := r.data_length + 1 }) := by
    intro r b hr hlt
    rw [OldPacket_AddByte_ok r b hlt, Nat.mod_eq_of_lt (show r.data_length + 1 < 256 by omega)]
  refine ⟨?_, ?_, ?_, ?_⟩
  · intro b hf
    by_cases hlt : p.length < 29
    · rw [OldPacket_AddByte_ok p b hlt] at hf
      exact absurd hf (by simp)
    · rw [OldPacket_AddByte_full p b (by omega)]
  · intro v hf
    by_cases hlt : p.length < 29
    · refine ⟨fun h => absurd h (by omega), fun _ => ?_⟩
      unfold OldPacket_AddUint16 at hf ⊢
      simp only [step p _ hinv hlt, if_true] at hf ⊢
      by_cases h2 : p.length + 1 < 29
      · rw [step _ _ (by simp only []; omega) h2] at hf
        simp at hf
      · rw [OldPacket_AddByte_full _ _ (by simp only []; omega)]
        simp only [Bool.false_eq_true, if_false]
        omega
    · refine ⟨fun _ => ?_, fun h => absurd h hlt⟩
      unfold OldPacket_AddUint16
      simp only [OldPacket_AddByte_full p _ (show 29 ≤ p.length by omega), Bool.false_eq_true,
        if_false]
  · intro v hf
    by_cases hlt : p.length < 29
    · refine ⟨fun h => absurd h (by omega), fun _ => ?_⟩
      unfold OldPacket_AddUint32 at hf ⊢
      simp only [step p _ hinv hlt, if_true] at hf ⊢
      by_cases h2 : p.length + 1 < 29
      · rw [step _ _ (by simp only []; omega) h2] at hf ⊢
        simp only [if_true] at hf ⊢
        by_cases h3 : p.length + 1 + 1 < 29
        · rw [step _ _ (by simp only []; omega) h3] at hf ⊢
          simp only [if_true] at hf ⊢
          by_cases h4 : p.length + 1 + 1 + 1 < 29
          · rw [step _ _ (by simp only []; omega) h4] at hf
            simp at hf
          · rw [OldPacket_AddByte_full _ _ (by simp only []; omega)]
            simp only [Bool.false_eq_true, if_false]
            omega
        · rw [OldPacket_AddByte_full _ _ (by simp only []; omega)]
          simp only [Bool.false_eq_true, if_false]
          omega
      · rw [OldPacket_AddByte_full _ _ (by simp only []; omega)]
        simp only [Bool.false_eq_true, if_false]
        omega
    · refine ⟨fun _ => ?_, fun h => absurd h hlt⟩
      unfold OldPacket_AddUint32
      simp only [OldPacket_AddByte_full p _ (show 29 ≤ p.length by omega), Bool.false_eq_true,
        if_false]
  · intro data n hf
    exact OldPacket_AddBytesFrom_fail data n 0 p hinv hf

/-- C24 (amended) on a builder with one payload byte free and on the same
builder after one more byte. -/
theorem C24_failed_append_fills_to_capacity_witness :
    ((OldPacket_AddUint16 oneByteFreeBuilder 0x1234).2.length = 29
      ∧ (OldPacket_AddUint16 oneByteFreeBuilder 0x1234).2.data_length = 25)
    ∧ (OldPacket_AddByte (OldPacket_AddByte oneByteFreeBuilder 0).2 7).2
        = (OldPacket_AddByte oneByteFreeBuilder 0).2 :=
  ⟨((C24_failed_append_fills_to_capacity oneByteFreeBuilder (by decide)).2.1 0x1234
      (by decide)).2 (by decide),
   (C24_failed_append_fills_to_capacity (OldPacket_AddByte oneByteFreeBuilder 0).2
      (by decide)).1 7 (by decide)⟩

/-- C25 as stated fails: with direction 0xAA, command id 0x10 and the payload
`01 02 03`, `OldPacket_Finalize` succeeds with the length 10 and the buffer
`AA 03 00 10 01 02 03 00 C3 AA`: a two-byte checksum and the single end byte
AA, no `EB AA`; `VerifyCtrlPacket` rejects it at that length. -/
theorem C25_built_frame_rejected :
    (OldPacket_Finalize (OldPacket_AddBytes
        (OldPacket_Init ⟨[], 0, 0⟩ OldPacketType_t.OLD_PACKET_TX 0x10) [1, 2, 3] 3).2).1 = true
    ∧ (OldPacket_Finalize (OldPacket_AddBytes
        (OldPacket_Init ⟨[], 0, 0⟩ OldPacketType_t.OLD_PACKET_TX 0x10) [1, 2, 3] 3).2).2.length
        = 10
    ∧ (OldPacket_Finalize (OldPacket_AddBytes
        (OldPacket_Init ⟨[], 0, 0⟩ OldPacketType_t.OLD_PACKET_TX 0x10) [1, 2, 3] 3).2).2.buffer.take
          10 = [0xAA, 0x03, 0x00, 0x10, 0x01, 0x02, 0x03, 0x00, 0xC3, 0xAA]
    ∧ VerifyCtrlPacket (OldPacket_Finalize (OldPacket_AddBytes
        (OldPacket_Init ⟨[], 0, 0⟩ OldPacketType_t.OLD_PACKET_TX 0x10) [1, 2, 3] 3).2).2.buffer 10
        = false := by
  decide

/-- C25 (amended): for every direction, command id and payload of 1 to 25
bytes, `OldPacket_Init`, `OldPacket_AddBytes` and `OldPacket_Finalize` succeed
and the buffer holds, at the finalized length of payload length plus 7, the
layout START LEN RESERVED CMD PAYLOAD CHECKSUM END: LEN is the payload length,
CHECKSUM is two bytes, the 16-bit sum of all bytes before it with the high byte
first, END is the single byte AA. `VerifyCtrlPacket` rejects this buffer at the
finalized length. -/
theorem C25_built_frame_layout (p0 : OldPacket_t) (dir : OldPacketType_t) (cmd : Nat)
    (payload : List Nat) (h1 : 1 ≤ payload.length) (h25 : payload.length ≤ 25)
    (hcmd : cmd < 256) (hbytes : ∀ b ∈ payload, b < 256) :
    (OldPacket_Finalize
        (OldPacket_AddBytes (OldPacket_Init p0 dir cmd) payload payload.length).2).1 = true
    ∧ OldPacket_GetLength (OldPacket_Finalize
        (OldPacket_AddBytes (OldPacket_Init p0 dir cmd) payload payload.length).2).2
        = payload.length + 7
    ∧ (OldPacket_GetBuffer (OldPacket_Finalize
        (OldPacket_AddBytes (OldPacket_Init p0 dir cmd) payload payload.length).2).2).take
          (payload.length + 7)
        = dir.toByte :: payload.length :: 0 :: cmd :: payload
          ++ [(dir.toByte + payload.length + 0 + cmd + payload.sum) / 256,
              (dir.toByte + payload.length + 0 + cmd + payload.sum) % 256, 0xAA]
    ∧ VerifyCtrlPacket (OldPacket_GetBuffer (OldPacket_Finalize
        (OldPacket_AddBytes (OldPacket_Init p0 dir cmd) payload payload.length).2).2)
        (payload.length + 7) = false := by
  obtain ⟨hfin, hlen, hframe⟩ := OldPacket_frame p0 dir cmd payload h25
  have hsum := sum_bytes_le payload hbytes
  have hdir : dir.toByte ≤ 170 := by cases dir <;> decide
  have hS : dir.toByte + payload.length + 0 + cmd + payload.sum < 65536 := by omega
  have hS1 : (dir.toByte + payload.length + 0 + cmd + payload.sum) % 65536
      = dir.toByte + payload.length + 0 + cmd + payload.sum := Nat.mod_eq_of_lt hS
  have hS2 : (dir.toByte + payload.length + 0 + cmd + payload.sum) / 256 % 256
      = (dir.toByte + payload.length + 0 + cmd + payload.sum) / 256 :=
    Nat.mod_eq_of_lt (by omega)
  rw [hS1, hS2] at hframe
  unfold OldPacket_GetLength OldPacket_GetBuffer
  refine ⟨hfin, hlen, hframe, ?_⟩
  apply Bool.eq_false_iff.2
  intro hv
  obtain ⟨_, _, heb, _, _⟩ := (verifyCtrl_iff _ _).1 hv
  have hidx : payload.length + 7 - 2 = payload.length + 4 + 1 := by omega
  rw [hidx, getD_take _ _ (payload.length + 7) (by omega), hframe, getD_after_payload] at heb
  have heb' : (dir.toByte + payload.length + 0 + cmd + payload.sum) % 256 = 0xEB := heb
  have hv' := hv
  obtain ⟨_, _, _, _, hcs⟩ := (verifyCtrl_iff _ _).1 hv'
  have hb32 : (OldPacket_Finalize
      (OldPacket_AddBytes (OldPacket_Init p0 dir cmd) payload payload.length).2).2.buffer.length
      = 32 := by
    obtain ⟨_, h2, _, h4, _⟩ := OldPacket_built p0 dir cmd payload h25
    exact (OldPacket_Finalize_ok _ (by rw [h2]; omega) (by rw [h2]; omega) h4).2.2.2.1
  rw [CalculateCtrlChecksum_eq_sum _ _ (by rw [hb32]; omega) (by omega)] at hcs
  unfold sumOfBytesMod256 bytesFromThrough at hcs
  have hidx3 : payload.length + 7 - 3 = payload.length + 4 + 0 := by omega
  have hidx4 : payload.length + 7 - 4 + 1 = payload.length + 4 := by omega
  rw [hidx3, hidx4, List.drop_zero,
    getD_take _ (payload.length + 4 + 0) (payload.length + 7) (by omega), hframe,
    getD_after_payload] at hcs
  have htake : (OldPacket_Finalize
      (OldPacket_AddBytes (OldPacket_Init p0 dir cmd) payload payload.length).2).2.buffer.take
        (payload.length + 4) = dir.toByte :: payload.length :: 0 :: cmd :: payload := by
    have hmin : payload.length + 4 = min (payload.length + 4) (payload.length + 7) := by omega
    rw [hmin, ← List.take_take, hframe]
    have e : dir.toByte :: payload.length :: 0 :: cmd :: payload
          ++ [(dir.toByte + payload.length + 0 + cmd + payload.sum) / 256,
              (dir.toByte + payload.length + 0 + cmd + payload.sum) % 256, 0xAA]
        = (dir.toByte :: payload.length :: 0 :: cmd :: payload)
          ++ [(dir.toByte + payload.length + 0 + cmd + payload.sum) / 256,
              (dir.toByte + payload.length + 0 + cmd + payload.sum) % 256, 0xAA] := by simp
    rw [e]
    apply List.take_left'
    simp
  rw [htake] at hcs
  simp only [List.sum_cons, List.getD_cons_zero] at hcs
  omega

/-- C25 (amended) with direction 0xAA, command id 0x10 and the payload `01 02 03`. -/
theorem C25_built_frame_layout_witness :
    (OldPacket_Finalize (OldPacket_AddBytes
        (OldPacket_Init ⟨[], 0, 0⟩ OldPacketType_t.OLD_PACKET_TX 0x10) [1, 2, 3]
          [1, 2, 3].length).2).1 = true
    ∧ OldPacket_GetLength (OldPacket_Finalize (OldPacket_AddBytes
        (OldPacket_Init ⟨[], 0, 0⟩ OldPacketType_t.OLD_PACKET_TX 0x10) [1, 2, 3]
          [1, 2, 3].length).2).2 = [1, 2, 3].length + 7
    ∧ (OldPacket_GetBuffer (OldPacket_Finalize (OldPacket_AddBytes
        (OldPacket_Init ⟨[], 0, 0⟩ OldPacketType_t.OLD_PACKET_TX 0x10) [1, 2, 3]
          [1, 2, 3].length).2).2).take ([1, 2, 3].length + 7)
        = OldPacketType_t.OLD_PACKET_TX.toByte :: [1, 2, 3].length :: 0 :: 0x10 :: [1, 2, 3]
          ++ [(OldPacketType_t.OLD_PACKET_TX.toByte + [1, 2, 3].length + 0 + 0x10
                + [1, 2, 3].sum) / 256,
              (OldPacketType_t.OLD_PACKET_TX.toByte + [1, 2, 3].length + 0 + 0x10
                + [1, 2, 3].sum) % 256, 0xAA]
    ∧ VerifyCtrlPacket (OldPacket_GetBuffer (OldPacket_Finalize (OldPacket_AddBytes
        (OldPacket_Init ⟨[], 0, 0⟩ OldPacketType_t.OLD_PACKET_TX 0x10) [1, 2, 3]
          [1, 2, 3].length).2).2) ([1, 2, 3].length + 7) = false :=
  C25_built_frame_layout ⟨[], 0, 0⟩ OldPacketType_t.OLD_PACKET_TX 0x10 [1, 2, 3]
    (by decide) (by decide) (by decide) (by decide)

/-- C26: on every device builder holding `n` payload bytes, `0 ≤ n ≤ 27`, after
the four header bytes, `NewPacket_Finalize` succeeds, appends `F0` as the last
byte and writes the total frame length `n + 5` into byte 2, leaving every other
byte before the end marker as it was; after `NewPacket_Init(type)` and
`NewPacket_AddBytes` with `n` payload bytes the frame is `55 AA n+5 type`,
the payload, `F0`. -/
theorem C26_new_finalize (q : NewPacket_t) (q0 : NewPacket_t) (n ty : Nat) (payload : List Nat) :
    (q.length = 4 + n → n ≤ 27 → q.buffer.length = 32 →
      (NewPacket_Finalize q).1 = true
      ∧ (NewPacket_Finalize q).2.length = n + 5
      ∧ (NewPacket_Finalize q).2.buffer.getD (n + 4) 0 = 0xF0
      ∧ (NewPacket_Finalize q).2.buffer.getD 2 0 = n + 5
      ∧ ∀ j, j < n + 4 → j ≠ 2 →
          (NewPacket_Finalize q).2.buffer.getD j 0 = q.buffer.getD j 0)
    ∧ (payload.length = n → n ≤ 27 →
      (NewPacket_Finalize
          (NewPacket_AddBytes (NewPacket_Init q0 ty) payload payload.length).2).1 = true
      ∧ (NewPacket_Finalize
          (NewPacket_AddBytes (NewPacket_Init q0 ty) payload payload.length).2).2.length = n + 5
      ∧ (NewPacket_Finalize
          (NewPacket_AddBytes (NewPacket_Init q0 ty) payload payload.length).2).2.buffer.take
            (n + 5)
          = 0x55 :: 0xAA :: (n + 5) :: ty :: payload ++ [0xF0]) := by
  constructor
  · intro hl hn hb
    have e1 : (q.length + 1) % 256 = n + 5 := by omega
    have hres : NewPacket_Finalize q
        = (true, { buffer := (q.buffer.set q.length 0xF0).set 2 (n + 5), length := n + 5 }) := by
      unfold NewPacket_Finalize
      simp only [PACKET_BUILDER_MAX_SIZE, ge_iff_le, e1]
      rw [if_pos (by omega), if_pos (by omega)]
    rw [hres]
    refine ⟨rfl, rfl, ?_, ?_, ?_⟩
    · simp only []
      rw [getD_set_ne _ _ _ _ (by omega), show n + 4 = q.length by omega,
        getD_set_self _ _ _ (by omega)]
    · simp only []
      rw [getD_set_self _ _ _ (by simp [hb])]
    · intro j hj hj2
      simp only []
      rw [getD_set_ne _ _ _ _ (by omega), getD_set_ne _ _ _ _ (by omega)]
  · intro hl hn
    subst hl
    exact NewPacket_frame q0 ty payload hn

/-- C26 with the type 0x02 and the payload `01 02 03`. -/
theorem C26_new_finalize_witness :
    ((NewPacket_Finalize (NewPacket_AddBytes (NewPacket_Init ⟨[], 0⟩ 0x02) [1, 2, 3] 3).2).1
        = true
      ∧ (NewPacket_Finalize
          (NewPacket_AddBytes (NewPacket_Init ⟨[], 0⟩ 0x02) [1, 2, 3] 3).2).2.length = 3 + 5
      ∧ (NewPacket_Finalize
          (NewPacket_AddBytes (NewPacket_Init ⟨[], 0⟩ 0x02) [1, 2, 3] 3).2).2.buffer.getD
            (3 + 4) 0 = 0xF0
      ∧ (NewPacket_Finalize
          (NewPacket_AddBytes (NewPacket_Init ⟨[], 0⟩ 0x02) [1, 2, 3] 3).2).2.buffer.getD 2 0
          = 3 + 5
      ∧ ∀ j, j < 3 + 4 → j ≠ 2 →
          (NewPacket_Finalize
            (NewPacket_AddBytes (NewPacket_Init ⟨[], 0⟩ 0x02) [1, 2, 3] 3).2).2.buffer.getD j 0
            = (NewPacket_AddBytes (NewPacket_Init ⟨[], 0⟩ 0x02) [1, 2, 3] 3).2.buffer.getD j 0)
    ∧ ((NewPacket_Finalize
          (NewPacket_AddBytes (NewPacket_Init ⟨[], 0⟩ 0x02) [1, 2, 3] [1, 2, 3].length).2).1
          = true
      ∧ (NewPacket_Finalize
          (NewPacket_AddBytes (NewPacket_Init ⟨[], 0⟩ 0x02) [1, 2, 3]
            [1, 2, 3].length).2).2.length = 3 + 5
      ∧ (NewPacket_Finalize
          (NewPacket_AddBytes (NewPacket_Init ⟨[], 0⟩ 0x02) [1, 2, 3]
            [1, 2, 3].length).2).2.buffer.take (3 + 5)
          = 0x55 :: 0xAA :: (3 + 5) :: 0x02 :: [1, 2, 3] ++ [0xF0]) :=
  ⟨(C26_new_finalize (NewPacket_AddBytes (NewPacket_Init ⟨[], 0⟩ 0x02) [1, 2, 3] 3).2 ⟨[], 0⟩
      3 0x02 [1, 2, 3]).1 (by decide) (by decide) (by decide),
   (C26_new_finalize (NewPacket_AddBytes (NewPacket_Init ⟨[], 0⟩ 0x02) [1, 2, 3] 3).2 ⟨[], 0⟩
      3 0x02 [1, 2, 3]).2 (by decide) (by decide)⟩

/-- C27 (code defect): after `OldPacket_Init` and a successful
`OldPacket_Finalize` the builder holds 7 bytes, and a subsequent
`OldPacket_AddByte` returns true, overwrites byte 7 and raises the length to 8;
`OldPacket_AddUint16`, `OldPacket_AddUint32` and `OldPacket_AddBytes` return
true on the finalized builder as well. -/
theorem C27_append_after_finalize_succeeds :
    (OldPacket_Finalize (OldPacket_Init ⟨[], 0, 0⟩ OldPacketType_t.OLD_PACKET_TX 0x10)).1 = true
    ∧ finalizedBuilder.length = 7
    ∧ OldPacket_AddByte finalizedBuilder 0x07
        = (true, { buffer := finalizedBuilder.buffer.set 7 0x07, length := 8, data_length := 1 })
    ∧ (OldPacket_AddUint16 finalizedBuilder 0x1234).1 = true
    ∧ (OldPacket_AddUint32 finalizedBuilder 0x12345678).1 = true
    ∧ (OldPacket_AddBytes finalizedBuilder [1, 2, 3] 3).1 = true := by
  decide

/-! ## Frame assemblers: basic facts -/

/-- A byte arriving within 50 ms at a control buffer that holds between 1 and
31 bytes, and not completing `EB AA`, is stored and nothing is handed over. -/
theorem control_put_store (st : ControlRx) (b now : Nat)
    (h1 : 1 ≤ st.control_rx_len) (h32 : st.control_rx_len < 32)
    (hbuf : st.control_rx_buf.length = 32)
    (hgap : elapsedTime now st.last_time ≤ 50)
    (hpair : ¬ (st.control_rx_buf.getD (st.control_rx_len - 1) 0 = 0xEB ∧ b = 0xAA)) :
    control_rx_put_byte st b now
      = ({ control_rx_buf := st.control_rx_buf.set st.control_rx_len b
           control_rx_len := st.control_rx_len + 1
           last_time := now
           index := st.index }, none) := by
  have hg : ¬ (elapsedTime now st.last_time > 50 ∧ st.control_rx_len > 0) := by omega
  have h0 : ¬ (st.control_rx_len = 0 ∧ (b ≠ 0xAA ∧ b ≠ 0x55)) := by omega
  have g1 : (st.control_rx_buf.set st.control_rx_len b).getD (st.control_rx_len + 1 - 2) 0
      = st.control_rx_buf.getD (st.control_rx_len - 1) 0 := by
    rw [show st.control_rx_len + 1 - 2 = st.control_rx_len - 1 by omega,
      getD_set_ne _ _ _ _ (by omega)]
  have g2 : (st.control_rx_buf.set st.control_rx_len b).getD (st.control_rx_len + 1 - 1) 0
      = b := by
    rw [show st.control_rx_len + 1 - 1 = st.control_rx_len by omega,
      getD_set_self _ _ _ (by omega)]
  unfold control_rx_put_byte
  simp only [hg, if_false, h0, CONTROL_RX_BUFFER_SIZE, h32, if_true, g1, g2]
  rw [if_neg (by
    intro hc
    exact hpair ⟨hc.2.1, hc.2.2⟩)]

/-- Bytes arriving within 50 ms of each other that fit into the control buffer
and never complete `EB AA` are accumulated without any hand-off. -/
theorem control_accumulate :
    ∀ (bs : List (Nat × Nat)) (st : ControlRx),
      1 ≤ st.control_rx_len → st.control_rx_buf.length = 32 →
      st.control_rx_len + bs.length ≤ 32 →
      noEndPairFrom (st.control_rx_buf.getD (st.control_rx_len - 1) 0) (bs.map Prod.fst) = true →
      gapsWithin st.last_time (bs.map Prod.snd) = true →
      (controlFeed st bs).2 = []
      ∧ (controlFeed st bs).1.control_rx_len = st.control_rx_len + bs.length
      ∧ (controlFeed st bs).1.control_rx_buf.length = 32
      ∧ (controlFeed st bs).1.last_time = (bs.map Prod.snd).getLastD st.last_time
      ∧ (controlFeed st bs).1.index = st.index := by
  intro bs
  induction bs with
  | nil =>
    intro st _ hbuf _ _ _
    simp [controlFeed, hbuf]
  | cons x rest ih =>
    intro st h1 hbuf hfit hpair hgap
    obtain ⟨b, t⟩ := x
    simp only [List.map_cons, noEndPairFrom, gapsWithin, Bool.and_eq_true, Bool.not_eq_true',
      decide_eq_true_eq] at hpair hgap
    simp only [List.length_cons] at hfit
    have hp : ¬ (st.control_rx_buf.getD (st.control_rx_len - 1) 0 = 0xEB ∧ b = 0xAA) := by
      intro hc
      have h := hpair.1
      rw [hc.1, hc.2] at h
      exact absurd h (by decide)
    have hstore := control_put_store st b t h1 (by omega) hbuf hgap.1 hp
    simp only [controlFeed, hstore, Option.toList, List.nil_append]
    obtain ⟨i1, i2, i3, i4, i5⟩ := ih
      { control_rx_buf := st.control_rx_buf.set st.control_rx_len b
        control_rx_len := st.control_rx_len + 1
        last_time := t
        index := st.index }
      (by simp only []; omega) (by simp [hbuf]) (by simp only []; omega)
      (by
        simp only []
        rw [show st.control_rx_len + 1 - 1 = st.control_rx_len by omega,
          getD_set_self _ _ _ (by omega)]
        exact hpair.2)
      (by simp only []; exact hgap.2)
    simp only [] at i2 i4 i5
    refine ⟨i1, by rw [i2]; simp only [List.length_cons]; omega, i3, ?_, i5⟩
    rw [i4]
    cases rest with
    | nil => rfl
    | cons y ys => rfl

/-- Feeding a concatenation is feeding the first part and then the second. -/
theorem controlFeed_append :
    ∀ (xs ys : List (Nat × Nat)) (st : ControlRx),
      controlFeed st (xs ++ ys)
        = ((controlFeed (controlFeed st xs).1 ys).1,
           (controlFeed st xs).2 ++ (controlFeed (controlFeed st xs).1 ys).2) := by
  intro xs
  induction xs with
  | nil => intro ys st; simp [controlFeed]
  | cons x rest ih =>
    intro ys st
    obtain ⟨b, t⟩ := x
    show controlFeed st ((b, t) :: (rest ++ ys)) = _
    simp only [controlFeed, ih, List.append_assoc]

/-- Feeding a concatenation to the camera link. -/
theorem cameraFeed_append :
    ∀ (xs ys : List Nat) (st : CameraRx),
      cameraFeed st (xs ++ ys)
        = ((cameraFeed (cameraFeed st xs).1 ys).1,
           (cameraFeed st xs).2 ++ (cameraFeed (cameraFeed st xs).1 ys).2) := by
  intro xs
  induction xs with
  | nil => intro ys st; simp [cameraFeed]
  | cons x rest ih =>
    intro ys st
    show cameraFeed st (x :: (rest ++ ys)) = _
    simp only [cameraFeed, ih, List.append_assoc]

/-- The gaps of a list of clock values with one more value at its end. -/
theorem gapsWithin_append :
    ∀ (l : List Nat) (p t : Nat),
      gapsWithin p (l ++ [t])
        = (gapsWithin p l && decide (elapsedTime t (l.getLastD p) ≤ 50)) := by
  intro l
  induction l with
  | nil => intro p t; simp [gapsWithin]
  | cons a rest ih =>
    intro p t
    have hl : (a :: rest).getLastD p = rest.getLastD a := by
      cases rest with
      | nil => rfl
      | cons y ys => rfl
    show gapsWithin p (a :: (rest ++ [t])) = _
    simp only [gapsWithin, ih, Bool.and_assoc, hl]

/-- A start byte arriving at the control link in Idle is stored at offset 0. -/
theorem control_put_start (st : ControlRx) (b now : Nat)
    (hidle : st.control_rx_len = 0) (hstart : b = 0xAA ∨ b = 0x55) :
    control_rx_put_byte st b now
      = ({ control_rx_buf := st.control_rx_buf.set 0 b
           control_rx_len := 1
           last_time := now
           index := st.index }, none) := by
  obtain ⟨buf, len, lt, idx⟩ := st
  simp only [] at hidle
  subst hidle
  have h0 : ¬ (b ≠ 0xAA ∧ b ≠ 0x55) := by
    intro h
    rcases hstart with h1 | h1
    · exact h.1 h1
    · exact h.2 h1
  simp [control_rx_put_byte, h0, CONTROL_RX_BUFFER_SIZE]

/-- A byte that is no start byte arriving at the control link in Idle is
dropped: only the time of the last byte changes. -/
theorem control_put_ignore (st : ControlRx) (b now : Nat)
    (hidle : st.control_rx_len = 0) (hb : b ≠ 0xAA ∧ b ≠ 0x55) :
    control_rx_put_byte st b now = ({ st with last_time := now }, none) := by
  obtain ⟨buf, len, lt, idx⟩ := st
  simp only [] at hidle
  subst hidle
  simp [control_rx_put_byte, hb]

/-- A byte arriving within 50 ms at a full control buffer resets the buffer and
is not stored. -/
theorem control_put_overflow (st : ControlRx) (b now : Nat)
    (hfull : st.control_rx_len = 32) (hgap : elapsedTime now st.last_time ≤ 50) :
    control_rx_put_byte st b now
      = ({ control_rx_buf := List.replicate 32 0
           control_rx_len := 0
           last_time := now
           index := st.index }, none) := by
  obtain ⟨buf, len, lt, idx⟩ := st
  simp only [] at hfull hgap
  subst hfull
  have hg : ¬ (elapsedTime now lt > 50) := by omega
  simp [control_rx_put_byte, hg, CONTROL_RX_BUFFER_SIZE, reset_control_buffer]

/-- A byte arriving more than 50 ms after the previous one at a control buffer
that is not empty is processed on the cleared buffer with `index` 0. -/
theorem control_put_timeout (st : ControlRx) (b now : Nat)
    (hlen : 0 < st.control_rx_len) (hgap : elapsedTime now st.last_time > 50) :
    control_rx_put_byte st b now
      = control_rx_put_byte
          { control_rx_buf := List.replicate 32 0, control_rx_len := 0,
            last_time := st.last_time, index := 0 } b now := by
  obtain ⟨buf, len, lt, idx⟩ := st
  simp only [] at hlen hgap
  simp [control_rx_put_byte, hgap, hlen, reset_control_buffer, CONTROL_RX_BUFFER_SIZE]

/-- A byte other than F0 that passes the start checks and fits into the camera
buffer is stored and nothing is handed over. -/
theorem camera_put_store (st : CameraRx) (b : Nat)
    (h48 : st.camera_rx_len < 48) (hbuf : st.camera_rx_buf.length = 48)
    (h0 : st.camera_rx_len = 0 → b = 0x55) (h1 : st.camera_rx_len = 1 → b = 0xAA)
    (hb : b ≠ 0xF0) :
    camera_rx_put_byte st b
      = ({ camera_rx_buf := st.camera_rx_buf.set st.camera_rx_len b
           camera_rx_len := st.camera_rx_len + 1 }, none) := by
  have c0 : ¬ (st.camera_rx_len = 0 ∧ b ≠ 0x55) := fun h => h.2 (h0 h.1)
  have c1 : ¬ (st.camera_rx_len = 1 ∧ b ≠ 0xAA) := fun h => h.2 (h1 h.1)
  have g : (st.camera_rx_buf.set st.camera_rx_len b).getD (st.camera_rx_len + 1 - 1) 0 = b := by
    rw [show st.camera_rx_len + 1 - 1 = st.camera_rx_len by omega,
      getD_set_self _ _ _ (by omega)]
  unfold camera_rx_put_byte
  simp only [c0, c1, if_false, CAMERA_RX_BUFFER_SIZE, h48, if_true, g]
  rw [if_neg hb]

/-- A byte arriving at a full camera buffer resets the buffer and is not stored. -/
theorem camera_put_overflow (st : CameraRx) (b : Nat) (hfull : st.camera_rx_len = 48) :
    camera_rx_put_byte st b = (cameraIdle, none) := by
  obtain ⟨buf, len⟩ := st
  simp only [] at hfull
  subst hfull
  simp [camera_rx_put_byte, CAMERA_RX_BUFFER_SIZE, reset_camera_buffer, cameraIdle]

/-- Bytes other than F0 that fit into the camera buffer after its two start
bytes are accumulated without any hand-off. -/
theorem camera_accumulate :
    ∀ (bs : List Nat) (st : CameraRx),
      2 ≤ st.camera_rx_len → st.camera_rx_buf.length = 48 →
      st.camera_rx_len + bs.length ≤ 48 → 0xF0 ∉ bs →
      (cameraFeed st bs).2 = []
      ∧ (cameraFeed st bs).1.camera_rx_len = st.camera_rx_len + bs.length
      ∧ (cameraFeed st bs).1.camera_rx_buf.length = 48 := by
  intro bs
  induction bs with
  | nil =>
    intro st _ hbuf _ _
    simp [cameraFeed, hbuf]
  | cons b rest ih =>
    intro st h2 hbuf hfit hF0
    simp only [List.length_cons] at hfit
    have hb : b ≠ 0xF0 := fun h => hF0 (by simp [h])
    have hrest : 0xF0 ∉ rest := fun h => hF0 (List.mem_cons_of_mem _ h)
    have hstore := camera_put_store st b (by omega) hbuf (by omega) (by omega) hb
    simp only [cameraFeed, hstore, Option.toList, List.nil_append]
    obtain ⟨i1, i2, i3⟩ := ih
      { camera_rx_buf := st.camera_rx_buf.set st.camera_rx_len b
        camera_rx_len := st.camera_rx_len + 1 }
      (by simp only []; omega) (by simp [hbuf]) (by simp only []; omega) hrest
    simp only [] at i2
    exact ⟨i1, by rw [i2]; simp only [List.length_cons]; omega, i3⟩

/-! ## Frame assemblers: the claims -/

/-- C28 (counterexample): `oversizedControlFrame` is a control-link frame of 42
bytes that starts with AA, ends with `EB AA` and has no earlier `EB AA`; fed to
the Idle assembler, its last 9 bytes are handed to the packet handler.
`oversizedCameraFrame` is a device-link frame of 55 bytes that starts with
`55 AA`, ends with F0 and has no earlier F0; its last 6 bytes are handed over. -/
theorem C28_oversized_frame_tail_delivered :
    (oversizedControlFrame.length = 42
      ∧ (oversizedControlFrame.map Prod.fst).head? = some 0xAA
      ∧ (oversizedControlFrame.map Prod.fst).drop 40 = [0xEB, 0xAA]
      ∧ noEndPairFrom 0 ((oversizedControlFrame.map Prod.fst).take 41) = true
      ∧ (controlFeed controlIdle oversizedControlFrame).2
          = [⟨scenarioA_request ++ List.replicate 23 0, 9⟩])
    ∧ (oversizedCameraFrame.length = 55
      ∧ oversizedCameraFrame.take 2 = [0x55, 0xAA]
      ∧ oversizedCameraFrame.drop 54 = [0xF0]
      ∧ 0xF0 ∉ oversizedCameraFrame.take 54
      ∧ (cameraFeed cameraIdle oversizedCameraFrame).2
          = [⟨ack_frame ++ List.replicate 42 0, 6⟩]) := by
  refine ⟨⟨rfl, rfl, rfl, rfl, rfl⟩, ⟨rfl, rfl, rfl, by decide, rfl⟩⟩

/-- C28 (amended): on the control link, from Idle, a start byte followed by 31
bytes that complete no `EB AA` fills the buffer; when every byte up to the 33rd
arrives at most 50 ms after the one before it, nothing is handed over for these
33 bytes, the 33rd byte resets the assembler to Idle and is not kept, and the
bytes after it are processed from Idle. On the device link, from Idle, `55 AA`
followed by 46 bytes other than F0 fills the buffer; nothing is handed over for
the first 49 bytes, the 49th resets the assembler to Idle and is not kept, and
the bytes after it are processed from Idle. -/
theorem C28_overflow_resets_and_resumes
    (st0 : ControlRx) (b1 t1 : Nat) (mid : List (Nat × Nat)) (b33 t33 : Nat)
    (rest : List (Nat × Nat))
    (cam0 : CameraRx) (cmid : List Nat) (c49 : Nat) (crest : List Nat) :
    (st0.control_rx_len = 0 → st0.control_rx_buf.length = 32 →
      (b1 = 0xAA ∨ b1 = 0x55) → mid.length = 31 →
      noEndPairFrom b1 (mid.map Prod.fst) = true →
      gapsWithin t1 (mid.map Prod.snd ++ [t33]) = true →
      controlFeed st0 ((b1, t1) :: mid ++ (b33, t33) :: rest)
        = controlFeed
            { control_rx_buf := List.replicate 32 0, control_rx_len := 0,
              last_time := t33, index := st0.index } rest)
    ∧ (cam0.camera_rx_len = 0 → cam0.camera_rx_buf.length = 48 →
      cmid.length = 46 → 0xF0 ∉ cmid →
      cameraFeed cam0 (0x55 :: 0xAA :: cmid ++ c49 :: crest) = cameraFeed cameraIdle crest) := by
  constructor
  · intro hidle hbuf hstart hmid hpair hgap
    rw [gapsWithin_append] at hgap
    simp only [Bool.and_eq_true, decide_eq_true_eq] at hgap
    have hs := control_put_start st0 b1 t1 hidle hstart
    obtain ⟨a1, a2, a3, a4, a5⟩ := control_accumulate mid
      { control_rx_buf := st0.control_rx_buf.set 0 b1, control_rx_len := 1,
        last_time := t1, index := st0.index }
      (by simp only []; omega) (by simp [hbuf]) (by simp only []; omega)
      (by
        simp only []
        rw [show 1 - 1 = 0 by rfl, getD_set_self _ _ _ (by omega)]
        exact hpair)
      hgap.1
    simp only [] at a2 a4 a5
    have ho := control_put_overflow _ b33 t33 (by rw [a2]; omega) (by rw [a4]; exact hgap.2)
    rw [a5] at ho
    have hx : controlFeed st0 ((b1, t1) :: mid)
        = ((controlFeed
            { control_rx_buf := st0.control_rx_buf.set 0 b1, control_rx_len := 1,
              last_time := t1, index := st0.index } mid).1, []) := by
      simp only [controlFeed, hs, Option.toList, List.nil_append, a1]
    rw [controlFeed_append, hx]
    simp only [controlFeed, ho, Option.toList, List.nil_append]
  · intro hidle hbuf hmid hF0
    obtain ⟨buf, len⟩ := cam0
    simp only [] at hidle hbuf
    subst hidle
    have s1 := camera_put_store ⟨buf, 0⟩ 0x55 (by simp only []; omega) hbuf (fun _ => rfl)
      (by simp only []; omega) (by decide)
    have s2 := camera_put_store ⟨buf.set 0 0x55, 1⟩ 0xAA (by simp only []; omega)
      (by simp [hbuf]) (by simp only []; omega) (fun _ => rfl) (by decide)
    simp only [] at s1 s2
    obtain ⟨a1, a2, a3⟩ := camera_accumulate cmid ⟨(buf.set 0 0x55).set 1 0xAA, 2⟩
      (by simp only []; omega) (by simp [hbuf]) (by simp only []; omega) hF0
    simp only [] at a2
    have ho := camera_put_overflow _ c49 (by rw [a2]; omega)
    have hx : cameraFeed ⟨buf, 0⟩ (0x55 :: 0xAA :: cmid)
        = ((cameraFeed ⟨(buf.set 0 0x55).set 1 0xAA, 2⟩ cmid).1, []) := by
      simp only [cameraFeed, s1, s2, Option.toList, List.nil_append, a1]
    rw [cameraFeed_append, hx]
    simp only [cameraFeed, ho, Option.toList, List.nil_append]

/-- C28 (amended) on the first 33 bytes of `oversizedControlFrame` followed by
scenario A's request, and on the first 49 bytes of `oversizedCameraFrame`
followed by `55 AA 01 00 01 F0`. -/
theorem C28_overflow_resets_and_resumes_witness :
    controlFeed controlIdle
        ((0xAA, 0) :: List.replicate 31 (0, 0) ++ (0, 0) :: scenarioA_request.map (fun b => (b, 0)))
      = controlFeed
          { control_rx_buf := List.replicate 32 0, control_rx_len := 0,
            last_time := 0, index := controlIdle.index }
          (scenarioA_request.map (fun b => (b, 0)))
    ∧ cameraFeed cameraIdle (0x55 :: 0xAA :: List.replicate 46 0 ++ 0 :: ack_frame)
      = cameraFeed cameraIdle ack_frame :=
  ⟨(C28_overflow_resets_and_resumes controlIdle 0xAA 0 (List.replicate 31 (0, 0)) 0 0
      (scenarioA_request.map (fun b => (b, 0))) cameraIdle (List.replicate 46 0) 0 ack_frame).1
      rfl rfl (Or.inl rfl) rfl rfl rfl,
   (C28_overflow_resets_and_resumes controlIdle 0xAA 0 (List.replicate 31 (0, 0)) 0 0
      (scenarioA_request.map (fun b => (b, 0))) cameraIdle (List.replicate 46 0) 0 ack_frame).2
      rfl rfl rfl (by decide)⟩

set_option maxRecDepth 100000 in
/-- C29 (counterexample): `fullControlRx` holds 32 bytes, the last of them
received at the clock value 0; a byte arriving at the clock value 10, within
50 ms, is not appended: the buffer is reset and the byte is lost. -/
theorem C29_byte_within_gap_not_appended :
    0 < fullControlRx.control_rx_len
    ∧ elapsedTime 10 fullControlRx.last_time ≤ 50
    ∧ control_rx_put_byte fullControlRx 0x00 10
        = ({ control_rx_buf := List.replicate 32 0, control_rx_len := 0,
             last_time := 10, index := 0 }, none) := by
  refine ⟨by decide, by decide, rfl⟩

/-- C29 (amended): when a byte arrives at `control_rx_put_byte` while at least
one byte is buffered and more than 50 ms (difference of the 32-bit millisecond
clock) have passed since the previous byte, the buffered bytes are discarded
without delivery and the byte is treated as in Idle: AA or 55 is stored as the
first byte, any other byte is dropped. When the gap is at most 50 ms and fewer
than 32 bytes are buffered, the byte is appended, and the buffer is handed over
and reset if the byte completes `EB AA`. When the gap is at most 50 ms and 32
bytes are buffered, the buffer is reset and the byte is not kept. -/
theorem C29_silence_timeout (st : ControlRx) (b now : Nat)
    (hlen : 0 < st.control_rx_len) (hbuf : st.control_rx_buf.length = 32) :
    (elapsedTime now st.last_time > 50 →
      control_rx_put_byte st b now
        = (if b = 0xAA ∨ b = 0x55 then
            { control_rx_buf := (List.replicate 32 0).set 0 b, control_rx_len := 1,
              last_time := now, index := 0 }
          else
            { control_rx_buf := List.replicate 32 0, control_rx_len := 0,
              last_time := now, index := 0 }, none))
    ∧ (elapsedTime now st.last_time ≤ 50 → st.control_rx_len < 32 →
      control_rx_put_byte st b now
        = if st.control_rx_buf.getD (st.control_rx_len - 1) 0 = 0xEB ∧ b = 0xAA then
            ({ control_rx_buf := List.replicate 32 0, control_rx_len := 0,
               last_time := now, index := st.index },
             some ⟨st.control_rx_buf.set st.control_rx_len b, st.control_rx_len + 1⟩)
          else
            ({ control_rx_buf := st.control_rx_buf.set st.control_rx_len b,
               control_rx_len := st.control_rx_len + 1,
               last_time := now, index := st.index }, none))
    ∧ (elapsedTime now st.last_time ≤ 50 → st.control_rx_len = 32 →
      control_rx_put_byte st b now
        = ({ control_rx_buf := List.replicate 32 0, control_rx_len := 0,
             last_time := now, index := st.index }, none)) := by
  refine ⟨?_, ?_, ?_⟩
  · intro hgap
    rw [control_put_timeout st b now hlen hgap]
    by_cases hb : b = 0xAA ∨ b = 0x55
    · rw [if_pos hb, control_put_start _ b now rfl hb]
    · rw [if_neg hb, control_put_ignore _ b now rfl (by
        constructor
        · exact fun h => hb (Or.inl h)
        · exact fun h => hb (Or.inr h))]
  · intro hgap h32
    by_cases hp : st.control_rx_buf.getD (st.control_rx_len - 1) 0 = 0xEB ∧ b = 0xAA
    · rw [if_pos hp]
      have hg : ¬ (elapsedTime now st.last_time > 50 ∧ st.control_rx_len > 0) := by omega
      have h0 : ¬ (st.control_rx_len = 0 ∧ (b ≠ 0xAA ∧ b ≠ 0x55)) := by omega
      have g1 : (st.control_rx_buf.set st.control_rx_len b).getD (st.control_rx_len + 1 - 2) 0
          = 0xEB := by
        rw [show st.control_rx_len + 1 - 2 = st.control_rx_len - 1 by omega,
          getD_set_ne _ _ _ _ (by omega)]
        exact hp.1
      have g2 : (st.control_rx_buf.set st.control_rx_len b).getD (st.control_rx_len + 1 - 1) 0
          = 0xAA := by
        rw [show st.control_rx_len + 1 - 1 = st.control_rx_len by omega,
          getD_set_self _ _ _ (by omega)]
        exact hp.2
      have h2 : st.control_rx_len + 1 ≥ 2 := by omega
      unfold control_rx_put_byte
      simp only [hg, if_false, h0, CONTROL_RX_BUFFER_SIZE, h32, if_true, g1, g2, h2, and_self,
        reset_control_buffer]
    · rw [if_neg hp]
      exact control_put_store st b now hlen h32 hbuf hgap hp
  · intro hgap hfull
    exact control_put_overflow st b now hfull hgap

set_option maxRecDepth 100000 in
/-- C29 (amended) with AA buffered at the clock value 4294967290: the bytes 55
and 00 at the clock value 50, 56 ms later across the wrap of the clock; the byte
00 at the clock value 4294967295, 5 ms later; and the byte 00 arriving at
`fullControlRx` at the clock value 10. -/
theorem C29_silence_timeout_witness :
    control_rx_put_byte ⟨0xAA :: List.replicate 31 0, 1, 4294967290, 0⟩ 0x55 50
      = ({ control_rx_buf := (List.replicate 32 0).set 0 0x55, control_rx_len := 1,
           last_time := 50, index := 0 }, none)
    ∧ control_rx_put_byte ⟨0xAA :: List.replicate 31 0, 1, 4294967290, 0⟩ 0x00 50
      = ({ control_rx_buf := List.replicate 32 0, control_rx_len := 0,
           last_time := 50, index := 0 }, none)
    ∧ control_rx_put_byte ⟨0xAA :: List.replicate 31 0, 1, 4294967290, 0⟩ 0x00 4294967295
      = ({ control_rx_buf := (0xAA :: List.replicate 31 0).set 1 0x00, control_rx_len := 2,
           last_time := 4294967295, index := 0 }, none)
    ∧ control_rx_put_byte fullControlRx 0x00 10
      = ({ control_rx_buf := List.replicate 32 0, control_rx_len := 0,
           last_time := 10, index := 0 }, none) :=
  ⟨(C29_silence_timeout ⟨0xAA :: List.replicate 31 0, 1, 4294967290, 0⟩ 0x55 50
      (by decide) (by decide)).1 (by decide),
   (C29_silence_timeout ⟨0xAA :: List.replicate 31 0, 1, 4294967290, 0⟩ 0x00 50
      (by decide) (by decide)).1 (by decide),
   (C29_silence_timeout ⟨0xAA :: List.replicate 31 0, 1, 4294967290, 0⟩ 0x00 4294967295
      (by decide) (by decide)).2.1 (by decide) (by decide),
   (C29_silence_timeout fullControlRx 0x00 10 (by decide) (by decide)).2.2
      (by decide) (by decide)⟩

/-- C30: on the device link with an empty buffer, a byte other than 55 leaves
the state unchanged and 55 is stored as the first byte; with one byte buffered,
AA is appended and any other byte resets the assembler to Idle; nothing is
handed to the packet handler in any of these calls. -/
theorem C30_camera_start_validation (st : CameraRx) (b : Nat)
    (hbuf : st.camera_rx_buf.length = 48) :
    (st.camera_rx_len = 0 → b ≠ 0x55 → camera_rx_put_byte st b = (st, none))
    ∧ (st.camera_rx_len = 0 →
      camera_rx_put_byte st 0x55
        = ({ camera_rx_buf := st.camera_rx_buf.set 0 0x55, camera_rx_len := 1 }, none))
    ∧ (st.camera_rx_len = 1 →
      camera_rx_put_byte st 0xAA
        = ({ camera_rx_buf := st.camera_rx_buf.set 1 0xAA, camera_rx_len := 2 }, none))
    ∧ (st.camera_rx_len = 1 → b ≠ 0xAA →
      camera_rx_put_byte st b = (cameraIdle, none)
      ∧ cameraIdle.camera_rx_len = 0) := by
  obtain ⟨buf, len⟩ := st
  simp only [] at hbuf
  refine ⟨?_, ?_, ?_, ?_⟩
  · intro h0 hb
    simp only [] at h0
    subst h0
    simp [camera_rx_put_byte, hb]
  · intro h0
    simp only [] at h0
    subst h0
    exact camera_put_store ⟨buf, 0⟩ 0x55 (by simp only []; omega) hbuf (fun _ => rfl)
      (by simp only []; omega) (by decide)
  · intro h1
    simp only [] at h1
    subst h1
    exact camera_put_store ⟨buf, 1⟩ 0xAA (by simp only []; omega) hbuf
      (by simp only []; omega) (fun _ => rfl) (by decide)
  · intro h1 hb
    simp only [] at h1
    subst h1
    refine ⟨?_, rfl⟩
    simp [camera_rx_put_byte, hb, reset_camera_buffer, cameraIdle]

/-- C30 on the Idle assembler with the byte 00, and on the assembler holding
55 with the byte 00. -/
theorem C30_camera_start_validation_witness :
    camera_rx_put_byte cameraIdle 0x00 = (cameraIdle, none)
    ∧ camera_rx_put_byte cameraIdle 0x55
        = ({ camera_rx_buf := cameraIdle.camera_rx_buf.set 0 0x55, camera_rx_len := 1 }, none)
    ∧ camera_rx_put_byte ⟨0x55 :: List.replicate 47 0, 1⟩ 0xAA
        = ({ camera_rx_buf := (0x55 :: List.replicate 47 0).set 1 0xAA, camera_rx_len := 2 },
            none)
    ∧ camera_rx_put_byte ⟨0x55 :: List.replicate 47 0, 1⟩ 0x00 = (cameraIdle, none)
    ∧ cameraIdle.camera_rx_len = 0 :=
  ⟨(C30_camera_start_validation cameraIdle 0x00 (by decide)).1 rfl (by decide),
   (C30_camera_start_validation cameraIdle 0x00 (by decide)).2.1 rfl,
   (C30_camera_start_validation ⟨0x55 :: List.replicate 47 0, 1⟩ 0x00 (by decide)).2.2.1 rfl,
   (C30_camera_start_validation ⟨0x55 :: List.replicate 47 0, 1⟩ 0x00 (by decide)).2.2.2 rfl
      (by decide)⟩

/-! ## Frame delivery: basic facts -/

/-- The end marker F0 arriving at a camera buffer that holds between 2 and 47
bytes completes the frame: the buffer is handed over and reset. -/
theorem camera_put_complete (st : CameraRx) (h2 : 2 ≤ st.camera_rx_len)
    (h48 : st.camera_rx_len < 48) (hbuf : st.camera_rx_buf.length = 48) :
    camera_rx_put_byte st 0xF0
      = (cameraIdle,
          some ⟨st.camera_rx_buf.set st.camera_rx_len 0xF0, st.camera_rx_len + 1⟩) := by
  have c0 : ¬ (st.camera_rx_len = 0 ∧ (0xF0 : Nat) ≠ 0x55) := by omega
  have c1 : ¬ (st.camera_rx_len = 1 ∧ (0xF0 : Nat) ≠ 0xAA) := by omega
  have g : (st.camera_rx_buf.set st.camera_rx_len 0xF0).getD (st.camera_rx_len + 1 - 1) 0
      = 0xF0 := by
    rw [show st.camera_rx_len + 1 - 1 = st.camera_rx_len by omega,
      getD_set_self _ _ _ (by omega)]
  unfold camera_rx_put_byte
  simp only [c0, c1, if_false, CAMERA_RX_BUFFER_SIZE, h48, if_true, g]
  rfl

/-- The bytes accumulated in the camera buffer are the bytes fed, in order,
after the bytes held before. -/
theorem camera_accumulate_buf :
    ∀ (bs : List Nat) (st : CameraRx),
      2 ≤ st.camera_rx_len → st.camera_rx_buf.length = 48 →
      st.camera_rx_len + bs.length ≤ 48 → 0xF0 ∉ bs →
      (cameraFeed st bs).1.camera_rx_buf.take (st.camera_rx_len + bs.length)
        = st.camera_rx_buf.take st.camera_rx_len ++ bs := by
  intro bs
  induction bs with
  | nil =>
    intro st _ _ _ _
    simp [cameraFeed]
  | cons b rest ih =>
    intro st h2 hbuf hfit hF0
    simp only [List.length_cons] at hfit
    have hb : b ≠ 0xF0 := fun h => hF0 (by simp [h])
    have hrest : 0xF0 ∉ rest := fun h => hF0 (List.mem_cons_of_mem _ h)
    have hstore := camera_put_store st b (by omega) hbuf (by omega) (by omega) hb
    simp only [cameraFeed, hstore, List.length_cons]
    have i := ih
      { camera_rx_buf := st.camera_rx_buf.set st.camera_rx_len b
        camera_rx_len := st.camera_rx_len + 1 }
      (by simp only []; omega) (by simp [hbuf]) (by simp only []; omega) hrest
    simp only [] at i
    rw [show st.camera_rx_len + (rest.length + 1) = st.camera_rx_len + 1 + rest.length by omega,
      i, take_set_succ _ _ _ (by omega)]
    simp

/-- Feeding one byte to the camera link. -/
theorem cameraFeed_single (st : CameraRx) (b : Nat) :
    cameraFeed st [b] = ((camera_rx_put_byte st b).1, (camera_rx_put_byte st b).2.toList) := by
  simp [cameraFeed]

/-- From Idle, `55 AA` followed by at most 46 bytes other than F0 is
accumulated as it is, without any hand-off. -/
theorem camera_feed_start (st0 : CameraRx) (mid : List Nat)
    (hidle : st0.camera_rx_len = 0) (hbuf : st0.camera_rx_buf.length = 48)
    (hmid : mid.length ≤ 46) (hF0 : 0xF0 ∉ mid) :
    (cameraFeed st0 (0x55 :: 0xAA :: mid)).2 = []
    ∧ (cameraFeed st0 (0x55 :: 0xAA :: mid)).1.camera_rx_len = 2 + mid.length
    ∧ (cameraFeed st0 (0x55 :: 0xAA :: mid)).1.camera_rx_buf.length = 48
    ∧ (cameraFeed st0 (0x55 :: 0xAA :: mid)).1.camera_rx_buf.take (2 + mid.length)
        = 0x55 :: 0xAA :: mid := by
  obtain ⟨buf, len⟩ := st0
  simp only [] at hidle hbuf
  subst hidle
  have s1 := camera_put_store ⟨buf, 0⟩ 0x55 (by simp only []; omega) hbuf (fun _ => rfl)
    (by simp only []; omega) (by decide)
  have s2 := camera_put_store ⟨buf.set 0 0x55, 1⟩ 0xAA (by simp only []; omega)
    (by simp [hbuf]) (by simp only []; omega) (fun _ => rfl) (by decide)
  simp only [] at s1 s2
  obtain ⟨a1, a2, a3⟩ := camera_accumulate mid ⟨(buf.set 0 0x55).set 1 0xAA, 2⟩
    (by simp only []; omega) (by simp [hbuf]) (by simp only []; omega) hF0
  have a4 := camera_accumulate_buf mid ⟨(buf.set 0 0x55).set 1 0xAA, 2⟩
    (by simp only []; omega) (by simp [hbuf]) (by simp only []; omega) hF0
  simp only [] at a2 a4
  have hx : cameraFeed ⟨buf, 0⟩ (0x55 :: 0xAA :: mid)
      = ((cameraFeed ⟨(buf.set 0 0x55).set 1 0xAA, 2⟩ mid).1, []) := by
    simp only [cameraFeed, s1, s2, Option.toList, List.nil_append, a1]
  have ht : ((buf.set 0 0x55).set 1 0xAA).take 2 = [0x55, 0xAA] := by
    match buf, hbuf with
    | x :: y :: rest, _ => rfl
  rw [hx]
  refine ⟨rfl, a2, a3, ?_⟩
  simp only []
  rw [a4, ht]
  rfl

/-! ## Frame delivery: the claims -/

/-- C31 (counterexample): `earlyEndFrame`, the 6 bytes `55 AA 02 F0 F2 F0`, is
accepted by `VerifyCamPacket`; fed to the Idle assembler, the hand-off is made
on its fourth byte, with the length 4, and no further hand-off follows. -/
theorem C31_frame_with_inner_F0_truncated :
    VerifyCamPacket earlyEndFrame earlyEndFrame.length = true
    ∧ earlyEndFrame.length = 6
    ∧ cameraFeed cameraIdle (earlyEndFrame.take 4)
        = (cameraIdle, [⟨[0x55, 0xAA, 0x02, 0xF0] ++ List.replicate 44 0, 4⟩])
    ∧ cameraFeed cameraIdle earlyEndFrame
        = (cameraIdle, [⟨[0x55, 0xAA, 0x02, 0xF0] ++ List.replicate 44 0, 4⟩]) := by
  refine ⟨by decide, rfl, rfl, rfl⟩

/-- C31 (amended): for every device frame accepted by `VerifyCamPacket` whose
length is at most 48 bytes and which has no byte F0 before its last byte,
feeding its bytes in order to an Idle `camera_rx_put_byte` makes no hand-off
before the last byte and exactly one hand-off on the last byte, whose length is
the length of the frame and whose first bytes up to that length are the frame;
the assembler is Idle afterwards. -/
theorem C31_frame_without_inner_F0_delivered (st0 : CameraRx) (frame : List Nat)
    (hidle : st0.camera_rx_len = 0) (hbuf : st0.camera_rx_buf.length = 48)
    (hv : VerifyCamPacket frame frame.length = true) (h48 : frame.length ≤ 48)
    (hF0 : 0xF0 ∉ frame.dropLast) :
    (cameraFeed st0 frame.dropLast).2 = []
    ∧ ∃ pkt, cameraFeed st0 frame = (cameraIdle, [⟨pkt, frame.length⟩])
        ∧ pkt.take frame.length = frame := by
  obtain ⟨h6, h0, h1, he, _⟩ := (verifyCam_iff frame frame.length).1 hv
  rcases frame with _ | ⟨a, _ | ⟨b, rest⟩⟩
  · simp at h6
  · simp at h6
  · have ha : a = 0x55 := h0
    have hb : b = 0xAA := h1
    subst ha hb
    have hne : rest ≠ [] := by
      intro h
      subst h
      simp at h6
    obtain ⟨mid, l, rfl⟩ : ∃ mid l, rest = mid ++ [l] :=
      ⟨rest.dropLast, rest.getLast hne, (List.dropLast_append_getLast hne).symm⟩
    have hl : l = 0xF0 := by
      have e : (0x55 :: 0xAA :: (mid ++ [l])) = (0x55 :: 0xAA :: mid) ++ [l] := by simp
      have e2 : (0x55 :: 0xAA :: (mid ++ [l])).length - 1 = (0x55 :: 0xAA :: mid).length := by
        simp
      rw [e2, e, List.getD_eq_getElem?_getD, List.getElem?_append_right (le_refl _)] at he
      simpa using he
    subst hl
    have hd : (0x55 :: 0xAA :: (mid ++ [0xF0])).dropLast = 0x55 :: 0xAA :: mid := by
      have e : (0x55 :: 0xAA :: (mid ++ [0xF0])) = (0x55 :: 0xAA :: mid) ++ [0xF0] := by simp
      rw [e, List.dropLast_concat]
    rw [hd] at hF0 ⊢
    have hm : mid.length ≤ 45 := by
      simp only [List.length_cons, List.length_append, List.length_nil] at h48
      omega
    have hF0m : 0xF0 ∉ mid := fun h =>
      hF0 (List.mem_cons_of_mem _ (List.mem_cons_of_mem _ h))
    obtain ⟨f1, f2, f3, f4⟩ := camera_feed_start st0 mid hidle hbuf (by omega) hF0m
    refine ⟨f1, ?_⟩
    have hc := camera_put_complete (cameraFeed st0 (0x55 :: 0xAA :: mid)).1
      (by rw [f2]; omega) (by rw [f2]; omega) f3
    refine ⟨(cameraFeed st0 (0x55 :: 0xAA :: mid)).1.camera_rx_buf.set (2 + mid.length) 0xF0,
      ?_, ?_⟩
    · have e : (0x55 :: 0xAA :: (mid ++ [0xF0])) = (0x55 :: 0xAA :: mid) ++ [0xF0] := by simp
      rw [f2] at hc
      rw [e, cameraFeed_append, cameraFeed_single, hc, f1]
      simp only [Option.toList, List.nil_append, List.length_append, List.length_cons,
        List.length_nil]
      have e3 : mid.length + 1 + 1 + (0 + 1) = 2 + mid.length + 1 := by omega
      rw [e3]
    · have e4 : (0x55 :: 0xAA :: (mid ++ [0xF0])).length = 2 + mid.length + 1 := by
        simp only [List.length_append, List.length_cons, List.length_nil]
        omega
      rw [e4, take_set_succ _ _ _ (by rw [f3]; omega), f4]
      simp

/-- C31 (amended) on the frame `55 AA 01 00 01 F0` fed to the assembler at
start-up. -/
theorem C31_frame_without_inner_F0_delivered_witness :
    (cameraFeed cameraIdle ack_frame.dropLast).2 = []
    ∧ ∃ pkt, cameraFeed cameraIdle ack_frame = (cameraIdle, [⟨pkt, ack_frame.length⟩])
        ∧ pkt.take ack_frame.length = ack_frame :=
  C31_frame_without_inner_F0_delivered cameraIdle ack_frame rfl rfl (by decide) (by decide)
    (by decide)

/-! ## Binary search: basic facts -/

/-- The loop of the binary search ends within `fuel` rounds when `fuel` exceeds
the number of indices between `low` and `high`, and `findMappingLoop` returns
what the loop returns. -/
theorem findMappingLoopWithin_some (keys : List Nat) (key : Nat) :
    ∀ (fuel : Nat) (low high : Int), low ≤ high + 1 → high - low + 1 < fuel →
      ∃ r, findMappingLoopWithin keys key fuel low high = some r
        ∧ findMappingLoop keys key fuel low high = r := by
  intro fuel
  induction fuel with
  | zero =>
    intro low high h1 h2
    omega
  | succ n ih =>
    intro low high h1 h2
    unfold findMappingLoopWithin findMappingLoop
    by_cases hlh : low ≤ high
    · simp only [hlh, if_true, shiftRight_one_eq_div]
      by_cases hk : keys.getD ((low + high) / 2).toNat 0 = key
      · simp only [hk, if_true]
        exact ⟨_, rfl, rfl⟩
      · simp only [hk, if_false]
        by_cases hlt : keys.getD ((low + high) / 2).toNat 0 < key
        · simp only [hlt, if_true]
          exact ih _ _ (by omega) (by omega)
        · simp only [hlt, if_false]
          exact ih _ _ (by omega) (by omega)
    · simp only [hlh, if_false]
      exact ⟨_, rfl, rfl⟩

/-- On a table of keys in ascending order, the binary search loop returns an
index of the key when it returns an index, and the key is not in the table when
it returns null; `low .. high` holds every index of the key. -/
theorem findMappingLoop_sorted (keys : List Nat) (key : Nat)
    (hs : ∀ i j : Nat, i ≤ j → j < keys.length → keys.getD i 0 ≤ keys.getD j 0) :
    ∀ (fuel : Nat) (low high : Int), 0 ≤ low → high < keys.length → low ≤ high + 1 →
      high - low + 1 < fuel →
      (∀ i : Nat, i < keys.length → keys.getD i 0 = key → low ≤ i ∧ (i : Int) ≤ high) →
      (∀ i, findMappingLoop keys key fuel low high = some i →
          i < keys.length ∧ keys.getD i 0 = key)
      ∧ (findMappingLoop keys key fuel low high = none →
          ∀ i : Nat, i < keys.length → keys.getD i 0 ≠ key) := by
  intro fuel
  induction fuel with
  | zero =>
    intro low high h0 hh h1 h2
    omega
  | succ n ih =>
    intro low high h0 hh h1 h2 hocc
    unfold findMappingLoop
    by_cases hlh : low ≤ high
    · simp only [hlh, if_true, shiftRight_one_eq_div]
      have hm0 : 0 ≤ (low + high) / 2 := by omega
      have hm1 : low ≤ (low + high) / 2 := by omega
      have hm2 : (low + high) / 2 ≤ high := by omega
      have hmt : (((low + high) / 2).toNat : Int) = (low + high) / 2 := Int.toNat_of_nonneg hm0
      have hml : ((low + high) / 2).toNat < keys.length := by omega
      by_cases hk : keys.getD ((low + high) / 2).toNat 0 = key
      · simp only [hk, if_true]
        refine ⟨?_, ?_⟩
        · intro i hi
          cases hi
          exact ⟨hml, hk⟩
        · intro hn
          cases hn
      · simp only [hk, if_false]
        by_cases hlt : keys.getD ((low + high) / 2).toNat 0 < key
        · simp only [hlt, if_true]
          apply ih _ _ (by omega) hh (by omega) (by omega)
          intro i hi hik
          obtain ⟨o1, o2⟩ := hocc i hi hik
          refine ⟨?_, o2⟩
          by_contra hc
          have hle : i ≤ ((low + high) / 2).toNat := by omega
          have := hs i _ hle hml
          omega
        · simp only [hlt, if_false]
          apply ih _ _ h0 (by omega) (by omega) (by omega)
          intro i hi hik
          obtain ⟨o1, o2⟩ := hocc i hi hik
          refine ⟨o1, ?_⟩
          by_contra hc
          have hle : ((low + high) / 2).toNat ≤ i := by omega
          have := hs _ i hle hi
          omega
    · simp only [hlh, if_false]
      refine ⟨?_, ?_⟩
      · intro i hi
        cases hi
      · intro _ i hi hik
        obtain ⟨o1, o2⟩ := hocc i hi hik
        omega

/-- A list of keys in ascending order, read by index. -/
theorem pairwise_getD (keys : List Nat) (hp : keys.Pairwise (fun a b => a ≤ b)) :
    ∀ i j : Nat, i ≤ j → j < keys.length → keys.getD i 0 ≤ keys.getD j 0 := by
  intro i j hij hj
  rcases Nat.eq_or_lt_of_le hij with h | h
  · subst h
    exact le_refl _
  · have hi : i < keys.length := by omega
    have := (List.pairwise_iff_getElem.1 hp) i j hi hj h
    simpa [List.getD_eq_getElem?_getD, List.getElem?_eq_getElem hi,
      List.getElem?_eq_getElem hj] using this

/-! ## Binary search: the claims -/

/-- C32: for every table of mapping entries in ascending order of `ctrl_key`
(duplicates allowed) and every key, the loop of the binary search ends within
`table.length + 1` rounds; the search returns an entry of the table whose
`ctrl_key` is the key when at least one entry has that key, and null when none
has. -/
theorem C32_binary_search_on_sorted_table (table : List CommandMapping_t) (key : Nat)
    (hsorted : (table.map (fun e => e.ctrl_key)).Pairwise (fun a b => a ≤ b)) :
    (∃ r, findMappingLoopWithin (table.map (fun e => e.ctrl_key)) key (table.length + 1) 0
          ((table.length : Int) - 1) = some r
        ∧ findMappingIn table key = r)
    ∧ ((∃ e ∈ table, e.ctrl_key = key) →
        ∃ i e, findMappingIn table key = some i ∧ table.get? i = some e ∧ e.ctrl_key = key)
    ∧ ((∀ e ∈ table, e.ctrl_key ≠ key) → findMappingIn table key = none) := by
  have hs := pairwise_getD _ hsorted
  have hlen : (table.map (fun e => e.ctrl_key)).length = table.length := by simp
  have hget : ∀ i : Nat, i < table.length → ∃ e, table.get? i = some e
      ∧ (table.map (fun e => e.ctrl_key)).getD i 0 = e.ctrl_key := by
    intro i hi
    refine ⟨table.get ⟨i, hi⟩, List.get?_eq_get hi, ?_⟩
    simp [List.getD_eq_getElem?_getD, List.getElem?_eq_getElem, hi]
  have hspec := findMappingLoop_sorted (table.map (fun e => e.ctrl_key)) key hs
    (table.length + 1) 0 ((table.length : Int) - 1) (le_refl _) (by rw [hlen]; omega)
    (by omega) (by omega)
    (by
      intro i hi _
      rw [hlen] at hi
      omega)
  refine ⟨?_, ?_, ?_⟩
  · exact findMappingLoopWithin_some _ key (table.length + 1) 0 ((table.length : Int) - 1)
      (by omega) (by omega)
  · rintro ⟨e, he, hek⟩
    cases hr : findMappingIn table key with
    | none =>
      exfalso
      obtain ⟨i, hi, hie⟩ := List.getElem_of_mem he
      obtain ⟨e2, h1, h2⟩ := hget i hi
      have h3 : e2 = e := by
        rw [List.get?_eq_get hi] at h1
        simp only [Option.some.injEq] at h1
        rw [← h1, ← hie]
        rfl
      subst h3
      exact hspec.2 hr i (by rw [hlen]; exact hi) (by rw [h2]; exact hek)
    | some i =>
      obtain ⟨hi, hik⟩ := hspec.1 i hr
      rw [hlen] at hi
      obtain ⟨e2, h1, h2⟩ := hget i hi
      exact ⟨i, e2, rfl, h1, by rw [← h2]; exact hik⟩
  · intro hnone
    cases hr : findMappingIn table key with
    | none => rfl
    | some i =>
      exfalso
      obtain ⟨hi, hik⟩ := hspec.1 i hr
      rw [hlen] at hi
      obtain ⟨e2, h1, h2⟩ := hget i hi
      exact hnone e2 (List.get?_mem h1) (by rw [← h2]; exact hik)

/-- C32 on `command_map`, with the key 0x002D, which three entries have, and
the key 0x0017, which no entry has. -/
theorem C32_binary_search_on_sorted_table_witness :
    (∃ r, findMappingLoopWithin (command_map.map (fun e => e.ctrl_key)) 0x2D
          (command_map.length + 1) 0 ((command_map.length : Int) - 1) = some r
        ∧ findMappingIn command_map 0x2D = r)
    ∧ (∃ i e, findMappingIn command_map 0x2D = some i ∧ command_map.get? i = some e
        ∧ e.ctrl_key = 0x2D)
    ∧ findMappingIn command_map 0x17 = none :=
  ⟨(C32_binary_search_on_sorted_table command_map 0x2D (by decide)).1,
   (C32_binary_search_on_sorted_table command_map 0x2D (by decide)).2.1
      ⟨command_map.get ⟨1, by decide⟩, List.get_mem _ _ _, by decide⟩,
   (C32_binary_search_on_sorted_table command_map 0x17 (by decide)).2.2 (by decide)⟩

/-! ## Control frames: basic facts -/

/-- The byte AA arriving within 50 ms after EB at a control buffer that holds
between 1 and 31 bytes completes the frame: the buffer is handed over and
reset. -/
theorem control_put_complete (st : ControlRx) (now : Nat)
    (h1 : 1 ≤ st.control_rx_len) (h32 : st.control_rx_len < 32)
    (hbuf : st.control_rx_buf.length = 32)
    (hgap : elapsedTime now st.last_time ≤ 50)
    (hEB : st.control_rx_buf.getD (st.control_rx_len - 1) 0 = 0xEB) :
    control_rx_put_byte st 0xAA now
      = ({ control_rx_buf := List.replicate 32 0, control_rx_len := 0,
           last_time := now, index := st.index },
          some ⟨st.control_rx_buf.set st.control_rx_len 0xAA, st.control_rx_len + 1⟩) := by
  have hg : ¬ (elapsedTime now st.last_time > 50 ∧ st.control_rx_len > 0) := by omega
  have h0 : ¬ (st.control_rx_len = 0 ∧ ((0xAA : Nat) ≠ 0xAA ∧ (0xAA : Nat) ≠ 0x55)) := by omega
  have g1 : (st.control_rx_buf.set st.control_rx_len 0xAA).getD (st.control_rx_len + 1 - 2) 0
      = 0xEB := by
    rw [show st.control_rx_len + 1 - 2 = st.control_rx_len - 1 by omega,
      getD_set_ne _ _ _ _ (by omega)]
    exact hEB
  have g2 : (st.control_rx_buf.set st.control_rx_len 0xAA).getD (st.control_rx_len + 1 - 1) 0
      = 0xAA := by
    rw [show st.control_rx_len + 1 - 1 = st.control_rx_len by omega,
      getD_set_self _ _ _ (by omega)]
  have h2 : st.control_rx_len + 1 ≥ 2 := by omega
  unfold control_rx_put_byte
  simp only [hg, if_false, h0, CONTROL_RX_BUFFER_SIZE, h32, if_true, g1, g2, h2, and_self,
    reset_control_buffer]

/-- The bytes accumulated in the control buffer are the bytes fed, in order,
after the bytes held before. -/
theorem control_accumulate_buf :
    ∀ (bs : List (Nat × Nat)) (st : ControlRx),
      1 ≤ st.control_rx_len → st.control_rx_buf.length = 32 →
      st.control_rx_len + bs.length ≤ 32 →
      noEndPairFrom (st.control_rx_buf.getD (st.control_rx_len - 1) 0) (bs.map Prod.fst) = true →
      gapsWithin st.last_time (bs.map Prod.snd) = true →
      (controlFeed st bs).1.control_rx_buf.take (st.control_rx_len + bs.length)
        = st.control_rx_buf.take st.control_rx_len ++ bs.map Prod.fst := by
  intro bs
  induction bs with
  | nil =>
    intro st _ _ _ _ _
    simp [controlFeed]
  | cons x rest ih =>
    intro st h1 hbuf hfit hpair hgap
    obtain ⟨b, t⟩ := x
    simp only [List.map_cons, noEndPairFrom, gapsWithin, Bool.and_eq_true, Bool.not_eq_true',
      decide_eq_true_eq] at hpair hgap
    simp only [List.length_cons] at hfit
    have hp : ¬ (st.control_rx_buf.getD (st.control_rx_len - 1) 0 = 0xEB ∧ b = 0xAA) := by
      intro hc
      have h := hpair.1
      rw [hc.1, hc.2] at h
      exact absurd h (by decide)
    have hstore := control_put_store st b t h1 (by omega) hbuf hgap.1 hp
    simp only [controlFeed, hstore, List.length_cons, List.map_cons]
    have i := ih
      { control_rx_buf := st.control_rx_buf.set st.control_rx_len b
        control_rx_len := st.control_rx_len + 1
        last_time := t
        index := st.index }
      (by simp only []; omega) (by simp [hbuf]) (by simp only []; omega)
      (by
        simp only []
        rw [show st.control_rx_len + 1 - 1 = st.control_rx_len by omega,
          getD_set_self _ _ _ (by omega)]
        exact hpair.2)
      (by simp only []; exact hgap.2)
    simp only [] at i
    rw [show st.control_rx_len + (rest.length + 1) = st.control_rx_len + 1 + rest.length by omega,
      i, take_set_succ _ _ _ (by omega)]
    simp

/-- Bytes that are no start byte, fed to the control link in Idle, are dropped:
only the time of the last byte changes. -/
theorem control_feed_garbage :
    ∀ (g : List (Nat × Nat)) (st : ControlRx), st.control_rx_len = 0 →
      (∀ x ∈ g, x.1 ≠ 0xAA ∧ x.1 ≠ 0x55) →
      controlFeed st g = ({ st with last_time := (g.map Prod.snd).getLastD st.last_time }, []) := by
  intro g
  induction g with
  | nil =>
    intro st _ _
    rfl
  | cons x rest ih =>
    intro st hidle hg
    obtain ⟨b, t⟩ := x
    have hb := hg (b, t) (List.mem_cons_self _ _)
    have hig := control_put_ignore st b t hidle hb
    have i := ih { st with last_time := t } hidle
      (fun y hy => hg y (List.mem_cons_of_mem _ hy))
    simp only [controlFeed, hig, i, Option.toList, List.nil_append]
    have hl : (List.map Prod.snd ((b, t) :: rest)).getLastD st.last_time
        = (List.map Prod.snd rest).getLastD t := by
      cases rest with
      | nil => rfl
      | cons y ys => rfl
    rw [hl]

/-- Feeding one byte to the control link. -/
theorem controlFeed_single (st : ControlRx) (b t : Nat) :
    controlFeed st [(b, t)]
      = ((control_rx_put_byte st b t).1, (control_rx_put_byte st b t).2.toList) := by
  simp [controlFeed]

/-- A byte EB appended to a run without `EB AA` completes no `EB AA`. -/
theorem noEndPairFrom_append_EB :
    ∀ (l : List Nat) (p : Nat), noEndPairFrom p l = true →
      noEndPairFrom p (l ++ [0xEB]) = true := by
  intro l
  induction l with
  | nil =>
    intro p _
    simp [noEndPairFrom]
  | cons a rest ih =>
    intro p h
    simp only [noEndPairFrom, Bool.and_eq_true] at h
    show noEndPairFrom p (a :: (rest ++ [0xEB])) = true
    simp only [noEndPairFrom, Bool.and_eq_true]
    exact ⟨h.1, ih a h.2⟩

/-- From Idle, a start byte, a run of bytes that completes no `EB AA` and the
byte EB, each within 50 ms of the byte before, are accumulated as they are,
without any hand-off. -/
theorem control_feed_start (st0 : ControlRx) (b1 t1 : Nat) (mid : List (Nat × Nat)) (tEB : Nat)
    (hidle : st0.control_rx_len = 0) (hbuf : st0.control_rx_buf.length = 32)
    (hstart : b1 = 0xAA ∨ b1 = 0x55) (hlen : mid.length ≤ 29)
    (hpair : noEndPairFrom b1 (mid.map Prod.fst) = true)
    (hgap : gapsWithin t1 (mid.map Prod.snd ++ [tEB]) = true) :
    (controlFeed st0 ((b1, t1) :: (mid ++ [(0xEB, tEB)]))).2 = []
    ∧ (controlFeed st0 ((b1, t1) :: (mid ++ [(0xEB, tEB)]))).1.control_rx_len = mid.length + 2
    ∧ (controlFeed st0 ((b1, t1) :: (mid ++ [(0xEB, tEB)]))).1.control_rx_buf.length = 32
    ∧ (controlFeed st0 ((b1, t1) :: (mid ++ [(0xEB, tEB)]))).1.last_time = tEB
    ∧ (controlFeed st0 ((b1, t1) :: (mid ++ [(0xEB, tEB)]))).1.index = st0.index
    ∧ (controlFeed st0 ((b1, t1) :: (mid ++ [(0xEB, tEB)]))).1.control_rx_buf.take
          (mid.length + 2) = b1 :: (mid.map Prod.fst ++ [0xEB]) := by
  have hs := control_put_start st0 b1 t1 hidle hstart
  have hb0 : (st0.control_rx_buf.set 0 b1).getD (1 - 1) 0 = b1 := by
    rw [show 1 - 1 = 0 by rfl, getD_set_self _ _ _ (by omega)]
  have hmap1 : (mid ++ [(0xEB, tEB)]).map Prod.fst = mid.map Prod.fst ++ [0xEB] := by simp
  have hmap2 : (mid ++ [(0xEB, tEB)]).map Prod.snd = mid.map Prod.snd ++ [tEB] := by simp
  have hp2 : noEndPairFrom ((st0.control_rx_buf.set 0 b1).getD (1 - 1) 0)
      ((mid ++ [(0xEB, tEB)]).map Prod.fst) = true := by
    rw [hb0, hmap1]
    exact noEndPairFrom_append_EB _ _ hpair
  have hg2 : gapsWithin t1 ((mid ++ [(0xEB, tEB)]).map Prod.snd) = true := by
    rw [hmap2]
    exact hgap
  obtain ⟨a1, a2, a3, a4, a5⟩ := control_accumulate (mid ++ [(0xEB, tEB)])
    { control_rx_buf := st0.control_rx_buf.set 0 b1, control_rx_len := 1,
      last_time := t1, index := st0.index }
    (by simp only []; omega) (by simp [hbuf])
    (by simp only [List.length_append, List.length_cons, List.length_nil]; omega) hp2 hg2
  have a6 := control_accumulate_buf (mid ++ [(0xEB, tEB)])
    { control_rx_buf := st0.control_rx_buf.set 0 b1, control_rx_len := 1,
      last_time := t1, index := st0.index }
    (by simp only []; omega) (by simp [hbuf])
    (by simp only [List.length_append, List.length_cons, List.length_nil]; omega) hp2 hg2
  simp only [] at a2 a4 a5 a6
  have hx : controlFeed st0 ((b1, t1) :: (mid ++ [(0xEB, tEB)]))
      = ((controlFeed
          { control_rx_buf := st0.control_rx_buf.set 0 b1, control_rx_len := 1,
            last_time := t1, index := st0.index } (mid ++ [(0xEB, tEB)])).1, []) := by
    simp only [controlFeed, hs, Option.toList, List.nil_append, a1]
  have ht : (st0.control_rx_buf.set 0 b1).take 1 = [b1] := by
    match h : st0.control_rx_buf, hbuf with
    | x :: rest, _ => rfl
  have hl : (mid ++ [(0xEB, tEB)]).length = mid.length + 1 := by simp
  rw [hx]
  refine ⟨rfl, ?_, a3, ?_, a5, ?_⟩
  · simp only []
    rw [a2, hl]
    omega
  · simp only []
    rw [a4, hmap2]
    simp
  · simp only []
    rw [show mid.length + 2 = 1 + (mid ++ [(0xEB, tEB)]).length by rw [hl]; omega, a6, ht, hmap1]
    rfl

/-! ## Control frames: the claims -/

/-- C33: let `g` be bytes none of which is AA or 55, and let the frame be a
start byte AA or 55, then at most 29 bytes that complete no `EB AA`, then
`EB AA`, each byte of the frame arriving at most 50 ms after the byte before
it. Feeding `g` and then the frame to an Idle `control_rx_put_byte` makes no
hand-off before the last byte of the frame and exactly one hand-off on it,
with the length of the frame and the bytes of the frame; the assembler is Idle
afterwards. -/
theorem C33_frame_after_garbage_delivered (st0 : ControlRx) (g : List (Nat × Nat))
    (b1 t1 : Nat) (mid : List (Nat × Nat)) (tEB tAA : Nat)
    (hidle : st0.control_rx_len = 0) (hbuf : st0.control_rx_buf.length = 32)
    (hg : ∀ x ∈ g, x.1 ≠ 0xAA ∧ x.1 ≠ 0x55)
    (hstart : b1 = 0xAA ∨ b1 = 0x55) (hlen : mid.length ≤ 29)
    (hpair : noEndPairFrom b1 (mid.map Prod.fst) = true)
    (hgap : gapsWithin t1 (mid.map Prod.snd ++ [tEB, tAA]) = true) :
    (controlFeed st0 (g ++ ((b1, t1) :: (mid ++ [(0xEB, tEB)])))).2 = []
    ∧ ∃ pkt,
        controlFeed st0 (g ++ ((b1, t1) :: (mid ++ [(0xEB, tEB), (0xAA, tAA)])))
          = ({ control_rx_buf := List.replicate 32 0, control_rx_len := 0,
               last_time := tAA, index := st0.index }, [⟨pkt, mid.length + 3⟩])
        ∧ pkt.take (mid.length + 3) = b1 :: (mid.map Prod.fst ++ [0xEB, 0xAA]) := by
  have hgarb := control_feed_garbage g st0 hidle hg
  have hsplit : gapsWithin t1 (mid.map Prod.snd ++ [tEB]) = true
      ∧ elapsedTime tAA tEB ≤ 50 := by
    have e : mid.map Prod.snd ++ [tEB, tAA] = (mid.map Prod.snd ++ [tEB]) ++ [tAA] := by simp
    rw [e, gapsWithin_append] at hgap
    simp only [Bool.and_eq_true, decide_eq_true_eq] at hgap
    refine ⟨hgap.1, ?_⟩
    have hl : (mid.map Prod.snd ++ [tEB]).getLastD t1 = tEB := by simp
    rw [hl] at hgap
    exact hgap.2
  obtain ⟨f1, f2, f3, f4, f5, f6⟩ := control_feed_start
    { st0 with last_time := (g.map Prod.snd).getLastD st0.last_time } b1 t1 mid tEB
    hidle hbuf hstart hlen hpair hsplit.1
  simp only [] at f5
  refine ⟨?_, ?_⟩
  · rw [controlFeed_append, hgarb]
    simp only [List.nil_append]
    exact f1
  · have hEB : (controlFeed { st0 with last_time := (g.map Prod.snd).getLastD st0.last_time }
        ((b1, t1) :: (mid ++ [(0xEB, tEB)]))).1.control_rx_buf.getD (mid.length + 2 - 1) 0
        = 0xEB := by
      rw [getD_take _ (mid.length + 2 - 1) (mid.length + 2) (by omega), f6]
      have e : b1 :: (mid.map Prod.fst ++ [0xEB]) = (b1 :: mid.map Prod.fst) ++ [0xEB] := by simp
      have e2 : mid.length + 2 - 1 = (b1 :: mid.map Prod.fst).length := by simp
      rw [e, e2, List.getD_eq_getElem?_getD, List.getElem?_append_right (le_refl _)]
      simp
    have hc := control_put_complete
      (controlFeed { st0 with last_time := (g.map Prod.snd).getLastD st0.last_time }
        ((b1, t1) :: (mid ++ [(0xEB, tEB)]))).1 tAA
      (by rw [f2]; omega) (by rw [f2]; omega) f3 (by rw [f4]; exact hsplit.2)
      (by rw [f2]; exact hEB)
    rw [f2, f5] at hc
    refine ⟨(controlFeed { st0 with last_time := (g.map Prod.snd).getLastD st0.last_time }
        ((b1, t1) :: (mid ++ [(0xEB, tEB)]))).1.control_rx_buf.set (mid.length + 2) 0xAA, ?_, ?_⟩
    · have e : (b1, t1) :: (mid ++ [(0xEB, tEB), (0xAA, tAA)])
          = ((b1, t1) :: (mid ++ [(0xEB, tEB)])) ++ [(0xAA, tAA)] := by simp
      rw [controlFeed_append, hgarb, e, controlFeed_append, controlFeed_single, hc, f1]
      rfl
    · rw [show mid.length + 3 = mid.length + 2 + 1 by omega,
        take_set_succ _ _ _ (by rw [f3]; omega), f6]
      simp

/-- C33 with the garbage bytes `00 EB 13` and scenario A's request
`AA 05 00 16 01 00 C6 EB AA`, all at the clock value 0. -/
theorem C33_frame_after_garbage_delivered_witness :
    (controlFeed controlIdle ([(0x00, 0), (0xEB, 0), (0x13, 0)]
        ++ ((0xAA, 0) :: ([(0x05, 0), (0x00, 0), (0x16, 0), (0x01, 0), (0x00, 0), (0xC6, 0)]
          ++ [(0xEB, 0)])))).2 = []
    ∧ ∃ pkt,
        controlFeed controlIdle ([(0x00, 0), (0xEB, 0), (0x13, 0)]
          ++ ((0xAA, 0) :: ([(0x05, 0), (0x00, 0), (0x16, 0), (0x01, 0), (0x00, 0), (0xC6, 0)]
            ++ [(0xEB, 0), (0xAA, 0)])))
          = ({ control_rx_buf := List.replicate 32 0, control_rx_len := 0,
               last_time := 0, index := controlIdle.index },
              [⟨pkt, [(0x05, 0), (0x00, 0), (0x16, 0), (0x01, 0), (0x00, 0), (0xC6, 0)].length + 3⟩])
        ∧ pkt.take ([(0x05, 0), (0x00, 0), (0x16, 0), (0x01, 0), (0x00, 0), (0xC6, 0)].length + 3)
            = 0xAA :: ([(0x05, 0), (0x00, 0), (0x16, 0), (0x01, 0), (0x00, 0), (0xC6, 0)].map
                Prod.fst ++ [0xEB, 0xAA]) :=
  C33_frame_after_garbage_delivered controlIdle [(0x00, 0), (0xEB, 0), (0x13, 0)] 0xAA 0
    [(0x05, 0), (0x00, 0), (0x16, 0), (0x01, 0), (0x00, 0), (0xC6, 0)] 0 0
    rfl rfl (by decide) (Or.inl rfl) (by decide) (by decide) (by decide)

/-! ## Expiry of pending requests: basic facts -/

/-- The loop of `CommandHandler_CheckTimeouts` ends within `count + 1` rounds.
It removes `k` entries, all of them expired and taken from the tail, adds `k`
to the counter, and stops at an empty tracker or at an entry that has not
expired. -/
theorem checkTimeoutsLoop_spec (now : Nat) :
    ∀ (fuel : Nat) (rb : cmdRingBuffer_t) (removed : Nat),
      rb.count < fuel → removed + rb.count < 256 →
      ∃ k rb1, checkTimeoutsLoop now fuel rb removed = some (removed + k, rb1)
        ∧ rb1.count + k = rb.count
        ∧ rb1.buffer = rb.buffer
        ∧ rb1.head = rb.head
        ∧ rb1.tail = tailAfterRemovals k rb.tail
        ∧ (∀ j, j < k →
            COMMAND_TIMEOUT_MS
              ≤ elapsedTime now (rb.buffer.getD (tailAfterRemovals j rb.tail) zeroBlock).timestamp)
        ∧ (rb1.count = 0
            ∨ elapsedTime now (rb1.buffer.getD rb1.tail zeroBlock).timestamp
                < COMMAND_TIMEOUT_MS) := by
  intro fuel
  induction fuel with
  | zero =>
    intro rb removed h _
    omega
  | succ n ih =>
    intro rb removed hf hr
    by_cases hc : rb.count > 0
    · by_cases he : elapsedTime now (rb.buffer.getD rb.tail zeroBlock).timestamp
          ≥ COMMAND_TIMEOUT_MS
      · have hrem : CmdRingBuffer_RemoveIfTimeout rb COMMAND_TIMEOUT_MS now
            = (true,
                { buffer := rb.buffer
                  head := rb.head
                  tail := ((rb.tail + 1) % 4294967296) % CMD_BUFFER_SIZE
                  count := rb.count - 1 }) := by
          unfold CmdRingBuffer_RemoveIfTimeout
          simp only [hc, if_true, he]
        obtain ⟨k, rb1, i1, i2, i3, i4, i5, i6, i7⟩ := ih
          { buffer := rb.buffer
            head := rb.head
            tail := ((rb.tail + 1) % 4294967296) % CMD_BUFFER_SIZE
            count := rb.count - 1 } ((removed + 1) % 256)
          (by simp only []; omega) (by simp only []; omega)
        simp only [] at i2 i3 i4 i5 i6
        refine ⟨k + 1, rb1, ?_, by omega, i3, i4, ?_, ?_, i7⟩
        · unfold checkTimeoutsLoop
          simp only [hrem, if_true]
          rw [i1]
          have e : (removed + 1) % 256 + k = removed + (k + 1) := by omega
          rw [e]
        · rw [i5]
          rfl
        · intro j hj
          cases j with
          | zero => exact he
          | succ j1 => exact i6 j1 (by omega)
      · have hrem : CmdRingBuffer_RemoveIfTimeout rb COMMAND_TIMEOUT_MS now = (false, rb) := by
          unfold CmdRingBuffer_RemoveIfTimeout
          simp only [hc, if_true, he, if_false]
        refine ⟨0, rb, ?_, rfl, rfl, rfl, rfl, ?_, Or.inr (by omega)⟩
        · unfold checkTimeoutsLoop
          simp only [hrem, Bool.false_eq_true, if_false, Nat.add_zero]
        · intro j hj
          omega
    · have hrem : CmdRingBuffer_RemoveIfTimeout rb COMMAND_TIMEOUT_MS now = (false, rb) := by
        unfold CmdRingBuffer_RemoveIfTimeout
        simp only [hc, if_false]
      refine ⟨0, rb, ?_, rfl, rfl, rfl, rfl, ?_, Or.inl (by omega)⟩
      · unfold checkTimeoutsLoop
        simp only [hrem, Bool.false_eq_true, if_false, Nat.add_zero]
      · intro j hj
        omega

/-! ## Expiry of pending requests: the slot at the tail -/

/-- What `CommandHandler_CheckTimeouts` does with the slots that the tail names:
for every tracker state that holds at most 16 entries and every clock value,
the loop ends within `count + 1` calls of `CmdRingBuffer_RemoveIfTimeout`. The
value returned is the number of removals, at most 16; the slots given up are
the ones the tail names in turn, each stamped 1000 ms or more before `now`; the
stored entries, the head and the lookup table are left as they were; on return
the tracker is empty or the slot at the tail is stamped less than
`COMMAND_TIMEOUT_MS` before `now`. Whether the slot at the tail holds the
oldest pending request is a matter of the calls made before. -/
theorem checkTimeouts_at_tail (st : HandlerState) (now : Nat)
    (hcount : st.g_pending_commands.count ≤ CMD_BUFFER_SIZE) :
    ∃ removed st1, CommandHandler_CheckTimeouts st now = some (removed, st1)
      ∧ removed ≤ 16
      ∧ st1.g_pending_commands.count + removed = st.g_pending_commands.count
      ∧ st1.g_pending_commands.buffer = st.g_pending_commands.buffer
      ∧ st1.g_pending_commands.head = st.g_pending_commands.head
      ∧ st1.g_pending_commands.tail = tailAfterRemovals removed st.g_pending_commands.tail
      ∧ st1.g_cmd_lookup_table = st.g_cmd_lookup_table
      ∧ (∀ j, j < removed →
          1000 ≤ elapsedTime now
            (st.g_pending_commands.buffer.getD
              (tailAfterRemovals j st.g_pending_commands.tail) zeroBlock).timestamp)
      ∧ (st1.g_pending_commands.count = 0
          ∨ elapsedTime now
              (st1.g_pending_commands.buffer.getD st1.g_pending_commands.tail zeroBlock).timestamp
              < COMMAND_TIMEOUT_MS) := by
  simp only [CMD_BUFFER_SIZE] at hcount
  obtain ⟨k, rb1, i1, i2, i3, i4, i5, i6, i7⟩ := checkTimeoutsLoop_spec now
    (st.g_pending_commands.count + 1) st.g_pending_commands 0 (by omega) (by omega)
  refine ⟨k, { st with g_pending_commands := rb1 }, ?_, by omega, i2, i3, i4, i5, rfl, i6, i7⟩
  unfold CommandHandler_CheckTimeouts
  rw [i1]
  simp only [Nat.zero_add]

/-- The loop on the tracker that holds scenario A's request, pushed at the
clock value 4294967000, at the clock value 704: the age is 1000 ms across the
wrap of the clock. -/
theorem checkTimeouts_at_tail_example :
    ∃ removed st1,
      CommandHandler_CheckTimeouts ⟨oneEntryTracker, CommandHandler_BuildLookup⟩ 704
        = some (removed, st1)
      ∧ removed ≤ 16
      ∧ st1.g_pending_commands.count + removed = oneEntryTracker.count
      ∧ st1.g_pending_commands.buffer = oneEntryTracker.buffer
      ∧ st1.g_pending_commands.head = oneEntryTracker.head
      ∧ st1.g_pending_commands.tail = tailAfterRemovals removed oneEntryTracker.tail
      ∧ st1.g_cmd_lookup_table = CommandHandler_BuildLookup
      ∧ (∀ j, j < removed →
          1000 ≤ elapsedTime 704
            (oneEntryTracker.buffer.getD (tailAfterRemovals j oneEntryTracker.tail)
              zeroBlock).timestamp)
      ∧ (st1.g_pending_commands.count = 0
          ∨ elapsedTime 704
              (st1.g_pending_commands.buffer.getD st1.g_pending_commands.tail zeroBlock).timestamp
              < COMMAND_TIMEOUT_MS) :=
  checkTimeouts_at_tail ⟨oneEntryTracker, CommandHandler_BuildLookup⟩ 704 (by decide)

/-! ## Generic translator: basic facts -/

/-- The constant loop writes `n` copies of `v` from `idx` on when the index
does not wrap and the buffer holds them. -/
theorem writeRepeated_spec (v : Nat) :
    ∀ (n : Nat) (buf : List Nat) (idx : Nat), idx + n ≤ 255 → idx + n ≤ buf.length →
      (writeRepeated v n buf idx).2 = idx + n
      ∧ (writeRepeated v n buf idx).1.length = buf.length
      ∧ (writeRepeated v n buf idx).1.take (idx + n) = buf.take idx ++ List.replicate n v := by
  intro n
  induction n with
  | zero =>
    intro buf idx _ _
    simp [writeRepeated]
  | succ m ih =>
    intro buf idx h1 h2
    have e : (idx + 1) % 256 = idx + 1 := by omega
    obtain ⟨i1, i2, i3⟩ := ih (buf.set idx v) (idx + 1) (by omega) (by simp; omega)
    simp only [writeRepeated, e]
    refine ⟨by rw [i1]; omega, by rw [i2]; simp, ?_⟩
    rw [show idx + (m + 1) = idx + 1 + m by omega, i3, take_set_succ _ _ _ (by omega)]
    simp [List.replicate_succ]

/-- The copy writes the `n` source bytes from `idx` on when the buffer holds
them. -/
theorem memcpyInto_spec (buf : List Nat) (idx : Nat) (src : List Nat) (off : Nat) :
    ∀ n : Nat, idx + n ≤ buf.length →
      (memcpyInto buf idx src off n).length = buf.length
      ∧ (memcpyInto buf idx src off n).take (idx + n)
          = buf.take idx ++ (List.range n).map (fun i => src.getD (off + i) 0) := by
  intro n
  induction n with
  | zero =>
    intro _
    simp [memcpyInto]
  | succ m ih =>
    intro h
    obtain ⟨i1, i2⟩ := ih (by omega)
    simp only [memcpyInto]
    refine ⟨by simp [i1], ?_⟩
    rw [show idx + (m + 1) = idx + m + 1 by omega, take_set_succ _ _ _ (by rw [i1]; omega), i2,
      List.range_succ, List.map_append]
    simp

/-- A step that does not end the function appends its payload at `idx`. -/
theorem applyStep_spec (scale8 : Nat → Nat → Nat → Nat) (ctrl : List Nat) (ctrl_len : Nat)
    (step : payload_step_t) (buf : List Nat) (idx : Nat) (r : List Nat × Nat)
    (h : applyStep scale8 ctrl ctrl_len step buf idx = some r)
    (h1 : idx + (stepPayload scale8 ctrl step).length ≤ 255)
    (h2 : idx + (stepPayload scale8 ctrl step).length ≤ buf.length) :
    r.2 = idx + (stepPayload scale8 ctrl step).length
    ∧ r.1.length = buf.length
    ∧ r.1.take r.2 = buf.take idx ++ stepPayload scale8 ctrl step := by
  unfold applyStep at h
  unfold stepPayload at h1 h2 ⊢
  cases ha : step.action <;> simp only [ha] at h h1 h2 ⊢
  · simp only [Option.some.injEq] at h
    subst h
    simp
  · simp only [Option.some.injEq] at h
    subst h
    simp only [List.length_replicate] at h1 h2 ⊢
    obtain ⟨i1, i2, i3⟩ := writeRepeated_spec step.const_value step.length buf idx h1 h2
    exact ⟨i1, i2, by rw [i1]; exact i3⟩
  · split_ifs at h with hg
    simp only [Option.some.injEq] at h
    subst h
    simp only [List.length_map, List.length_range] at h1 h2 ⊢
    obtain ⟨i1, i2⟩ := memcpyInto_spec buf idx ctrl step.src_offset step.length h2
    have e : (idx + step.length) % 256 = idx + step.length := by omega
    exact ⟨e, i1, by rw [e]; exact i2⟩
  · split_ifs at h with hg
    simp only [Option.some.injEq] at h
    subst h
    simp only [List.length_replicate] at h1 h2 ⊢
    obtain ⟨i1, i2, i3⟩ := writeRepeated_spec
      (scale8 (ctrl.getD step.src_offset 0) step.scale_mul step.scale_div) step.length buf idx
      h1 h2
    exact ⟨i1, i2, by rw [i1]; exact i3⟩
  · split_ifs at h with hg hl
    simp only [Option.some.injEq] at h
    subst h
    simp only [List.length_replicate] at h1 h2 ⊢
    obtain ⟨i1, i2, i3⟩ := writeRepeated_spec
      (step.lookup.getD (ctrl.getD step.src_offset 0) 0) step.length buf idx h1 h2
    exact ⟨i1, i2, by rw [i1]; exact i3⟩
  · cases h

/-- Steps that do not end the function append their payloads in order. -/
theorem applySteps_spec (scale8 : Nat → Nat → Nat → Nat) (ctrl : List Nat) (ctrl_len : Nat) :
    ∀ (steps : List payload_step_t) (buf : List Nat) (idx : Nat) (r : List Nat × Nat),
      applySteps scale8 ctrl ctrl_len steps buf idx = some r →
      idx + (emittedPayload scale8 ctrl steps).length ≤ 255 →
      idx + (emittedPayload scale8 ctrl steps).length ≤ buf.length →
      r.2 = idx + (emittedPayload scale8 ctrl steps).length
      ∧ r.1.length = buf.length
      ∧ r.1.take r.2 = buf.take idx ++ emittedPayload scale8 ctrl steps := by
  intro steps
  induction steps with
  | nil =>
    intro buf idx r h _ _
    simp only [applySteps, Option.some.injEq] at h
    subst h
    simp [emittedPayload]
  | cons step rest ih =>
    intro buf idx r h h1 h2
    simp only [emittedPayload, List.length_append] at h1 h2 ⊢
    simp only [applySteps] at h
    cases hs : applyStep scale8 ctrl ctrl_len step buf idx with
    | none => simp [hs] at h
    | some r1 =>
      simp only [hs] at h
      obtain ⟨s1, s2, s3⟩ := applyStep_spec scale8 ctrl ctrl_len step buf idx r1 hs
        (by omega) (by omega)
      obtain ⟨i1, i2, i3⟩ := ih r1.1 r1.2 r h (by rw [s1]; omega) (by rw [s1, s2]; omega)
      refine ⟨by rw [i1, s1]; omega, by rw [i2, s2], ?_⟩
      rw [i3, s3, List.append_assoc]

/-- A COPY step that reads past the end of the control packet ends the loop
over the steps with the function returning false. -/
theorem applySteps_copy_past_end (scale8 : Nat → Nat → Nat → Nat) (ctrl : List Nat)
    (ctrl_len : Nat) :
    ∀ (steps : List payload_step_t) (buf : List Nat) (idx : Nat),
      (∃ step ∈ steps, step.action = PayloadAction_t.PAYACT_COPY
        ∧ step.src_offset + step.length > ctrl_len) →
      applySteps scale8 ctrl ctrl_len steps buf idx = none := by
  intro steps
  induction steps with
  | nil =>
    intro buf idx h
    obtain ⟨s, hs, _⟩ := h
    cases hs
  | cons step rest ih =>
    intro buf idx h
    obtain ⟨s, hs, ha, hg⟩ := h
    simp only [applySteps]
    cases hstep : applyStep scale8 ctrl ctrl_len step buf idx with
    | none => rfl
    | some r =>
      simp only []
      rcases List.mem_cons.1 hs with he | hr
      · subst he
        unfold applyStep at hstep
        simp only [ha, hg, if_true] at hstep
        cases hstep
      · exact ih r.1 r.2 ⟨s, hr, ha, hg⟩

/-- `VerifyCamPacket` reads the first `len` bytes only. -/
theorem VerifyCamPacket_take (pkt : List Nat) (len : Nat) :
    VerifyCamPacket (pkt.take len) len = VerifyCamPacket pkt len := by
  have hc : CalculateCamChecksum (pkt.take len) len = CalculateCamChecksum pkt len := by
    unfold CalculateCamChecksum
    split_ifs with h4
    · rfl
    · apply List.foldl_ext
      intro a k hk
      have hlt : k < len - 2 - 2 := List.mem_range.1 hk
      rw [← getD_take pkt (2 + k) len (by omega)]
  by_cases h6 : len < 6
  · unfold VerifyCamPacket
    simp only [h6, if_true]
  · have e : VerifyCamPacket (pkt.take len) len = true ↔ VerifyCamPacket pkt len = true := by
      rw [verifyCam_iff, verifyCam_iff, hc, ← getD_take pkt 0 len (by omega),
        ← getD_take pkt 1 len (by omega), ← getD_take pkt (len - 1) len (by omega),
        ← getD_take pkt (len - 2) len (by omega)]
    cases h1 : VerifyCamPacket (pkt.take len) len <;> cases h2 : VerifyCamPacket pkt len
    · rfl
    · rw [h1, h2] at e
      exact absurd (e.2 rfl) (by decide)
    · rw [h1, h2] at e
      exact absurd (e.1 rfl) (by decide)
    · rfl

/-- The buffer after `write_cam_header`. -/
theorem write_cam_header_spec (buf : List Nat) (b1 b2 b3 : Nat) (h : 6 ≤ buf.length) :
    (write_cam_header buf b1 b2 b3).2 = 6
    ∧ (write_cam_header buf b1 b2 b3).1.length = buf.length
    ∧ (write_cam_header buf b1 b2 b3).1.take 6 = [0x55, 0xAA, 0x00, b1, b2, b3] := by
  refine ⟨rfl, by simp [write_cam_header], ?_⟩
  match buf, h with
  | x0 :: x1 :: x2 :: x3 :: x4 :: x5 :: rest, _ => rfl

/-- What `GenericTranslator_FromMetadata` returns when its steps emit at most
247 payload bytes and the buffer of the caller holds the frame. -/
theorem GenericTranslator_frame (scale8 : Nat → Nat → Nat → Nat) (md : CommandMetadata_t)
    (ctrl : List Nat) (ctrl_len : Nat) (cam_packet : List Nat) (r : List Nat × Nat)
    (h : GenericTranslator_FromMetadata scale8 md ctrl ctrl_len cam_packet = some r)
    (hpay : (emittedPayload scale8 ctrl (md.steps.take md.step_count)).length ≤ 247)
    (hcap : (emittedPayload scale8 ctrl (md.steps.take md.step_count)).length + 8
      ≤ cam_packet.length) :
    r.2 = (emittedPayload scale8 ctrl (md.steps.take md.step_count)).length + 8
    ∧ r.1.take r.2
        = ([0x55, 0xAA, (emittedPayload scale8 ctrl (md.steps.take md.step_count)).length + 4,
              md.cam_b1, md.cam_b2, md.cam_b3]
            ++ emittedPayload scale8 ctrl (md.steps.take md.step_count))
          ++ [xorFromIndex2
                ([0x55, 0xAA, (emittedPayload scale8 ctrl (md.steps.take md.step_count)).length + 4,
                    md.cam_b1, md.cam_b2, md.cam_b3]
                  ++ emittedPayload scale8 ctrl (md.steps.take md.step_count)),
              CAM_PKT_END] := by
  obtain ⟨w1, w2, w3⟩ := write_cam_header_spec cam_packet md.cam_b1 md.cam_b2 md.cam_b3
    (by omega)
  unfold GenericTranslator_FromMetadata at h
  simp only [] at h
  cases hs : applySteps scale8 ctrl ctrl_len (md.steps.take md.step_count)
      (write_cam_header cam_packet md.cam_b1 md.cam_b2 md.cam_b3).1
      (write_cam_header cam_packet md.cam_b1 md.cam_b2 md.cam_b3).2 with
  | none => simp [hs] at h
  | some q =>
    obtain ⟨buf, idx⟩ := q
    obtain ⟨a1, a2, a3⟩ := applySteps_spec scale8 ctrl ctrl_len _ _ _ _ hs
      (by rw [w1]; omega) (by rw [w1, w2]; omega)
    simp only [] at a1 a2 a3
    rw [w1] at a1 a3
    rw [w2] at a2
    rw [w3] at a3
    simp only [hs] at h
    generalize hP : emittedPayload scale8 ctrl (md.steps.take md.step_count) = P at *
    have hidx : ¬ idx < 3 := by omega
    have e1 : (idx - 2) % 256 = P.length + 4 := by omega
    have e2 : (idx + 1) % 256 = idx + 1 := by omega
    have e3 : (idx + 1 + 1) % 256 = P.length + 8 := by omega
    simp only [hidx, if_false, e1, e2, e3, Option.some.injEq] at h
    have hw : (buf.set 2 (P.length + 4)).take idx
        = [0x55, 0xAA, P.length + 4, md.cam_b1, md.cam_b2, md.cam_b3] ++ P := by
      rw [List.set_take, a3]
      rfl
    have hx : (List.range (idx - 2)).foldl
          (fun xorv k => (xorv ^^^ (buf.set 2 (P.length + 4)).getD (2 + k) 0) % 256) 0
        = xorFromIndex2 ([0x55, 0xAA, P.length + 4, md.cam_b1, md.cam_b2, md.cam_b3] ++ P) := by
      unfold xorFromIndex2
      rw [← hw]
      have hl : ((buf.set 2 (P.length + 4)).take idx).length = idx := by
        simp
        omega
      rw [hl]
      apply List.foldl_ext
      intro a k hk
      have hlt : k < idx - 2 := List.mem_range.1 hk
      rw [← getD_take _ (2 + k) idx (by omega)]
    rw [hx] at h
    subst h
    refine ⟨rfl, ?_⟩
    simp only []
    rw [show P.length + 8 = idx + 1 + 1 by omega,
      take_set_succ _ _ _ (by simp; omega), take_set_succ _ _ _ (by simp; omega), hw]
    simp

/-! ## Generic translator: the claims -/

/-- C35: when the steps of a metadata record emit at most 247 payload bytes and
the buffer of the caller holds the frame, a call of
`GenericTranslator_FromMetadata` that returns true has written `55 AA LEN B1 B2
B3`, the emitted payload, the XOR that the `uint8_t` loop computes over the
bytes from index 2 through the last payload byte, and F0; `LEN` is the payload
length plus 4, the length stored is the payload length plus 8, and
`VerifyCamPacket` accepts the output. Whatever the payload, the function
returns false when one of the steps it visits is a COPY step with
`src_offset + length > ctrl_len`. -/
theorem C35_generic_translator (scale8 : Nat → Nat → Nat → Nat) (md : CommandMetadata_t)
    (ctrl : List Nat) (ctrl_len : Nat) (cam_packet : List Nat) :
    (∀ out cam_len,
      (emittedPayload scale8 ctrl (md.steps.take md.step_count)).length ≤ 247 →
      (emittedPayload scale8 ctrl (md.steps.take md.step_count)).length + 8 ≤ cam_packet.length →
      GenericTranslator_FromMetadata scale8 md ctrl ctrl_len cam_packet = some (out, cam_len) →
      cam_len = (emittedPayload scale8 ctrl (md.steps.take md.step_count)).length + 8
      ∧ out.take cam_len
          = ([0x55, 0xAA, (emittedPayload scale8 ctrl (md.steps.take md.step_count)).length + 4,
                md.cam_b1, md.cam_b2, md.cam_b3]
              ++ emittedPayload scale8 ctrl (md.steps.take md.step_count))
            ++ [xorFromIndex2
                  ([0x55, 0xAA,
                      (emittedPayload scale8 ctrl (md.steps.take md.step_count)).length + 4,
                      md.cam_b1, md.cam_b2, md.cam_b3]
                    ++ emittedPayload scale8 ctrl (md.steps.take md.step_count)),
                0xF0]
      ∧ VerifyCamPacket out cam_len = true)
    ∧ ((∃ step ∈ md.steps.take md.step_count, step.action = PayloadAction_t.PAYACT_COPY
          ∧ step.src_offset + step.length > ctrl_len) →
        GenericTranslator_FromMetadata scale8 md ctrl ctrl_len cam_packet = none) := by
  constructor
  · intro out cam_len hpay hcap h
    obtain ⟨f1, f2⟩ := GenericTranslator_frame scale8 md ctrl ctrl_len cam_packet (out, cam_len)
      h hpay hcap
    simp only [] at f1 f2
    refine ⟨f1, f2, ?_⟩
    rw [← VerifyCamPacket_take, f2]
    have hv := verifyCam_of_built
      ([0x55, 0xAA, (emittedPayload scale8 ctrl (md.steps.take md.step_count)).length + 4,
          md.cam_b1, md.cam_b2, md.cam_b3]
        ++ emittedPayload scale8 ctrl (md.steps.take md.step_count))
      (by simp) rfl rfl
    have hl : (([0x55, 0xAA,
          (emittedPayload scale8 ctrl (md.steps.take md.step_count)).length + 4,
          md.cam_b1, md.cam_b2, md.cam_b3]
        ++ emittedPayload scale8 ctrl (md.steps.take md.step_count))
        ++ [xorFromIndex2
              ([0x55, 0xAA,
                  (emittedPayload scale8 ctrl (md.steps.take md.step_count)).length + 4,
                  md.cam_b1, md.cam_b2, md.cam_b3]
                ++ emittedPayload scale8 ctrl (md.steps.take md.step_count)),
            CAM_PKT_END]).length = cam_len := by
      simp
      omega
    rw [hl] at hv
    exact hv
  · intro hbad
    unfold GenericTranslator_FromMetadata
    simp only [applySteps_copy_past_end scale8 ctrl ctrl_len _ _ _ hbad]

/-- C35 on `exampleMetadata` and scenario A's request with a buffer of 48
bytes, where the frame written is `55 AA 08 02 01 08 00 00 01 00 02 F0`, and on
the same record with a control packet of 5 bytes, which its COPY step reads
past. -/
theorem C35_generic_translator_witness :
    ((12 : Nat)
        = (emittedPayload (fun v _ _ => v) scenarioA_request
            (exampleMetadata.steps.take exampleMetadata.step_count)).length + 8
      ∧ ([0x55, 0xAA, 0x08, 0x02, 0x01, 0x08, 0x00, 0x00, 0x01, 0x00, 0x02, 0xF0]
            ++ List.replicate 36 0).take 12
          = ([0x55, 0xAA,
                (emittedPayload (fun v _ _ => v) scenarioA_request
                  (exampleMetadata.steps.take exampleMetadata.step_count)).length + 4,
                exampleMetadata.cam_b1, exampleMetadata.cam_b2, exampleMetadata.cam_b3]
              ++ emittedPayload (fun v _ _ => v) scenarioA_request
                  (exampleMetadata.steps.take exampleMetadata.step_count))
            ++ [xorFromIndex2
                  ([0x55, 0xAA,
                      (emittedPayload (fun v _ _ => v) scenarioA_request
                        (exampleMetadata.steps.take exampleMetadata.step_count)).length + 4,
                      exampleMetadata.cam_b1, exampleMetadata.cam_b2, exampleMetadata.cam_b3]
                    ++ emittedPayload (fun v _ _ => v) scenarioA_request
                        (exampleMetadata.steps.take exampleMetadata.step_count)),
                0xF0]
      ∧ VerifyCamPacket
          ([0x55, 0xAA, 0x08, 0x02, 0x01, 0x08, 0x00, 0x00, 0x01, 0x00, 0x02, 0xF0]
            ++ List.replicate 36 0) 12 = true)
    ∧ GenericTranslator_FromMetadata (fun v _ _ => v) exampleMetadata scenarioA_request 5
        (List.replicate 48 0) = none :=
  ⟨(C35_generic_translator (fun v _ _ => v) exampleMetadata scenarioA_request 9
        (List.replicate 48 0)).1
      ([0x55, 0xAA, 0x08, 0x02, 0x01, 0x08, 0x00, 0x00, 0x01, 0x00, 0x02, 0xF0]
        ++ List.replicate 36 0) 12 (by decide) (by decide) (by decide),
   (C35_generic_translator (fun v _ _ => v) exampleMetadata scenarioA_request 5
      (List.replicate 48 0)).2
      ⟨exampleMetadata.steps.get ⟨1, by decide⟩, by decide, by decide, by decide⟩⟩

/-! ## Rejected frames and the pending tracker: basic facts -/

/-- A control packet that `VerifyCtrlPacket` rejects, or whose key is not in
`command_map`, leaves the handler state as it was. -/
theorem translate_not_valid_state (st : HandlerState) (pkt : List Nat) (len tick : Nat)
    (h : ¬ (VerifyCtrlPacket pkt len = true
      ∧ MAKE_CTRL_KEY (pkt.getD 2 0) (pkt.getD 3 0) ∈ command_map.map (fun e => e.ctrl_key))) :
    (CommandHandler_TranslateCtrlToCam st pkt len tick).2.2 = st := by
  by_cases h8 : len < 8
  · unfold CommandHandler_TranslateCtrlToCam
    simp only [h8, if_true]
  · by_cases hv : VerifyCtrlPacket pkt len = true
    · have hk : MAKE_CTRL_KEY (pkt.getD 2 0) (pkt.getD 3 0)
          ∉ command_map.map (fun e => e.ctrl_key) := fun hk => h ⟨hv, hk⟩
      rw [mem_command_map_keys] at hk
      have hnone : FindMappingByCtrlKey (MAKE_CTRL_KEY (pkt.getD 2 0) (pkt.getD 3 0)) = none := by
        rw [FindMappingByCtrlKey_eq]
        rw [if_neg (fun h => hk (Or.inr h)), if_neg (fun h => hk (Or.inl h))]
      unfold CommandHandler_TranslateCtrlToCam
      simp only [h8, show ¬ len < 5 by omega, hv, if_false, Bool.not_true, hnone,
        Bool.false_eq_true]
    · have hf : VerifyCtrlPacket pkt len = false := by simpa using hv
      unfold CommandHandler_TranslateCtrlToCam
      simp only [h8, hf, if_false, Bool.not_false, if_true]

/-- Reading back the entry written at the head of the tracker. -/
theorem getD_set_block (l : List cmdBlock_t) (n : Nat) (b : cmdBlock_t) (h : n < l.length) :
    (l.set n b).getD n zeroBlock = b := by
  simp [List.getD_eq_getElem?_getD, List.getElem?_set_self, h]

/-- The first `req_len` bytes of the stored request are the bytes pushed. -/
theorem copyRequest_getD (req : List Nat) (req_len i : Nat) (hi : i < req_len)
    (hl : req_len ≤ 32) :
    (copyRequest req req_len).getD i 0 = req.getD i 0 := by
  unfold copyRequest
  have h32 : i < 32 := by omega
  simp [List.getD_eq_getElem?_getD, CMD_MAX_LENGTH, List.getElem?_range, h32, hi]

/-! ## Rejected frames and the pending tracker: the claims -/

/-- C36: a call of `CommandHandler_TranslateCtrlToCam` with any result other
than Ok, and a call of `CommandHandler_ProcessCamResponse` with the result
ChecksumError or InvalidPacket, leave the handler state, and with it the head,
tail, count and entries of the tracker, as they were. A call of
`CommandHandler_TranslateCtrlToCam` with the result Ok raises the count by one,
advances the head, leaves the tail, and the entry written at the old head holds
the bytes of the request, its length and the mapping entry found for its key. -/
theorem C36_rejected_frames_leave_tracker (st : HandlerState) (pkt : List Nat)
    (len tick : Nat) (cam : List Nat) (cam_len : Nat) :
    ((CommandHandler_TranslateCtrlToCam st pkt len tick).1
        ≠ TranslationResult_t.TRANSLATION_OK →
      (CommandHandler_TranslateCtrlToCam st pkt len tick).2.2 = st)
    ∧ (((CommandHandler_ProcessCamResponse st cam cam_len).1
          = TranslationResult_t.TRANSLATION_CHECKSUM_ERROR
        ∨ (CommandHandler_ProcessCamResponse st cam cam_len).1
          = TranslationResult_t.TRANSLATION_INVALID_PACKET) →
      (CommandHandler_ProcessCamResponse st cam cam_len).2.2 = st)
    ∧ ((CommandHandler_TranslateCtrlToCam st pkt len tick).1
        = TranslationResult_t.TRANSLATION_OK →
      st.g_pending_commands.head < st.g_pending_commands.buffer.length →
      (CommandHandler_TranslateCtrlToCam st pkt len tick).2.2.g_pending_commands.count
        = st.g_pending_commands.count + 1
      ∧ (CommandHandler_TranslateCtrlToCam st pkt len tick).2.2.g_pending_commands.head
        = (st.g_pending_commands.head + 1) % 16
      ∧ (CommandHandler_TranslateCtrlToCam st pkt len tick).2.2.g_pending_commands.tail
        = st.g_pending_commands.tail
      ∧ (∀ i, i < len →
          (((CommandHandler_TranslateCtrlToCam st pkt len tick).2.2.g_pending_commands.buffer.getD
            st.g_pending_commands.head zeroBlock).original_request).getD i 0 = pkt.getD i 0)
      ∧ ((CommandHandler_TranslateCtrlToCam st pkt len tick).2.2.g_pending_commands.buffer.getD
            st.g_pending_commands.head zeroBlock).request_lenth = len
      ∧ (∃ mi, FindMappingByCtrlKey (MAKE_CTRL_KEY (pkt.getD 2 0) (pkt.getD 3 0)) = some mi
          ∧ ((CommandHandler_TranslateCtrlToCam st pkt len
              tick).2.2.g_pending_commands.buffer.getD
                st.g_pending_commands.head zeroBlock).mapping = some mi)) := by
  refine ⟨?_, ?_, ?_⟩
  · intro hne
    by_cases hvk : VerifyCtrlPacket pkt len = true
        ∧ MAKE_CTRL_KEY (pkt.getD 2 0) (pkt.getD 3 0) ∈ command_map.map (fun e => e.ctrl_key)
    · obtain ⟨mi, _, heq⟩ := translate_of_valid st pkt len tick hvk.1 hvk.2
      obtain ⟨_, p2, _⟩ := pushComplete_spec st.g_pending_commands 0 pkt len
        queryBitEnum.QUERY_NONE mi tick
      rw [heq] at hne ⊢
      cases hp : (CmdRingBuffer_PushComplete st.g_pending_commands 0 (some pkt) len
          queryBitEnum.QUERY_NONE (some mi) tick).1 with
      | true =>
        rw [hp] at hne
        exact absurd rfl hne
      | false =>
        simp only []
        rw [p2 hp]
    · exact translate_not_valid_state st pkt len tick hvk
  · intro hres
    by_cases hv : VerifyCamPacket cam cam_len = true
    · by_cases hc : st.g_pending_commands.count = 0
      · have hpop : CmdRingBuffer_Pop st.g_pending_commands = (none, st.g_pending_commands) := by
          unfold CmdRingBuffer_Pop
          simp only [hc, gt_iff_lt, Nat.lt_irrefl, if_false]
        unfold CommandHandler_ProcessCamResponse
        simp only [hv, Bool.not_true, Bool.false_eq_true, if_false, hpop]
      · exfalso
        have hpop : CmdRingBuffer_Pop st.g_pending_commands
            = (some (st.g_pending_commands.buffer.getD st.g_pending_commands.tail zeroBlock),
                { buffer := st.g_pending_commands.buffer
                  head := st.g_pending_commands.head
                  tail := ((st.g_pending_commands.tail + 1) % 4294967296) &&& CMD_BUFFER_SIZE
                  count := st.g_pending_commands.count - 1 }) := by
          unfold CmdRingBuffer_Pop
          simp only [show st.g_pending_commands.count > 0 by omega, if_true]
        unfold CommandHandler_ProcessCamResponse at hres
        simp only [hv, Bool.not_true, Bool.false_eq_true, if_false, hpop] at hres
        generalize (st.g_pending_commands.buffer.getD st.g_pending_commands.tail zeroBlock)
          = blk at hres
        cases hm : blk.mapping with
        | none =>
          simp only [hm] at hres
          simp at hres
        | some mi =>
          simp only [hm] at hres
          cases hg : command_map.get? mi with
          | none =>
            simp only [hg] at hres
            simp at hres
          | some mapping =>
            simp only [hg] at hres
            cases hr : mapping.response_gen cam cam_len blk.original_request
                (blk.request_lenth % 256) with
            | none =>
              simp only [hr] at hres
              simp at hres
            | some resp =>
              simp only [hr] at hres
              simp at hres
    · have hf : VerifyCamPacket cam cam_len = false := by simpa using hv
      unfold CommandHandler_ProcessCamResponse
      simp only [hf, Bool.not_false, if_true]
  · intro hok hhead
    obtain ⟨hv, _, _⟩ := translate_ok_inv st pkt len tick hok
    have hk : MAKE_CTRL_KEY (pkt.getD 2 0) (pkt.getD 3 0)
        ∈ command_map.map (fun e => e.ctrl_key) := by
      by_contra hk
      have hst := translate_not_valid_state st pkt len tick (fun h => hk h.2)
      rw [mem_command_map_keys] at hk
      have hnone : FindMappingByCtrlKey (MAKE_CTRL_KEY (pkt.getD 2 0) (pkt.getD 3 0)) = none := by
        rw [FindMappingByCtrlKey_eq]
        rw [if_neg (fun h => hk (Or.inr h)), if_neg (fun h => hk (Or.inl h))]
      obtain ⟨_, ⟨mi, _, hmi, _⟩, _⟩ := translate_ok_inv st pkt len tick hok
      rw [hnone] at hmi
      cases hmi
    obtain ⟨mi, hmi, heq⟩ := translate_of_valid st pkt len tick hv hk
    obtain ⟨p1, _, p3⟩ := pushComplete_spec st.g_pending_commands 0 pkt len
      queryBitEnum.QUERY_NONE mi tick
    rw [heq] at hok ⊢
    cases hp : (CmdRingBuffer_PushComplete st.g_pending_commands 0 (some pkt) len
        queryBitEnum.QUERY_NONE (some mi) tick).1 with
    | false =>
      rw [hp] at hok
      simp at hok
    | true =>
      have hlen : len ≤ 32 := by
        by_contra hc
        have := p1.2 (Or.inr (Or.inl (by omega)))
        rw [hp] at this
        cases this
      simp only []
      rw [p3 hp]
      simp only []
      rw [getD_set_block _ _ _ hhead]
      refine ⟨by trivial, by trivial, by trivial, ?_, by trivial, ⟨mi, hmi, by trivial⟩⟩
      intro i hi
      exact copyRequest_getD pkt len i hi hlen

/-- C36 on a freshly initialised handler: the request with a wrong checksum,
an unsolicited device frame, and scenario A's request. -/
theorem C36_rejected_frames_leave_tracker_witness :
    (CommandHandler_TranslateCtrlToCam (CommandHandler_Init bootState) badChecksum_request 9
        0).2.2 = CommandHandler_Init bootState
    ∧ (CommandHandler_ProcessCamResponse (CommandHandler_Init bootState) ack_frame 6).2.2
        = CommandHandler_Init bootState
    ∧ ((CommandHandler_TranslateCtrlToCam (CommandHandler_Init bootState) scenarioA_request 9
          0).2.2.g_pending_commands.count
        = (CommandHandler_Init bootState).g_pending_commands.count + 1
      ∧ (CommandHandler_TranslateCtrlToCam (CommandHandler_Init bootState) scenarioA_request 9
          0).2.2.g_pending_commands.head
        = ((CommandHandler_Init bootState).g_pending_commands.head + 1) % 16
      ∧ (CommandHandler_TranslateCtrlToCam (CommandHandler_Init bootState) scenarioA_request 9
          0).2.2.g_pending_commands.tail
        = (CommandHandler_Init bootState).g_pending_commands.tail
      ∧ (∀ i, i < 9 →
          (((CommandHandler_TranslateCtrlToCam (CommandHandler_Init bootState) scenarioA_request
            9 0).2.2.g_pending_commands.buffer.getD
              (CommandHandler_Init bootState).g_pending_commands.head
              zeroBlock).original_request).getD i 0 = scenarioA_request.getD i 0)
      ∧ ((CommandHandler_TranslateCtrlToCam (CommandHandler_Init bootState) scenarioA_request 9
          0).2.2.g_pending_commands.buffer.getD
            (CommandHandler_Init bootState).g_pending_commands.head zeroBlock).request_lenth = 9
      ∧ (∃ mi, FindMappingByCtrlKey
            (MAKE_CTRL_KEY (scenarioA_request.getD 2 0) (scenarioA_request.getD 3 0)) = some mi
          ∧ ((CommandHandler_TranslateCtrlToCam (CommandHandler_Init bootState)
              scenarioA_request 9 0).2.2.g_pending_commands.buffer.getD
                (CommandHandler_Init bootState).g_pending_commands.head zeroBlock).mapping
              = some mi)) :=
  ⟨(C36_rejected_frames_leave_tracker (CommandHandler_Init bootState) badChecksum_request 9 0
      ack_frame 6).1 (by decide),
   (C36_rejected_frames_leave_tracker (CommandHandler_Init bootState) badChecksum_request 9 0
      ack_frame 6).2.1 (Or.inr (by decide)),
   (C36_rejected_frames_leave_tracker (CommandHandler_Init bootState) scenarioA_request 9 0
      ack_frame 6).2.2 (by decide) (by decide)⟩

/-! ## Single-bit errors: basic facts -/

/-- XOR commutes with taking the low eight bits. -/
theorem xor_mod_256 (a b : Nat) : (a ^^^ b) % 256 = (a % 256) ^^^ (b % 256) := by
  rw [← and_0xFF, ← and_0xFF a, ← and_0xFF b, Nat.and_xor_distrib_right]

/-- Flipping one of the low eight bits changes the low eight bits. -/
theorem flip_mod_256_ne (b j : Nat) (hj : j < 8) : (b ^^^ 2 ^ j) % 256 ≠ b % 256 := by
  have h2 : 2 ^ j % 256 = 2 ^ j := by
    apply Nat.mod_eq_of_lt
    have : 2 ^ j < 2 ^ 8 := Nat.pow_lt_pow_right (by norm_num) hj
    simpa using this
  rw [xor_mod_256, h2]
  exact xor_two_pow_ne _ _

/-- The sum of a list and of the list with one entry replaced share the sum of
the other entries. -/
theorem sum_set_split :
    ∀ (l : List Nat) (i v : Nat), i < l.length →
      ∃ R, l.sum = R + l.getD i 0 ∧ (l.set i v).sum = R + v := by
  intro l
  induction l with
  | nil =>
    intro i v h
    simp at h
  | cons a rest ih =>
    intro i v h
    cases i with
    | zero =>
      refine ⟨rest.sum, ?_, ?_⟩
      · simp [Nat.add_comm]
      · simp [Nat.add_comm]
    | succ k =>
      obtain ⟨R, h1, h2⟩ := ih k v (by simpa using h)
      refine ⟨a + R, ?_, ?_⟩
      · simp only [List.sum_cons, h1, List.getD_cons_succ]
        omega
      · simp only [List.set_cons_succ, List.sum_cons, h2]
        omega

/-- One flipped bit in a byte that `CalculateCtrlChecksum` sums changes the
checksum. -/
theorem CalculateCtrlChecksum_flip_ne (pkt : List Nat) (len index bit : Nat)
    (hlen : len ≤ pkt.length) (h4 : 4 ≤ len) (hi : index < len - 3) (hb : bit < 8) :
    CalculateCtrlChecksum (flipBit pkt index bit) len ≠ CalculateCtrlChecksum pkt len := by
  unfold CalculateCtrlChecksum flipBit
  rw [if_neg (by omega), if_neg (by omega)]
  have m1 := map_range_getD pkt 0 (len - 3) (by omega)
  have m2 := map_range_getD (pkt.set index (pkt.getD index 0 ^^^ 2 ^ bit)) 0 (len - 3)
    (by simp; omega)
  simp only [Nat.zero_add, List.drop_zero] at m1 m2
  rw [m1, m2, List.set_take]
  obtain ⟨R, h1, h2⟩ := sum_set_split (pkt.take (len - 3)) index
    (pkt.getD index 0 ^^^ 2 ^ bit) (by simp; omega)
  rw [← getD_take pkt index (len - 3) hi] at h1
  rw [h1, h2]
  have hne := flip_mod_256_ne (pkt.getD index 0) bit hb
  omega

/-- The XOR loop with one of the low eight bits of the start value flipped. -/
theorem foldl_xor_flip_acc (j : Nat) (hj : j < 8) :
    ∀ (l : List Nat) (x : Nat), x < 256 →
      l.foldl (fun x b => (x ^^^ b) % 256) (x ^^^ 2 ^ j)
        = (l.foldl (fun x b => (x ^^^ b) % 256) x) ^^^ 2 ^ j := by
  have h2 : 2 ^ j % 256 = 2 ^ j := by
    apply Nat.mod_eq_of_lt
    have : 2 ^ j < 2 ^ 8 := Nat.pow_lt_pow_right (by norm_num) hj
    simpa using this
  intro l
  induction l with
  | nil =>
    intro x _
    rfl
  | cons b rest ih =>
    intro x hx
    simp only [List.foldl_cons]
    have e : (x ^^^ 2 ^ j ^^^ b) % 256 = ((x ^^^ b) % 256) ^^^ 2 ^ j := by
      rw [Nat.xor_assoc, Nat.xor_comm (2 ^ j) b, ← Nat.xor_assoc, xor_mod_256 (x ^^^ b), h2]
    rw [e]
    exact ih _ (Nat.mod_lt _ (by norm_num))

/-- The XOR loop over a list with one bit of one entry flipped. -/
theorem foldl_xor_flip :
    ∀ (l : List Nat) (i j x : Nat), i < l.length → j < 8 → x < 256 →
      (l.set i (l.getD i 0 ^^^ 2 ^ j)).foldl (fun x b => (x ^^^ b) % 256) x
        = (l.foldl (fun x b => (x ^^^ b) % 256) x) ^^^ 2 ^ j := by
  intro l
  induction l with
  | nil =>
    intro i j x h
    simp at h
  | cons b rest ih =>
    intro i j x h hj hx
    have h2 : 2 ^ j % 256 = 2 ^ j := by
      apply Nat.mod_eq_of_lt
      have : 2 ^ j < 2 ^ 8 := Nat.pow_lt_pow_right (by norm_num) hj
      simpa using this
    cases i with
    | zero =>
      simp only [List.set_cons_zero, List.foldl_cons, List.getD_cons_zero]
      have e : (x ^^^ (b ^^^ 2 ^ j)) % 256 = ((x ^^^ b) % 256) ^^^ 2 ^ j := by
        rw [← Nat.xor_assoc, xor_mod_256 (x ^^^ b), h2]
      rw [e]
      exact foldl_xor_flip_acc j hj rest _ (Nat.mod_lt _ (by norm_num))
    | succ k =>
      simp only [List.set_cons_succ, List.foldl_cons, List.getD_cons_succ]
      exact ih k j _ (by simpa using h) hj (Nat.mod_lt _ (by norm_num))

/-- One flipped bit in a byte that `CalculateCamChecksum` XORs changes the
checksum. -/
theorem CalculateCamChecksum_flip_ne (pkt : List Nat) (len index bit : Nat)
    (hlen : len ≤ pkt.length) (h4 : 4 ≤ len) (h2 : 2 ≤ index) (hi : index < len - 2)
    (hb : bit < 8) :
    CalculateCamChecksum (flipBit pkt index bit) len ≠ CalculateCamChecksum pkt len := by
  unfold flipBit
  rw [CalculateCamChecksum_slice _ len h4 (by simp; omega),
    CalculateCamChecksum_slice pkt len h4 (by omega), List.set_take, List.drop_set,
    if_neg (by omega)]
  have hg : ((pkt.take (len - 2)).drop 2).getD (index - 2) 0 = pkt.getD index 0 := by
    rw [List.getD_eq_getElem?_getD, List.getElem?_drop, List.getElem?_take_of_lt (by omega),
      show 2 + (index - 2) = index by omega, ← List.getD_eq_getElem?_getD]
  rw [← hg, foldl_xor_flip _ _ _ _ (by simp; omega) hb (by norm_num)]
  exact xor_two_pow_ne _ _

/-- Reading a byte of a frame other than the flipped one. -/
theorem flipBit_getD_ne (frame : List Nat) (index bit k : Nat) (h : index ≠ k) :
    (flipBit frame index bit).getD k 0 = frame.getD k 0 := by
  unfold flipBit
  exact getD_set_ne _ _ _ _ h

/-! ## Single-bit errors: the claims -/

/-- C37: for every frame accepted by `VerifyCtrlPacket` (respectively
`VerifyCamPacket`) at the length `len` and every bit position 0 to 7 of any of
its `len` bytes, the frame with that one bit flipped is rejected by the same
verifier at the same length. -/
theorem C37_single_bit_error_rejected (pkt : List Nat) (len index bit : Nat)
    (hlen : len ≤ pkt.length) (hi : index < len) (hb : bit < 8) :
    (VerifyCtrlPacket pkt len = true →
      VerifyCtrlPacket (flipBit pkt index bit) len = false)
    ∧ (VerifyCamPacket pkt len = true →
      VerifyCamPacket (flipBit pkt index bit) len = false) := by
  constructor
  · intro hv
    obtain ⟨h8, _, e1, e2, hc⟩ := (verifyCtrl_iff pkt len).1 hv
    by_contra hne
    have ht : VerifyCtrlPacket (flipBit pkt index bit) len = true := by simpa using hne
    obtain ⟨_, _, f1, f2, hc1⟩ := (verifyCtrl_iff _ len).1 ht
    by_cases c1 : index < len - 3
    · rw [flipBit_getD_ne pkt index bit (len - 3) (by omega), ← hc] at hc1
      exact CalculateCtrlChecksum_flip_ne pkt len index bit hlen (by omega) c1 hb hc1
    · by_cases c2 : index = len - 3
      · subst c2
        rw [flipBit_getD pkt (len - 3) bit (by omega)] at hc1
        unfold flipBit at hc1
        rw [CalculateCtrlChecksum_set pkt len (len - 3) _ (le_refl _), hc] at hc1
        exact xor_two_pow_ne _ _ hc1.symm
      · by_cases c3 : index = len - 2
        · subst c3
          rw [flipBit_getD pkt (len - 2) bit (by omega), e1] at f1
          exact xor_two_pow_ne _ _ f1
        · have c4 : index = len - 1 := by omega
          subst c4
          rw [flipBit_getD pkt (len - 1) bit (by omega), e2] at f2
          exact xor_two_pow_ne _ _ f2
  · intro hv
    obtain ⟨h6, s0, s1, e1, hc⟩ := (verifyCam_iff pkt len).1 hv
    by_contra hne
    have ht : VerifyCamPacket (flipBit pkt index bit) len = true := by simpa using hne
    obtain ⟨_, t0, t1, f1, hc1⟩ := (verifyCam_iff _ len).1 ht
    by_cases c0 : index = 0
    · subst c0
      rw [flipBit_getD pkt 0 bit (by omega), s0] at t0
      exact xor_two_pow_ne _ _ t0
    · by_cases c1 : index = 1
      · subst c1
        rw [flipBit_getD pkt 1 bit (by omega), s1] at t1
        exact xor_two_pow_ne _ _ t1
      · by_cases c2 : index < len - 2
        · rw [flipBit_getD_ne pkt index bit (len - 2) (by omega), ← hc] at hc1
          exact CalculateCamChecksum_flip_ne pkt len index bit hlen (by omega) (by omega) c2 hb
            hc1
        · by_cases c3 : index = len - 2
          · subst c3
            rw [flipBit_getD pkt (len - 2) bit (by omega)] at hc1
            unfold flipBit at hc1
            rw [CalculateCamChecksum_set pkt len (len - 2) _ (le_refl _), hc] at hc1
            exact xor_two_pow_ne _ _ hc1.symm
          · have c4 : index = len - 1 := by omega
            subst c4
            rw [flipBit_getD pkt (len - 1) bit (by omega), e1] at f1
            exact xor_two_pow_ne _ _ f1

/-- C37 on scenario A's request with bit 7 of its start byte flipped, and on
the device frame `55 AA 01 00 01 F0` with bit 0 of its byte 3 flipped. -/
theorem C37_single_bit_error_rejected_witness :
    VerifyCtrlPacket (flipBit scenarioA_request 0 7) 9 = false
    ∧ VerifyCamPacket (flipBit ack_frame 3 0) 6 = false :=
  ⟨(C37_single_bit_error_rejected scenarioA_request 9 0 7 (by decide) (by decide)
      (by decide)).1 (by decide),
   (C37_single_bit_error_rejected ack_frame 6 3 0 (by decide) (by decide) (by decide)).2
      (by decide)⟩

/-! ## Reachable states: basic facts -/

/-- In every tracker state reached from `CmdRingBuffer_Init`, the entry storage
has its 32 slots. -/
theorem trackerRun_buffer_length (calls : List TrackerCall) :
    (trackerRun calls).buffer.length = 32 := by
  unfold trackerRun
  have key : ∀ (cs : List TrackerCall) (rb : cmdRingBuffer_t), rb.buffer.length = 32 →
      (cs.foldl trackerStep rb).buffer.length = 32 := by
    intro cs
    induction cs with
    | nil => intro rb h; simpa using h
    | cons c cs ih =>
      intro rb h
      rw [List.foldl_cons]
      apply ih
      cases c with
      | push resp_len req req_len q m tick =>
        simp only [trackerStep, CmdRingBuffer_PushComplete]
        cases req <;> cases m <;> simp only [] <;> try exact h
        split_ifs <;> simp [h]
      | pop =>
        simp only [trackerStep, CmdRingBuffer_Pop]
        split_ifs <;> exact h
      | peek =>
        simp only [trackerStep, CmdRingBuffer_Peek]
        split_ifs <;> exact h
      | removeIfTimeout timeout_ms current_time =>
        simp only [trackerStep, CmdRingBuffer_RemoveIfTimeout]
        split_ifs <;> exact h
      | clear =>
        simp [trackerStep, CmdRingBuffer_Clear, CMD_MAX_LENGTH]
  apply key
  simp [CmdRingBuffer_Init, CMD_MAX_LENGTH]

/-- What the appending calls keep true of an old format builder. -/
theorem OldPacket_AddByte_inv (p : OldPacket_t) (b : Nat)
    (h : 4 ≤ p.length ∧ p.length ≤ 29 ∧ p.data_length + 4 = p.length ∧ p.buffer.length = 32) :
    4 ≤ (OldPacket_AddByte p b).2.length ∧ (OldPacket_AddByte p b).2.length ≤ 29
      ∧ (OldPacket_AddByte p b).2.data_length + 4 = (OldPacket_AddByte p b).2.length
      ∧ (OldPacket_AddByte p b).2.buffer.length = 32 := by
  obtain ⟨h1, h2, h3, h4⟩ := h
  unfold OldPacket_AddByte
  simp only [PACKET_BUILDER_MAX_SIZE]
  split_ifs with hc
  · simp only [List.length_set]
    refine ⟨?_, ?_, ?_, h4⟩ <;> omega
  · exact ⟨h1, h2, h3, h4⟩

/-- The loop of `OldPacket_AddBytes` keeps the same facts true. -/
theorem OldPacket_AddBytesFrom_inv (data : List Nat) :
    ∀ (n i : Nat) (p : OldPacket_t),
      (4 ≤ p.length ∧ p.length ≤ 29 ∧ p.data_length + 4 = p.length ∧ p.buffer.length = 32) →
      4 ≤ (OldPacket_AddBytesFrom data i n p).2.length
        ∧ (OldPacket_AddBytesFrom data i n p).2.length ≤ 29
        ∧ (OldPacket_AddBytesFrom data i n p).2.data_length + 4
            = (OldPacket_AddBytesFrom data i n p).2.length
        ∧ (OldPacket_AddBytesFrom data i n p).2.buffer.length = 32 := by
  intro n
  induction n with
  | zero =>
    intro i p h
    simpa [OldPacket_AddBytesFrom] using h
  | succ m ih =>
    intro i p h
    have hb := OldPacket_AddByte_inv p (data.getD i 0) h
    simp only [OldPacket_AddBytesFrom]
    split_ifs
    · exact ih (i + 1) _ hb
    · exact hb

/-- In every builder state reached from `OldPacket_Init` by appending calls:
the length is between 4 and 29, `data_length` is the length minus 4, and the
buffer has its 32 bytes. -/
theorem builderRun_inv (t : OldPacketType_t) (c : Nat) (calls : List BuilderCall) :
    4 ≤ (builderRun t c calls).length ∧ (builderRun t c calls).length ≤ 29
      ∧ (builderRun t c calls).data_length + 4 = (builderRun t c calls).length
      ∧ (builderRun t c calls).buffer.length = 32 := by
  unfold builderRun
  have key : ∀ (cs : List BuilderCall) (p : OldPacket_t),
      (4 ≤ p.length ∧ p.length ≤ 29 ∧ p.data_length + 4 = p.length ∧ p.buffer.length = 32) →
      (4 ≤ (cs.foldl builderStep p).length ∧ (cs.foldl builderStep p).length ≤ 29
        ∧ (cs.foldl builderStep p).data_length + 4 = (cs.foldl builderStep p).length
        ∧ (cs.foldl builderStep p).buffer.length = 32) := by
    intro cs
    induction cs with
    | nil => intro p h; simpa using h
    | cons call cs ih =>
      intro p h
      rw [List.foldl_cons]
      apply ih
      cases call with
      | addByte b => exact OldPacket_AddByte_inv p b h
      | addUint16 v =>
        simp only [builderStep, OldPacket_AddUint16]
        have b1 := OldPacket_AddByte_inv p ((v &&& 0xFF) % 256) h
        have b2 := OldPacket_AddByte_inv _ (((v >>> 8) &&& 0xFF) % 256) b1
        split_ifs
        · exact b2
        · exact b2
        · exact b1
      | addUint32 v =>
        simp only [builderStep, OldPacket_AddUint32]
        have b1 := OldPacket_AddByte_inv p ((v &&& 0xFF) % 256) h
        have b2 := OldPacket_AddByte_inv _ (((v >>> 8) &&& 0xFF) % 256) b1
        have b3 := OldPacket_AddByte_inv _ (((v >>> 16) &&& 0xFF) % 256) b2
        have b4 := OldPacket_AddByte_inv _ (((v >>> 24) &&& 0xFF) % 256) b3
        split_ifs
        · exact b4
        · exact b4
        · exact b3
        · exact b2
        · exact b1
      | addBytes data n => exact OldPacket_AddBytesFrom_inv data n 0 p h
  apply key
  have hl : (OldPacket_Init ⟨[], 0, 0⟩ t c).length = 4 := rfl
  have hd : (OldPacket_Init ⟨[], 0, 0⟩ t c).data_length = 0 := rfl
  have hb : (OldPacket_Init ⟨[], 0, 0⟩ t c).buffer.length = 32 := by
    rw [OldPacket_Init_buffer]
    rfl
  rw [hl, hd, hb]
  omega

/-! ## Reachable states: the claims -/

/-- C38: in every tracker state reached from `CmdRingBuffer_Init` by any
sequence of PushComplete, Pop, Peek, RemoveIfTimeout and Clear calls, the entry
storage has the `CMD_MAX_LENGTH` = 32 slots of its declaration, and the head,
where an entry is written, and the tail, where an entry is read, are indices of
it. -/
theorem C38_tracker_indices_in_bounds (calls : List TrackerCall) :
    (trackerRun calls).buffer.length = CMD_MAX_LENGTH
    ∧ (trackerRun calls).head < (trackerRun calls).buffer.length
    ∧ (trackerRun calls).tail < (trackerRun calls).buffer.length := by
  obtain ⟨_, h2, h3⟩ := trackerRun_bounds calls
  have hl := trackerRun_buffer_length calls
  refine ⟨hl, ?_, ?_⟩ <;> omega

/-- C39: in every builder state reached from `OldPacket_Init` by any sequence
of `OldPacket_AddByte`, `OldPacket_AddUint16`, `OldPacket_AddUint32` and
`OldPacket_AddBytes` calls, whatever they return, the length is between 4 and
29 and `data_length` is the length minus 4; `OldPacket_Finalize` on such a
state returns true, sets byte 1 to `data_length` and yields the length
`data_length + 7`, which is at most 32, the size of the buffer. -/
theorem C39_builder_stays_in_bounds (t : OldPacketType_t) (c : Nat) (calls : List BuilderCall) :
    4 ≤ (builderRun t c calls).length
    ∧ (builderRun t c calls).length ≤ 29
    ∧ (builderRun t c calls).data_length = (builderRun t c calls).length - 4
    ∧ (builderRun t c calls).buffer.length = PACKET_BUILDER_MAX_SIZE
    ∧ (OldPacket_Finalize (builderRun t c calls)).1 = true
    ∧ (OldPacket_Finalize (builderRun t c calls)).2.buffer.getD 1 0
        = (builderRun t c calls).data_length
    ∧ (OldPacket_Finalize (builderRun t c calls)).2.length
        = (builderRun t c calls).data_length + 7
    ∧ (OldPacket_Finalize (builderRun t c calls)).2.length
        ≤ (OldPacket_Finalize (builderRun t c calls)).2.buffer.length := by
  obtain ⟨h1, h2, h3, h4⟩ := builderRun_inv t c calls
  obtain ⟨f1, f2, f3, f4, f5⟩ := OldPacket_Finalize_ok (builderRun t c calls) h1 h2 h4
  refine ⟨h1, h2, by omega, h4, f1, ?_, by omega, by omega⟩
  rw [getD_take _ 1 ((builderRun t c calls).length + 3) (by omega), f5,
    List.getD_append _ _ _ _ (by simp; omega), getD_set_self _ _ _ (by simp; omega)]

/-! ## Device responses and the control response: the claims -/

/-- C40: for every handler state and every two device frames that
`VerifyCamPacket` accepts, `CommandHandler_ProcessCamResponse` started from
that state returns the same result, writes the same control response and leaves
the same state for the one frame as for the other. -/
theorem C40_response_independent_of_device_frame (st : HandlerState) (d1 d2 : List Nat)
    (l1 l2 : Nat) (h1 : VerifyCamPacket d1 l1 = true) (h2 : VerifyCamPacket d2 l2 = true) :
    CommandHandler_ProcessCamResponse st d1 l1 = CommandHandler_ProcessCamResponse st d2 l2 := by
  unfold CommandHandler_ProcessCamResponse
  simp only [h1, h2, Bool.not_true, Bool.false_eq_true, if_false]
  cases hp : (CmdRingBuffer_Pop st.g_pending_commands).1 with
  | none => rfl
  | some pending =>
    simp only []
    cases hm : pending.mapping with
    | none => rfl
    | some mi =>
      simp only []
      cases hg : command_map.get? mi with
      | none => rfl
      | some mapping =>
        simp only []
        rw [(command_map_entries mi mapping hg).2]
        rfl

/-- C40 on the handler that holds scenario A's request, with the frames
`COMMON_ACK` and `COMMON_NACK`. -/
theorem C40_response_independent_of_device_frame_witness :
    CommandHandler_ProcessCamResponse
        (CommandHandler_TranslateCtrlToCam (CommandHandler_Init bootState) scenarioA_request 9
          0).2.2 ack_frame 6
      = CommandHandler_ProcessCamResponse
          (CommandHandler_TranslateCtrlToCam (CommandHandler_Init bootState) scenarioA_request 9
            0).2.2 nack_frame 6 :=
  C40_response_independent_of_device_frame _ ack_frame nack_frame 6 6 (by decide) (by decide)

/-! ## Expiry after a pop: the claims -/

set_option maxRecDepth 100000 in
/-- C4 (code defect): two requests are pushed at the clock values 100 and 2000
and one `CmdRingBuffer_Pop` returns the first, stamped 100. The request stamped
2000, held in slot 1, is the only one still pending, hence the oldest; at the
clock value 2500 its age is 500 ms. The tail is still 0 after the pop, so
`CmdRingBuffer_RemoveIfTimeout` with a timeout of 1000 ms reads the stamp 100
of slot 0, returns true and lowers the count to 0: a request of age 500 ms is
given up as expired. -/
theorem C4_young_request_expired_after_pop :
    ((CmdRingBuffer_Pop
        (trackerRun
          [ TrackerCall.push 0 (some [0x11]) 1 queryBitEnum.QUERY_NONE (some 0) 100,
            TrackerCall.push 0 (some [0x22]) 1 queryBitEnum.QUERY_NONE (some 1) 2000 ])).1.map
        (fun b => b.timestamp)) = some 100
    ∧ poppedOnceTracker.count = 1
    ∧ poppedOnceTracker.head = 2
    ∧ poppedOnceTracker.tail = 0
    ∧ (poppedOnceTracker.buffer.getD 1 zeroBlock).timestamp = 2000
    ∧ (poppedOnceTracker.buffer.getD 1 zeroBlock).original_request.getD 0 0 = 0x22
    ∧ elapsedTime 2500 2000 = 500
    ∧ (poppedOnceTracker.buffer.getD poppedOnceTracker.tail zeroBlock).timestamp = 100
    ∧ CmdRingBuffer_RemoveIfTimeout poppedOnceTracker 1000 2500
        = (true, { buffer := poppedOnceTracker.buffer, head := 2, tail := 1, count := 0 }) := by
  refine ⟨rfl, rfl, rfl, rfl, rfl, rfl, rfl, rfl, rfl⟩

set_option maxRecDepth 100000 in
/-- C34 (code defect): on `staleTailHandler` sixteen requests are pending, the
one in slot 0 stamped 5000 and the fifteen in the slots 1 to 15 stamped 10; the
tail is 0, left there by the `CmdRingBuffer_Pop` that answered the first
request. At the clock value 5500 the oldest pending request is 5490 ms old,
yet `CommandHandler_CheckTimeouts` reads the stamp 5000 of slot 0, removes
nothing, returns 0 and leaves the tracker as it was, neither empty nor with an
oldest entry younger than 1000 ms. -/
theorem C34_expired_requests_kept_after_pop :
    staleTailHandler.g_pending_commands.count = 16
    ∧ staleTailHandler.g_pending_commands.head = 1
    ∧ staleTailHandler.g_pending_commands.tail = 0
    ∧ (staleTailHandler.g_pending_commands.buffer.map (fun b => b.timestamp)).take 16
        = 5000 :: List.replicate 15 10
    ∧ elapsedTime 5500 10 = 5490
    ∧ elapsedTime 5500 5000 = 500
    ∧ CommandHandler_CheckTimeouts staleTailHandler 5500 = some (0, staleTailHandler) := by
  refine ⟨rfl, rfl, rfl, rfl, rfl, rfl, rfl⟩

end StaCam
